import Mathlib

/-!
# DumpStats: the aggregation engine of objects.cpp

A shallow embedding of the statistics engine of DumpStats (class data in
objects.H / objects.cpp) and of the properties its specification states.

Conventions of the embedding.

* A std::string is the list of its characters (Str).
* A call that does not return normally yields a Fault: an exception of the
  standard library that nothing in the program catches (std::stoi, std::stod), or
  an operation whose behaviour the language leaves undefined (operator[] outside a
  vector, signed overflow of an int).  The program has no handler, so either ends
  the run; a successful call yields Except.ok.
* std::time(nullptr) is an argument (now) of the functions that read the clock.
* The double arithmetic and the functions of the C library the engine calls are the
  fields of a structure Libm over an arbitrary carrier F, so that the engine is
  executable once they are given and every theorem proved for all of them also
  holds of any particular arithmetic.
* time_t values are integers; int values are integers kept inside
  [INT_MIN, INT_MAX] by explicit checks where the program computes them.
  Container sizes are assumed to fit an int (the loop counters of the source).
* The member icaoIata of class data is used by createJS only and is left out.
-/

namespace DumpStats

/-! ## Strings, faults and the library functions on integers -/

/-- A std::string, as the list of its characters. -/
abbrev Str := List Char

/-- The ways in which a call fails to return normally. -/
inductive Fault where
  /-- An exception std::invalid_argument (std::stoi, std::stod: no conversion). -/
  | invalidArgument
  /-- An exception std::out_of_range (std::stoi, std::stod: value not representable). -/
  | outOfRange
  /-- Undefined behaviour: operator[] outside the bounds of a vector or string. -/
  | outOfBounds
  /-- Undefined behaviour: signed overflow of an int, or a double converted to int
  that an int cannot hold. -/
  | intOverflow
  deriving DecidableEq, Repr

/-- Results of fallible calls can be compared (used to evaluate the engine on
concrete inputs). -/
instance instDecidableEqExcept {ε α : Type} [DecidableEq ε] [DecidableEq α] :
    DecidableEq (Except ε α) := fun a b =>
  match a, b with
  | Except.ok x, Except.ok y =>
    if h : x = y then isTrue (by rw [h]) else isFalse (fun e => h (by cases e; rfl))
  | Except.error x, Except.error y =>
    if h : x = y then isTrue (by rw [h]) else isFalse (fun e => h (by cases e; rfl))
  | Except.ok _, Except.error _ => isFalse (fun e => by cases e)
  | Except.error _, Except.ok _ => isFalse (fun e => by cases e)

/-- The largest int (32 bits). -/
def INT_MAX : Int := 2147483647

/-- The smallest int (32 bits). -/
def INT_MIN : Int := -2147483648

/-- Number of seconds a flight has to stay in the flight buffer (objects.H). -/
def FBUFFER_TIMEOUT : Int := 1800

/-- The isspace of the C locale. -/
def isspace (c : Char) : Bool :=
  c = ' ' || c = '\t' || c = '\n' || c = '\r' || c.toNat = 11 || c.toNat = 12

/-- The isalpha of the C locale (the program never changes the locale). -/
def isalpha (c : Char) : Bool :=
  ('A'.toNat ≤ c.toNat && c.toNat ≤ 'Z'.toNat) || ('a'.toNat ≤ c.toNat && c.toNat ≤ 'z'.toNat)

/-- The isdigit of the C library. -/
def isdigit (c : Char) : Bool :=
  '0'.toNat ≤ c.toNat && c.toNat ≤ '9'.toNat

/-- The isupper of the C locale. -/
def isupper (c : Char) : Bool :=
  'A'.toNat ≤ c.toNat && c.toNat ≤ 'Z'.toNat

/-- The value of a decimal digit. -/
def digitValue (c : Char) : Nat := c.toNat - '0'.toNat

/-- The value of a run of decimal digits, most significant first. -/
def decValue (ds : List Char) : Nat :=
  ds.foldl (fun acc c => 10 * acc + digitValue c) 0

/-- The optional sign read by strtol: whether it is a minus, and the rest. -/
def readSign : Str → Bool × Str
  | '-' :: r => (true, r)
  | '+' :: r => (false, r)
  | s => (false, s)

/-- The function std::stoi(str) in base 10: leading white space is skipped, an optional
sign and the longest run of digits are read, what follows is ignored; no digit
throws std::invalid_argument, a value outside int throws std::out_of_range. -/
def stoi (str : Str) : Except Fault Int :=
  let body := readSign (str.dropWhile isspace)
  let ds := body.2.takeWhile isdigit
  if ds = [] then Except.error Fault.invalidArgument
  else
    let v : Int := if body.1 then -(decValue ds : Int) else (decValue ds : Int)
    if v < INT_MIN ∨ INT_MAX < v then Except.error Fault.outOfRange
    else Except.ok v

/-- The text printf writes for an int under the conversion %d. -/
def printInt (n : Int) : Str :=
  if n < 0 then '-' :: Nat.toDigits 10 n.natAbs else Nat.toDigits 10 n.natAbs

/-- The expression v[i] on a std::vector for an int index: outside the bounds the
behaviour is undefined. -/
def vecGet {α : Type} (v : List α) (i : Int) : Except Fault α :=
  if 0 ≤ i then
    match v[i.toNat]? with
    | some x => Except.ok x
    | none => Except.error Fault.outOfBounds
  else Except.error Fault.outOfBounds

/-- The assignment v[i] = x on a std::vector for an int index. -/
def vecSet {α : Type} (v : List α) (i : Int) (x : α) : Except Fault (List α) :=
  if 0 ≤ i ∧ i.toNat < v.length then Except.ok (v.set i.toNat x)
  else Except.error Fault.outOfBounds

/-- The expression s[i] on a std::string: the character at i, the terminating zero
at i = size(), undefined beyond. -/
def strAt (s : Str) (i : Nat) : Except Fault Char :=
  if i ≤ s.length then Except.ok (s.getD i (Char.ofNat 0))
  else Except.error Fault.outOfBounds

/-- The call s.substr(0, n): the first n characters (all of s when it is shorter). -/
def substr0 (s : Str) (n : Nat) : Str := s.take n

/-- The increment x++ of an int: signed overflow is undefined. -/
def incrInt (x : Int) : Except Fault Int :=
  if x < INT_MAX then Except.ok (x + 1) else Except.error Fault.intOverflow

/-! ## std::map -/

/-- The order of std::string (characters compared by code). -/
def strLt : Str → Str → Bool
  | [], [] => false
  | [], _ :: _ => true
  | _ :: _, [] => false
  | a :: as, b :: bs =>
    if a.toNat < b.toNat then true
    else if b.toNat < a.toNat then false
    else strLt as bs

/-- The order of the int keys. -/
def intLt (a b : Int) : Bool := decide (a < b)

/-- The call m.find(k) on a std::map held as the list of its entries in key order:
none stands for m.end(). -/
def mapFind {K : Type} [DecidableEq K] (m : List (K × Int)) (k : K) : Option Int :=
  match m with
  | [] => none
  | (k1, v1) :: rest => if k = k1 then some v1 else mapFind rest k

/-- The assignment m[k] = v on a std::map: the entry of k is replaced, or inserted
at its place in key order. -/
def mapSet {K : Type} [DecidableEq K] (lt : K → K → Bool) (k : K) (v : Int) :
    List (K × Int) → List (K × Int)
  | [] => [(k, v)]
  | (k1, v1) :: rest =>
    if k = k1 then (k, v) :: rest
    else if lt k k1 then (k, v) :: (k1, v1) :: rest
    else (k1, v1) :: mapSet lt k v rest

/-- The statement pair if (m.find(k) == m.end()) m[k] = 1; else m[k]++; that both
the company plot and the heat map use. -/
def mapCount {K : Type} [DecidableEq K] (lt : K → K → Bool) (m : List (K × Int)) (k : K) :
    Except Fault (List (K × Int)) :=
  match mapFind m k with
  | none => Except.ok (mapSet lt k 1 m)
  | some v =>
    match incrInt v with
    | Except.ok w => Except.ok (mapSet lt k w m)
    | Except.error e => Except.error e

/-! ## split -/

/-- One call getline(ss, tok, delimiter) on the rest of the stream: none when the
stream is exhausted (the call fails), otherwise the token read and the rest of the
stream after the delimiter that ended it. -/
def getline (delimiter : Char) : Str → Option (Str × Str)
  | [] => none
  | c :: cs =>
    if c = delimiter then some ([], cs)
    else
      match getline delimiter cs with
      | none => some ([c], [])
      | some (tok, rest) => some (c :: tok, rest)

/-- The while loop of split: fuel bounds the number of iterations. -/
def splitLoop (delimiter : Char) : Nat → Str → List Str → List Str
  | 0, _, internal => internal
  | fuel + 1, ss, internal =>
    match getline delimiter ss with
    | none => internal
    | some (tok, rest) => splitLoop delimiter fuel rest (internal ++ [tok])

/-- The function split(str, delimiter) of objects.cpp.  Every successful getline
consumes at least one character, so str.length iterations are enough for the loop
to reach the end of the stream (splitLoop_fuel). -/
def split (str : Str) (delimiter : Char) : List Str :=
  splitLoop delimiter (str.length + 1) str []

/-! ## The arithmetic on double and the C library -/

/-- Coordinates in decimal degrees (struct coords of objects.H). -/
structure tCoords (F : Type) where
  lat : F
  lon : F
  deriving DecidableEq, Repr

/-- The double arithmetic and the functions of the C and C++ libraries that the
engine calls, over a carrier F for the values of type double. -/
structure Libm (F : Type) where
  /-- The double a decimal literal of the source denotes, or an int converted. -/
  lit : ℚ → F
  /-- The constant M_PI. -/
  pi : F
  add : F → F → F
  sub : F → F → F
  mul : F → F → F
  div : F → F → F
  neg : F → F
  sin : F → F
  cos : F → F
  tan : F → F
  log : F → F
  sqrt : F → F
  pow : F → F → F
  atan2 : F → F → F
  fmod : F → F → F
  round : F → F
  /-- The unqualified call abs(x) of getBearing on a double, as the toolchain
  resolves it: the int abs(int) of the C library applied to the argument converted
  to int (g++ with libstdc++), or std::abs(double). -/
  abs : F → F
  /-- The comparison x > y. -/
  gt : F → F → Bool
  /-- The conversion (int) x: none when x is not a number or its integral part does
  not fit an int (undefined behaviour). -/
  toInt : F → Option Int
  /-- The function std::stod(str). -/
  stod : Str → Except Fault F

/-- The conversion (int) x as a fallible step. -/
def castInt {F : Type} (M : Libm F) (x : F) : Except Fault Int :=
  match M.toInt x with
  | some n => Except.ok n
  | none => Except.error Fault.intOverflow

/-- The constant EARTH_RADIUS of objects.H. -/
def EARTH_RADIUS : ℚ := 6378137 / 1000

/-- The function toRadians: degrees * (M_PI / 180.0). -/
def toRadians {F : Type} (M : Libm F) (degrees : F) : F :=
  M.mul degrees (M.div M.pi (M.lit 180))

/-- The function toDegrees: radians * (180.0 / M_PI). -/
def toDegrees {F : Type} (M : Libm F) (radians : F) : F :=
  M.mul radians (M.div (M.lit 180) M.pi)

/-- The function toKm: nm / 0.53996. -/
def toKm {F : Type} (M : Libm F) (nm : F) : F :=
  M.div nm (M.lit (53996 / 100000))

/-- The function toNm: km * 0.53996. -/
def toNm {F : Type} (M : Libm F) (km : F) : F :=
  M.mul km (M.lit (53996 / 100000))

/-- The function getDistance (haversine formula). -/
def getDistance {F : Type} (M : Libm F) (first second : tCoords F) : F :=
  let deltaLat := M.sub (toRadians M first.lat) (toRadians M second.lat)
  let deltaLon := M.sub (toRadians M first.lon) (toRadians M second.lon)
  let aHarv :=
    M.add (M.pow (M.sin (M.div deltaLat (M.lit 2))) (M.lit 2))
      (M.mul (M.mul (M.cos (toRadians M first.lat)) (M.cos (toRadians M second.lat)))
        (M.pow (M.sin (M.div deltaLon (M.lit 2))) (M.lit 2)))
  let cHarv := M.mul (M.lit 2) (M.atan2 (M.sqrt aHarv) (M.sqrt (M.sub (M.lit 1) aHarv)))
  M.mul (M.lit EARTH_RADIUS) cHarv

/-- The correction getBearing applies to the longitude difference. -/
def normDeltaLon {F : Type} (M : Libm F) (deltaLon : F) : F :=
  if M.gt (M.abs deltaLon) M.pi then
    if M.gt deltaLon (M.lit 0) then
      M.neg (M.sub (M.mul (M.lit 2) M.pi) deltaLon)
    else
      M.sub (M.mul (M.lit 2) M.pi) deltaLon
  else deltaLon

/-- The function getBearing (forward azimuth from first to second). -/
def getBearing {F : Type} (M : Libm F) (first second : tCoords F) : F :=
  let deltaLon := M.sub (toRadians M second.lon) (toRadians M first.lon)
  let dPhi :=
    M.log (M.div (M.tan (M.add (M.div (toRadians M second.lat) (M.lit 2)) (M.div M.pi (M.lit 4))))
      (M.tan (M.add (M.div (toRadians M first.lat) (M.lit 2)) (M.div M.pi (M.lit 4)))))
  let deltaLon := normDeltaLon M deltaLon
  M.fmod (M.add (toDegrees M (M.atan2 deltaLon dPhi)) (M.lit 360)) (M.lit 360)

/-! ## The state of the engine -/

/-- An element of the flight buffer (struct flightStamp of objects.H). -/
structure tFStamp where
  hex : Str
  callsign : Str
  timestamp : Int
  deriving DecidableEq, Repr

/-- The data members of class data. -/
structure data (F : Type) where
  /-- Time of the last change of the file. -/
  timestamp : Int
  /-- Time of program launch. -/
  uptime : Int
  /-- Reference position for range calculations. -/
  ref : tCoords F
  /-- Polar range plot: std::vector of tCoords. -/
  polarRange : List (tCoords F)
  /-- Heat map: std::map from int to int, entries in key order. -/
  heatMap : List (Int × Int)
  /-- Company plot: std::map from std::string to int, entries in key order. -/
  companyPlot : List (Str × Int)
  /-- Altitude density plot: std::vector of int. -/
  altPlot : List Int
  /-- Buffer of the last appearance of each pair ICAO24 - callsign. -/
  flightBuffer : List tFStamp
  deriving DecidableEq, Repr

/-- The constructor data(double lat, double lon), run at time now.  It does not
initialise the member timestamp: uninit is the indeterminate value it holds. -/
def dataScratch {F : Type} (now uninit : Int) (lat lon : F) : data F :=
  { timestamp := uninit
    uptime := now
    ref := { lat := lat, lon := lon }
    polarRange := List.replicate 360 { lat := lat, lon := lon }
    heatMap := []
    companyPlot := []
    altPlot := List.replicate 501 0
    flightBuffer := [] }

/-- The member function getUptime. -/
def getUptime {F : Type} (s : data F) : Int := s.uptime

/-! ## The flight buffer -/

/-- The loop of flushFBuffer with loop variable i, the buffer and the counter as
they stand; fuel bounds the number of iterations. -/
def flushLoop (now : Int) : Nat → Nat → List tFStamp → Int → List tFStamp × Int
  | 0, _, flightBuffer, counter => (flightBuffer, counter)
  | fuel + 1, i, flightBuffer, counter =>
    match flightBuffer[i]? with
    | none => (flightBuffer, counter)
    | some st =>
      if now - st.timestamp > FBUFFER_TIMEOUT then
        flushLoop now fuel (i + 1) (flightBuffer.eraseIdx i) (counter + 1)
      else
        flushLoop now fuel (i + 1) flightBuffer counter

/-- The member function flushFBuffer, run at time now: the new state and the value
returned.  The loop variable grows at every iteration and the buffer never does, so
as many iterations as the buffer is long end the loop (flushLoop_fuel). -/
def flushFBuffer {F : Type} (now : Int) (s : data F) : data F × Int :=
  let r := flushLoop now s.flightBuffer.length 0 s.flightBuffer 0
  ({ s with flightBuffer := r.1 }, r.2)

/-- The member function isInFBuffer. -/
def isInFBuffer (flightBuffer : List tFStamp) (stamp : tFStamp) : Bool :=
  match flightBuffer with
  | [] => false
  | st :: rest =>
    if st.hex = stamp.hex ∧ st.callsign = stamp.callsign then true
    else isInFBuffer rest stamp

/-! ## processMessage -/

/-- The condition of case 1 on the callsign,
isalpha(company[0]) && isalpha(company[1]) && isalpha(company[2]) && isdigit(callsign[3]),
evaluated from left to right; a conjunct is evaluated only when those before it hold. -/
def companyTest (company callsign : Str) : Except Fault Bool := do
  let c0 ← strAt company 0
  if isalpha c0 then
    let c1 ← strAt company 1
    if isalpha c1 then
      let c2 ← strAt company 2
      if isalpha c2 then
        let c3 ← strAt callsign 3
        pure (isdigit c3)
      else pure false
    else pure false
  else pure false

/-- The body of case 1 of processMessage (ID message) on the split fields, at time
now: the value returned and the new state. -/
def caseId {F : Type} (now : Int) (s : data F) (fields : List Str) :
    Except Fault (Int × data F) := do
  let f4 ← vecGet fields 4
  if f4 ≠ [] then
    let f10 ← vecGet fields 10
    if f10 ≠ [] then
      let stamp : tFStamp := { hex := f4, callsign := f10, timestamp := now }
      if isInFBuffer s.flightBuffer stamp then pure (1, s)
      else
        let company := substr0 stamp.callsign 3
        let airline ← companyTest company stamp.callsign
        let plot ← if airline then mapCount strLt s.companyPlot company else pure s.companyPlot
        pure (1, { s with companyPlot := plot, flightBuffer := s.flightBuffer ++ [stamp] })
    else pure (1, s)
  else pure (1, s)

/-- The update of the polar range plot in case 3, for the position mPos of the
message: the slot of the rounded bearing takes mPos when mPos is farther from the
reference position than the position the slot holds. -/
def polarStep {F : Type} (M : Libm F) (s : data F) (mPos : tCoords F) :
    Except Fault (List (tCoords F)) := do
  let bearing ← castInt M (M.round (getBearing M s.ref mPos))
  let distance := getDistance M s.ref mPos
  let maxPos ← vecGet s.polarRange bearing
  let maxDistance := getDistance M s.ref maxPos
  if M.gt distance maxDistance then vecSet s.polarRange bearing mPos
  else pure s.polarRange

/-- The key of the heat map in case 3: sprintf with the format %d%d of the rounded
latitude * 100 and longitude * 100, converted back by std::stoi. -/
def heatKey {F : Type} (M : Libm F) (mPos : tCoords F) : Except Fault Int := do
  let latInt ← castInt M (M.round (M.mul mPos.lat (M.lit 100)))
  let lonInt ← castInt M (M.round (M.mul mPos.lon (M.lit 100)))
  let sIntPos := printInt latInt ++ printInt lonInt
  stoi sIntPos

/-- The body of the first statement of case 3, once the position mPos is read:
the polar range plot, then the heat map. -/
def positionStep {F : Type} (M : Libm F) (s : data F) (mPos : tCoords F) :
    Except Fault (data F) := do
  let polar ← polarStep M s mPos
  let intPos ← heatKey M mPos
  let heat ← mapCount intLt s.heatMap intPos
  pure { s with polarRange := polar, heatMap := heat }

/-- The first statement of case 3 of processMessage (lat/lon available): the polar
range plot and the heat map are updated from fields 15 and 16. -/
def updatePosition {F : Type} (M : Libm F) (s : data F) (fields : List Str) :
    Except Fault (data F) := do
  let f14 ← vecGet fields 14
  if f14 ≠ [] then
    let f15 ← vecGet fields 15
    if f15 ≠ [] then
      let lat ← M.stod f14
      let lon ← M.stod f15
      positionStep M s { lat := lat, lon := lon }
    else pure s
  else pure s

/-- The second statement of case 3 of processMessage (altitude available): the
altitude plot is updated from field 12. -/
def updateAltitude {F : Type} (s : data F) (fields : List Str) : Except Fault (data F) := do
  let f11 ← vecGet fields 11
  if f11 ≠ [] then
    let altitude ← stoi f11
    let fl := Int.tdiv altitude 100
    if fl ≤ 500 then
      let count ← vecGet s.altPlot fl
      let count1 ← incrInt count
      let alt ← vecSet s.altPlot fl count1
      pure { s with altPlot := alt }
    else pure s
  else pure s

/-- The member function processMessage, called at time now on the state s: the
value returned (1, 3 or 0) and the new state, or the fault that ends the run. -/
def processMessage {F : Type} (M : Libm F) (now : Int) (s : data F) (message : Str) :
    Except Fault (Int × data F) := do
  let fields := split message ','
  let f1 ← vecGet fields 1
  let kind ← stoi f1
  if kind = 1 then caseId now s fields
  else if kind = 3 then
    let s1 ← updatePosition M s fields
    let s2 ← updateAltitude s1 fields
    pure (3, s2)
  else pure (0, s)

/-- The engine run on a sequence of messages, each with the time at which it is
processed: the final state, or the fault that ended the run. -/
def processAll {F : Type} (M : Libm F) (s : data F) : List (Int × Str) → Except Fault (data F)
  | [] => Except.ok s
  | (now, message) :: rest =>
    match processMessage M now s message with
    | Except.ok r => processAll M r.2 rest
    | Except.error e => Except.error e

/-- The position an airborne position message reports, as processMessage reads it:
fields 15 and 16 of a message of type 3 when both are non-empty and convert. -/
def observedPosition {F : Type} (M : Libm F) (message : Str) : Option (tCoords F) :=
  let fields := split message ','
  match vecGet fields 1 with
  | Except.error _ => none
  | Except.ok f1 =>
    if stoi f1 = Except.ok 3 then
      match vecGet fields 14, vecGet fields 15 with
      | Except.ok f14, Except.ok f15 =>
        if f14 ≠ [] ∧ f15 ≠ [] then
          match M.stod f14, M.stod f15 with
          | Except.ok lat, Except.ok lon => some { lat := lat, lon := lon }
          | _, _ => none
        else none
      | _, _ => none
    else none

/-! ## An arithmetic for evaluation -/

/-- A Libm whose functions are all trivial, over the integers: it is used to run
processMessage on messages that carry no position, where no function of Libm is
called. -/
def nullLibm : Libm Int :=
  { lit := fun _ => 0
    pi := 0
    add := fun _ _ => 0
    sub := fun _ _ => 0
    mul := fun _ _ => 0
    div := fun _ _ => 0
    neg := fun _ => 0
    sin := fun _ => 0
    cos := fun _ => 0
    tan := fun _ => 0
    log := fun _ => 0
    sqrt := fun _ => 0
    pow := fun _ _ => 0
    atan2 := fun _ _ => 0
    fmod := fun _ _ => 0
    round := fun _ => 0
    abs := fun _ => 0
    gt := fun _ _ => false
    toInt := fun _ => none
    stod := fun _ => Except.error Fault.invalidArgument }

/-! ## Inputs of the evaluations -/

/-- The two ID messages used to fill the flight buffer with two adjacent entries. -/
def msgStaleA : Str := "MSG,1,1,1,AAAAAA,1,,,,,RYR123".toList

/-- The second of the two ID messages. -/
def msgStaleB : Str := "MSG,1,1,1,BBBBBB,1,,,,,DLH456".toList

/-! ## Notions of the specification -/

/-- The airline pattern of the specification: the first three characters of the
callsign are alphabetic and the fourth is a digit. -/
def airlineCallsign : Str → Bool
  | a :: b :: c :: d :: _ => isalpha a && isalpha b && isalpha c && isdigit d
  | _ => false

/-- The count the airlines map holds for a key, 0 when the key is absent. -/
def airlineCount {F : Type} (s : data F) (key : Str) : Int :=
  (mapFind s.companyPlot key).getD 0

/-- The literal line of end-to-end scenario 2 of the specification: RYR123 stands in
field 12 and field 11 is empty. -/
def msgScenario2 : Str := "MSG,1,1,1,ABCDEF,1,,,,,,RYR123,,,,,,,,,".toList

/-- The ID message of scenario 2 with the callsign in field 11, where the SBS format
and processMessage have it. -/
def msgScenario2Id : Str := "MSG,1,1,1,ABCDEF,1,,,,,RYR123,,,,,,,,,,".toList

/-- The malformed line of end-to-end scenario 6. -/
def msgMalformed : Str := "not,a,valid,record".toList

/-- An ID message whose callsign is written in lower case. -/
def msgLowerCase : Str := "MSG,1,1,1,ABCDEF,1,,,,,ryr123".toList

/-- An airborne position message without position whose altitude is -300 ft. -/
def msgNegativeAltitude : Str := "MSG,3,1,1,ABCDEF,1,,,,,,-300,,,,,,,,,,".toList

/-- An airborne position message without position at 38000 ft. -/
def msgAltitudeOnly : Str := "MSG,3,1,1,ABCDEF,1,,,,,,38000,,,,,,,,,,".toList

/-- A key of three alphabetic characters (of either case). -/
def alphaKey (key : Str) : Bool := key.length = 3 && key.all isalpha

/-- A key of three upper case letters, as the specification describes the keys of
the airlines map. -/
def upperKey (key : Str) : Bool := key.length = 3 && key.all isupper

/-! ## The arithmetic of the real numbers -/

/-- The exponent part of a decimal floating constant: the letter e or E, an
optional sign and digits; 0 when there is none. -/
def readExponent : Str → Int
  | [] => 0
  | c :: r =>
    if c = 'e' ∨ c = 'E' then
      let body := readSign r
      let ds := body.2.takeWhile isdigit
      if ds = [] then 0
      else if body.1 then -(decValue ds : Int) else (decValue ds : Int)
    else 0

/-- The isxdigit of the C library. -/
def isxdigit (c : Char) : Bool :=
  isdigit c || ('a'.toNat ≤ c.toNat && c.toNat ≤ 'f'.toNat) ||
    ('A'.toNat ≤ c.toNat && c.toNat ≤ 'F'.toNat)

/-- The value of a hexadecimal digit. -/
def hexDigitValue (c : Char) : Nat :=
  if isdigit c then c.toNat - '0'.toNat
  else if 'a'.toNat ≤ c.toNat then c.toNat - 'a'.toNat + 10
  else c.toNat - 'A'.toNat + 10

/-- The value of a run of hexadecimal digits. -/
def hexValue (ds : List Char) : Nat :=
  ds.foldl (fun acc c => 16 * acc + hexDigitValue c) 0

/-- The binary exponent part of a hexadecimal floating constant: the letter p or P,
an optional sign and decimal digits; 0 when there is none. -/
def readBinaryExponent : Str → Int
  | [] => 0
  | c :: r =>
    if c = 'p' ∨ c = 'P' then
      let body := readSign r
      let ds := body.2.takeWhile isdigit
      if ds = [] then 0
      else if body.1 then -(decValue ds : Int) else (decValue ds : Int)
    else 0

/-- The hexadecimal floating constant strtod reads after the sign: 0x or 0X,
hexadecimal digits with an optional point (one digit at least) and an optional
binary exponent.  The result is the mantissa as a number and the power of two that
scales it; none when the text does not start such a constant (after 0x with no
hexadecimal digit strtod reads the decimal constant 0). -/
def hexParts : Str → Option (Nat × Int)
  | '0' :: x :: r =>
    if x = 'x' ∨ x = 'X' then
      let ip := r.takeWhile isxdigit
      let r1 := r.dropWhile isxdigit
      let fp := match r1 with
        | '.' :: t => t.takeWhile isxdigit
        | _ => []
      let r2 := match r1 with
        | '.' :: t => t.dropWhile isxdigit
        | _ => r1
      if ip = [] ∧ fp = [] then none
      else some (hexValue (ip ++ fp), readBinaryExponent r2 - 4 * (fp.length : Int))
    else none
  | _ => none

/-- The number m * 2^e as a mantissa and a power of ten: m * 2^e * 10^0 when e is
not negative, and (m * 5^k) * 10^(-k) when e = -k is. -/
def dyadicParts (m : Nat) (e : Int) : Nat × Int :=
  if 0 ≤ e then (m * 2 ^ e.toNat, 0) else (m * 5 ^ (-e).toNat, e)

/-- Whether a character is a given letter, in either case. -/
def isLetter (c lower upper : Char) : Bool := c = lower || c = upper

/-- Whether the text after the sign starts an infinity or a NaN (inf, infinity or
nan in any case), which strtod converts and the real numbers cannot follow. -/
def nonNumber : Str → Bool
  | a :: b :: c :: _ =>
    (isLetter a 'i' 'I' && isLetter b 'n' 'N' && isLetter c 'f' 'F') ||
      (isLetter a 'n' 'N' && isLetter b 'a' 'A' && isLetter c 'n' 'N')
  | _ => false

/-- The floating constant std::stod reads at the head of a text: leading white space
is skipped, then an optional sign and either a hexadecimal constant or decimal
digits with an optional point and an optional exponent are read, and what follows
is ignored.  The result is the sign (true for minus), the digits of the mantissa as
a number and the power of ten that scales it (a hexadecimal constant is the same
number written so).  Where nothing converts std::stod throws std::invalid_argument.
An infinity or a NaN, which std::stod returns and the real numbers cannot follow,
is outside this model and is rejected as out of range. -/
def stodParts (str : Str) : Except Fault (Bool × Nat × Int) :=
  let body := readSign (str.dropWhile isspace)
  if nonNumber body.2 then Except.error Fault.outOfRange
  else
    match hexParts body.2 with
    | some h => Except.ok (body.1, dyadicParts h.1 h.2)
    | none =>
      let ip := body.2.takeWhile isdigit
      let r1 := body.2.dropWhile isdigit
      let fp := match r1 with
        | '.' :: r => r.takeWhile isdigit
        | _ => []
      let r2 := match r1 with
        | '.' :: r => r.dropWhile isdigit
        | _ => r1
      if ip = [] ∧ fp = [] then Except.error Fault.invalidArgument
      else Except.ok (body.1, decValue (ip ++ fp), readExponent r2 - (fp.length : Int))

/-- The real number the parts of a floating constant denote; it stands for the
nearest double.  The range of double is not modelled: a constant too large or too
small for a double, on which std::stod throws std::out_of_range, has its value all
the same. -/
noncomputable def decimalValue (parts : Bool × Nat × Int) : ℝ :=
  if parts.1 then -((parts.2.1 : ℝ) * (10 : ℝ) ^ parts.2.2)
  else (parts.2.1 : ℝ) * (10 : ℝ) ^ parts.2.2

/-- The integral part of a real number (rounding towards zero). -/
noncomputable def truncReal (x : ℝ) : Int := if 0 ≤ x then ⌊x⌋ else ⌈x⌉

/-- The function round of the C library: the nearest integer, halves away from
zero. -/
noncomputable def roundReal (x : ℝ) : ℝ :=
  if 0 ≤ x then ((⌊x + 1 / 2⌋ : Int) : ℝ) else ((⌈x - 1 / 2⌉ : Int) : ℝ)

/-- The arithmetic of the real numbers: every operation is exact, M_PI is π,
atan2(y, x) is the argument of x + iy, fmod(x, y) is x - y * trunc(x / y), and the
conversion to int is defined on the values whose integral part fits an int.  The
unqualified call abs(deltaLon) of getBearing is the int abs(int) of the C library,
which is what it resolves to under g++ with libstdc++ (objects.H includes <cstdlib>
and <cmath> and the file has no using-directive): the argument is converted to int
and the result back to double.  There is no rounding, no infinity and no NaN:
where the C library would return one (division by zero, log or sqrt of a negative
number, tan at a pole) the functions take the conventional values of Mathlib. -/
noncomputable def realLibm : Libm ℝ :=
  { lit := fun q => (q : ℝ)
    pi := Real.pi
    add := fun x y => x + y
    sub := fun x y => x - y
    mul := fun x y => x * y
    div := fun x y => x / y
    neg := fun x => -x
    sin := Real.sin
    cos := Real.cos
    tan := Real.tan
    log := Real.log
    sqrt := Real.sqrt
    pow := fun x y => x ^ y
    atan2 := fun y x => Complex.arg ⟨x, y⟩
    fmod := fun x y => x - y * (truncReal (x / y) : ℝ)
    round := roundReal
    abs := fun x => ((|truncReal x| : Int) : ℝ)
    gt := fun x y => decide (y < x)
    toInt := fun x =>
      if INT_MIN ≤ truncReal x ∧ truncReal x ≤ INT_MAX then some (truncReal x) else none
    stod := fun str =>
      match stodParts str with
      | Except.ok parts => Except.ok (decimalValue parts)
      | Except.error e => Except.error e }

/-- An airborne position message 30 degrees north and 0.1 degree west of the
reference position (0, 0): the bearing is 359.8 degrees. -/
def msgNorthWest : Str := "MSG,3,1,1,ABCDEF,1,,,,,,38000,,,30.0,-0.1,,,,,,".toList

/-- An airborne position message at the reference position (0, 0) itself. -/
def msgAtReference : Str := "MSG,3,1,1,ABCDEF,1,,,,,,38000,,,0,0,,,,,,".toList

/-! ## Well-formed states -/

/-- The entries of a std::map are held in strictly increasing key order. -/
def sortedKeys {K : Type} (lt : K → K → Bool) (m : List (K × Int)) : Prop :=
  m.Pairwise (fun a b => lt a.1 b.1 = true)

/-- The states the engine produces: the polar range plot has its 360 slots, the
altitude plot its 501 buckets with counts of an int that are not negative, both maps
are in key order with counts of an int that are at least 1, the keys of the heat
map are values of an int and the keys of the airlines map are three alphabetic
characters. -/
def validState {F : Type} (s : data F) : Prop :=
  s.polarRange.length = 360 ∧ s.altPlot.length = 501 ∧
  (∀ v ∈ s.altPlot, 0 ≤ v ∧ v ≤ INT_MAX) ∧
  sortedKeys intLt s.heatMap ∧
  (∀ kv ∈ s.heatMap, INT_MIN ≤ kv.1 ∧ kv.1 ≤ INT_MAX ∧ 1 ≤ kv.2 ∧ kv.2 ≤ INT_MAX) ∧
  sortedKeys strLt s.companyPlot ∧
  (∀ kv ∈ s.companyPlot, alphaKey kv.1 = true ∧ 1 ≤ kv.2 ∧ kv.2 ≤ INT_MAX)

/-- A strict total order, given as a Boolean comparison. -/
structure StrictTotal {K : Type} (lt : K → K → Bool) : Prop where
  irrefl : ∀ a, lt a a = false
  trans : ∀ a b c, lt a b = true → lt b c = true → lt a c = true
  total : ∀ a b, a ≠ b → lt a b = false → lt b a = true

/-! ## The flush condition of the collector loop -/

/-- The conversion of a long to int: the value of the low 32 bits. -/
def toInt32 (x : Int) : Int := (x + 2147483648) % 4294967296 - 2147483648

/-- The condition at the end of the body of the child loop of main, with the clock
read as now: ((now - uptime) % 60 == 0) && ((now / 60) != lastDiskOp), in the
arithmetic of C (division truncates towards zero). -/
def flushDue (uptime lastDiskOp now : Int) : Bool :=
  Int.tmod (now - uptime) 60 = 0 && Int.tdiv now 60 ≠ lastDiskOp

/-- One pass through the end of the loop body: whether the file is written and the
flight buffer flushed, and the value of the int lastDiskOp afterwards (it is
assigned now / 60 when the condition holds). -/
def tick (uptime lastDiskOp now : Int) : Bool × Int :=
  if flushDue uptime lastDiskOp now then (true, toInt32 (Int.tdiv now 60))
  else (false, lastDiskOp)

/-- The times at which the loop flushes, for the successive times at which it
reaches the end of its body, from a given value of lastDiskOp. -/
def flushTimes (uptime : Int) : Int → List Int → List Int
  | _, [] => []
  | lastDiskOp, now :: rest =>
    if (tick uptime lastDiskOp now).1 then
      now :: flushTimes uptime (tick uptime lastDiskOp now).2 rest
    else flushTimes uptime (tick uptime lastDiskOp now).2 rest

/-- The line of end-to-end scenario 1 of the specification (fresh start, single
airborne position); the reference position of the scenario is (50.00, 16.00). -/
def msgScenario1 : Str := "MSG,3,1,1,ABCDEF,1,,,,,,38000,,,50.10,16.10,,,,,,".toList

/-- An airborne position message 30 degrees south and 0.1 degree east of the
reference position (0, 0), without altitude: the bearing is 179.8 degrees. -/
def msgSouthEast : Str := "MSG,3,1,1,ABCDEF,1,,,,,,,,,-30.0,0.1,,,,,,".toList

/-- An airborne position message 30 degrees south and 0.1 degree west of the
reference position (0, 0), without altitude: the bearing is 180.2 degrees. -/
def msgSouthWest : Str := "MSG,3,1,1,ABCDEF,1,,,,,,,,,-30.0,-0.1,,,,,,".toList

/-! ## The snapshot file: exportFile -/

/-- The conversions of a double to text that exportFile calls: stream is operator<<
of an output stream in its default state (six significant digits, as %g), fixed4 is
the conversion %.4f of sprintf. -/
structure Fmt (F : Type) where
  stream : F → Str
  fixed4 : F → Str

/-- The characters of a C string: those before the first zero character. -/
def cstr (s : Str) : Str := s.takeWhile (fun c => c ≠ Char.ofNat 0)

/-- The statements sprintf(buf, ...); std::string outLine = buf; on char buf[32], for
the text the conversions produce: a text of more than 31 characters overflows the
buffer, which is undefined behaviour. -/
def sprintf32 (text : Str) : Except Fault Str :=
  if text.length < 32 then Except.ok (cstr text) else Except.error Fault.outOfBounds

/-- The loop of exportFile over the polar range plot, from index i for n iterations:
the text it writes to the file. -/
def exportPolar {F : Type} (P : Fmt F) (polarRange : List (tCoords F)) :
    Nat → Int → Except Fault Str
  | 0, _ => Except.ok []
  | n + 1, i => do
    let p ← vecGet polarRange i
    let outLine ← sprintf32 (P.fixed4 p.lat ++ '|' :: P.fixed4 p.lon)
    let rest ← exportPolar P polarRange n (i + 1)
    pure (outLine ++ '\n' :: rest)

/-- The loop of exportFile over the altitude plot, from index i for n iterations. -/
def exportAlt (altPlot : List Int) : Nat → Int → Except Fault Str
  | 0, _ => Except.ok []
  | n + 1, i => do
    let v ← vecGet altPlot i
    let rest ← exportAlt altPlot n (i + 1)
    pure (printInt v ++ '\n' :: rest)

/-- The loop of exportFile over the entries of the heat map, in key order. -/
def exportHeat : List (Int × Int) → Except Fault Str
  | [] => Except.ok []
  | kv :: entries => do
    let outLine ← sprintf32 (printInt kv.1 ++ '|' :: printInt kv.2)
    let rest ← exportHeat entries
    pure (outLine ++ '\n' :: rest)

/-- The loop of exportFile over the entries of the company plot, in key order; the
key is passed to %s as a C string. -/
def exportCompany : List (Str × Int) → Except Fault Str
  | [] => Except.ok []
  | kv :: entries => do
    let outLine ← sprintf32 (cstr kv.1 ++ '|' :: printInt kv.2)
    let rest ← exportCompany entries
    pure (outLine ++ '\n' :: rest)

/-- The text exportFile writes to the file once it is open, at time now. -/
def exportText {F : Type} (P : Fmt F) (now : Int) (s : data F) : Except Fault Str := do
  let polar ← exportPolar P s.polarRange 360 0
  let alt ← exportAlt s.altPlot 501 0
  let heat ← exportHeat s.heatMap
  let company ← exportCompany s.companyPlot
  pure (printInt now ++ '\n' :: (P.stream s.ref.lat ++ '\n' :: (P.stream s.ref.lon ++ '\n' ::
    (polar ++ '\n' :: (alt ++ '\n' :: (heat ++ '\n' :: (company ++ '\n' :: ['$'])))))))

/-- The member function exportFile, called at time now; opens tells whether the
output file could be opened.  The result is the state after the call, the content of
the file (none when it was not opened) and the value returned. -/
def exportFile {F : Type} (P : Fmt F) (now : Int) (opens : Bool) (s : data F) :
    Except Fault (data F × Option Str × Int) :=
  if opens then do
    let text ← exportText P now s
    pure ({ s with timestamp := now }, some text, 0)
  else pure (s, none, 1)

/-! ## The snapshot file: the constructor data(path) -/

/-- The ways the constructor data(path) ends without an object. -/
inductive LoadFailure where
  /-- The call exit(1) after "Unable to open init file". -/
  | cannotOpen
  /-- The call exit(1) of formatError. -/
  | formatError
  /-- An exception that nothing catches, or undefined behaviour. -/
  | fault (e : Fault)
  deriving DecidableEq, Repr

/-- A fault of a library call or of an indexing, inside the constructor. -/
def liftFault {α : Type} : Except Fault α → Except LoadFailure α
  | Except.ok a => Except.ok a
  | Except.error e => Except.error (LoadFailure.fault e)

/-- The statements if (! std::getline(f, line)) formatError(); on the rest f of the
file: the line read and the rest of the file after it. -/
def readLine (f : Str) : Except LoadFailure (Str × Str) :=
  match getline '\n' f with
  | none => Except.error LoadFailure.formatError
  | some r => Except.ok r

/-- The call s.substr(pos): std::out_of_range when pos exceeds the size. -/
def substrFrom (s : Str) (pos : Nat) : Except Fault Str :=
  if pos ≤ s.length then Except.ok (s.drop pos) else Except.error Fault.outOfRange

/-- The loop of the constructor that loads the polar range plot, for n iterations
more: the plot and the rest of the file. -/
def loadPolar {F : Type} (M : Libm F) :
    Nat → Str → List (tCoords F) → Except LoadFailure (List (tCoords F) × Str)
  | 0, f, polarRange => Except.ok (polarRange, f)
  | n + 1, f, polarRange => do
    let r ← readLine f
    let vec := split r.1 '|'
    let v0 ← liftFault (vecGet vec 0)
    let lat ← liftFault (M.stod v0)
    let v1 ← liftFault (vecGet vec 1)
    let lon ← liftFault (M.stod v1)
    loadPolar M n r.2 (polarRange ++ [{ lat := lat, lon := lon }])

/-- The loop of the constructor that loads the altitude plot, for n iterations
more. -/
def loadAlt : Nat → Str → List Int → Except LoadFailure (List Int × Str)
  | 0, f, altPlot => Except.ok (altPlot, f)
  | n + 1, f, altPlot => do
    let r ← readLine f
    let v ← liftFault (stoi r.1)
    loadAlt n r.2 (altPlot ++ [v])

/-- The while loop of the constructor that loads the heat map; fuel bounds the
number of iterations. -/
def loadHeatLoop : Nat → Str → List (Int × Int) → Except LoadFailure (List (Int × Int) × Str)
  | 0, f, heatMap => Except.ok (heatMap, f)
  | fuel + 1, f, heatMap =>
    match getline '\n' f with
    | none => Except.ok (heatMap, f)
    | some r =>
      if r.1 = [] then Except.ok (heatMap, r.2)
      else do
        let vec := split r.1 '|'
        let v0 ← liftFault (vecGet vec 0)
        let index ← liftFault (stoi v0)
        let v1 ← liftFault (vecGet vec 1)
        let weight ← liftFault (stoi v1)
        loadHeatLoop fuel r.2 (mapSet intLt index weight heatMap)

/-- The while loop of the constructor that loads the company plot; fuel bounds the
number of iterations. -/
def loadCompanyLoop : Nat → Str → List (Str × Int) → Except LoadFailure (List (Str × Int) × Str)
  | 0, f, companyPlot => Except.ok (companyPlot, f)
  | fuel + 1, f, companyPlot =>
    match getline '\n' f with
    | none => Except.ok (companyPlot, f)
    | some r =>
      if r.1 = [] then Except.ok (companyPlot, r.2)
      else do
        let key := substr0 r.1 3
        let tail ← liftFault (substrFrom r.1 4)
        let val ← liftFault (stoi tail)
        loadCompanyLoop fuel r.2 (mapSet strLt key val companyPlot)

/-- The constructor data(std::string path), run at time now on the content of the
file at path (none when the file cannot be opened).  Every successful getline
consumes at least one character, so the length of the file bounds the iterations of
the two while loops. -/
def dataLoad {F : Type} (M : Libm F) (now : Int) (file : Option Str) :
    Except LoadFailure (data F) :=
  match file with
  | none => Except.error LoadFailure.cannotOpen
  | some f => do
    let r1 ← readLine f
    let timestamp ← liftFault (stoi r1.1)
    let r2 ← readLine r1.2
    let lat ← liftFault (M.stod r2.1)
    let r3 ← readLine r2.2
    let lon ← liftFault (M.stod r3.1)
    let polar ← loadPolar M 360 r3.2 []
    let r4 ← readLine polar.2
    let alt ← loadAlt 501 r4.2 []
    let r5 ← readLine alt.2
    let heat ← loadHeatLoop (r5.2.length + 1) r5.2 []
    let company ← loadCompanyLoop (heat.2.length + 1) heat.2 []
    let r6 ← readLine company.2
    if r6.1 ≠ ['$'] then Except.error LoadFailure.formatError
    else
      Except.ok
        { timestamp := timestamp, uptime := now, ref := { lat := lat, lon := lon },
          polarRange := polar.1, heatMap := heat.1, companyPlot := company.1,
          altPlot := alt.1, flightBuffer := [] }

/-! ## The conversions of a real number to text -/

/-- The nearest integer, halves to the even one: the rounding of printf. -/
noncomputable def roundEvenReal (x : ℝ) : Int :=
  if Int.fract x < 1 / 2 then ⌊x⌋
  else if 1 / 2 < Int.fract x then ⌊x⌋ + 1
  else if ⌊x⌋ % 2 = 0 then ⌊x⌋ else ⌊x⌋ + 1

/-- The decimal digits of n, padded on the left with zeros to the width w. -/
def padDigits (w n : Nat) : Str :=
  List.replicate (w - (Nat.toDigits 10 n).length) '0' ++ Nat.toDigits 10 n

/-- A run of digits without its trailing zeros. -/
def dropTrailingZeros (s : Str) : Str := (s.reverse.dropWhile (fun c => c = '0')).reverse

/-- The conversion %.4f of a real number: sign, integral part, point and four
decimals of the value rounded to the nearest multiple of 1/10000. -/
noncomputable def fixedReal (x : ℝ) : Str :=
  let n : Nat := (roundEvenReal (|x| * 10000)).toNat
  (if x < 0 then ['-'] else []) ++
    (Nat.toDigits 10 (n / 10000) ++ '.' :: padDigits 4 (n % 10000))

/-- The conversion %g of a real number with precision 6, which operator<< applies
in the default state of a stream: the value is rounded to six significant digits,
X is its decimal exponent; for -4 ≤ X < 6 the digits are written in fixed notation,
otherwise in scientific notation with an exponent of at least two digits, in both
cases without trailing zeros in the fraction and without a point when no fraction
is left. -/
noncomputable def generalReal (x : ℝ) : Str :=
  if x = 0 then ['0']
  else
    let e0 : Int := Int.log 10 |x|
    let m0 : Nat := (roundEvenReal (|x| * (10 : ℝ) ^ (5 - e0))).toNat
    let X : Int := if m0 = 1000000 then e0 + 1 else e0
    let ds : Str := Nat.toDigits 10 (if m0 = 1000000 then 100000 else m0)
    let sign : Str := if x < 0 then ['-'] else []
    if -4 ≤ X ∧ X < 6 then
      if 0 ≤ X then
        let fp := dropTrailingZeros (ds.drop (X.toNat + 1))
        sign ++ (ds.take (X.toNat + 1) ++ (if fp = [] then [] else '.' :: fp))
      else
        sign ++ ('0' :: '.' :: dropTrailingZeros (List.replicate ((-X).toNat - 1) '0' ++ ds))
    else
      let fp := dropTrailingZeros (ds.drop 1)
      sign ++ (ds.take 1 ++ ((if fp = [] then [] else '.' :: fp) ++
        ('e' :: (if X < 0 then '-' else '+') :: padDigits 2 X.natAbs)))

/-- The conversions to text of the real numbers. -/
noncomputable def realFmt : Fmt ℝ :=
  { stream := generalReal
    fixed4 := fixedReal }

/-! ## What the round trip asks from the conversions of the library -/

/-- A text that is not empty and holds none of the characters that end a line, a
field or a C string. -/
def plainText (t : Str) : Prop := t ≠ [] ∧ '\n' ∉ t ∧ '|' ∉ t ∧ Char.ofNat 0 ∉ t

/-- The entry p of the polar range plot passes through the file and is read back as
q: the two texts %.4f writes are plain, fit the buffer of 32 characters together
with the bar, and std::stod reads the coordinates of q from them. -/
def polarReadBack {F : Type} (M : Libm F) (P : Fmt F) (p q : tCoords F) : Prop :=
  plainText (P.fixed4 p.lat) ∧ plainText (P.fixed4 p.lon) ∧
  (P.fixed4 p.lat).length + (P.fixed4 p.lon).length < 31 ∧
  M.stod (P.fixed4 p.lat) = Except.ok q.lat ∧ M.stod (P.fixed4 p.lon) = Except.ok q.lon

/-- The reference position passes through the file and is read back as r: the two
texts operator<< writes hold no end of line and std::stod reads the coordinates of r
from them. -/
def refReadBack {F : Type} (M : Libm F) (P : Fmt F) (p r : tCoords F) : Prop :=
  '\n' ∉ P.stream p.lat ∧ '\n' ∉ P.stream p.lon ∧
  M.stod (P.stream p.lat) = Except.ok r.lat ∧ M.stod (P.stream p.lon) = Except.ok r.lon

/-! ## Snapshot files of the evaluations -/

/-- The start of a snapshot file whose fourth line, the first of the polar range
plot, has no separator. -/
def fileNoSeparator : Str := "0\n0\n0\n0\n".toList

/-- The start of a snapshot file that ends after the first line of the polar range
plot. -/
def fileTruncated : Str := "0\n0\n0\n0|0\n".toList

/-! ## Two positions west of the reference position (0, 0) -/

/-- An airborne position message on the equator, 0.1 degree west of the reference
position (0, 0). -/
def msgWest1 : Str := "MSG,3,1,1,ABCDEF,1,,,,,,,,,0,-0.1,,,,,,".toList

/-- An airborne position message on the equator, 0.2 degree west of the reference
position (0, 0). -/
def msgWest2 : Str := "MSG,3,1,1,ABCDEF,1,,,,,,,,,0,-0.2,,,,,,".toList

/-! ## The comparison of double, NaN included -/

/-- The comparison > of the arithmetic M is that of double: val gives the value of
a double in a linear order L (the extended real line) and none for a NaN, and
x > y holds exactly when both are numbers and the value of x is the greater. -/
def gtByValue {F : Type} (M : Libm F) {L : Type} [LinearOrder L] (val : F → Option L) : Prop :=
  ∀ x y, M.gt x y = true ↔ ∃ a b, val x = some a ∧ val y = some b ∧ b < a

/-- The comparison x >= y of double, through the values: both are numbers and the
value of x is at least that of y. -/
def geByValue {F : Type} {L : Type} [LinearOrder L] (val : F → Option L) (x y : F) : Prop :=
  ∃ a b, val x = some a ∧ val y = some b ∧ b ≤ a

/-! ## The arithmetic of double -/

/-- The double nearest to a real number (IEEE 754 binary64, round to nearest, ties
to even): the number is scaled to 53 binary digits, rounded to an integer and
scaled back.  The exponent range is taken as unbounded: there is no overflow and no
subnormal number. -/
noncomputable def roundDouble (x : ℝ) : ℝ :=
  if x = 0 then 0
  else (roundEvenReal (x * (2 : ℝ) ^ (52 - Int.log 2 |x|)) : ℝ) * (2 : ℝ) ^ (Int.log 2 |x| - 52)

/-- The arithmetic of double, on the real numbers that the doubles denote: every
operation returns the double nearest to the exact result, M_PI is the double
884279719003555 / 2^48, fmod, round and the unary minus are exact as they are on
doubles, and the functions of the C library are taken as correctly rounded (at the
arguments 0 and 1, where the theorems below evaluate them, their results are exact
in every library).  Infinities and NaN are left out. -/
noncomputable def doubleLibm : Libm ℝ :=
  { lit := fun q => roundDouble (q : ℝ)
    pi := 884279719003555 / 281474976710656
    add := fun x y => roundDouble (x + y)
    sub := fun x y => roundDouble (x - y)
    mul := fun x y => roundDouble (x * y)
    div := fun x y => roundDouble (x / y)
    neg := fun x => -x
    sin := fun x => roundDouble (Real.sin x)
    cos := fun x => roundDouble (Real.cos x)
    tan := fun x => roundDouble (Real.tan x)
    log := fun x => roundDouble (Real.log x)
    sqrt := fun x => roundDouble (Real.sqrt x)
    pow := fun x y => roundDouble (x ^ y)
    atan2 := fun y x => roundDouble (Complex.arg ⟨x, y⟩)
    fmod := fun x y => x - y * (truncReal (x / y) : ℝ)
    round := roundReal
    abs := fun x => ((|truncReal x| : Int) : ℝ)
    gt := fun x y => decide (y < x)
    toInt := fun x =>
      if INT_MIN ≤ truncReal x ∧ truncReal x ≤ INT_MAX then some (truncReal x) else none
    stod := fun str =>
      match stodParts str with
      | Except.ok parts => Except.ok (roundDouble (decimalValue parts))
      | Except.error e => Except.error e }

/-! ## Lemmas -/

theorem ok_bind {ε α β : Type} (a : α) (f : α → Except ε β) :
    (Except.ok a >>= f) = f a := rfl

theorem error_bind {ε α β : Type} (e : ε) (f : α → Except ε β) :
    ((Except.error e : Except ε α) >>= f) = Except.error e := rfl

theorem getline_length (d : Char) :
    ∀ (ss tok rest : Str), getline d ss = some (tok, rest) → rest.length < ss.length := by
  intro ss
  induction ss with
  | nil => intro tok rest h; simp [getline] at h
  | cons c cs ih =>
    intro tok rest h
    unfold getline at h
    split at h
    · simp at h; simp [← h.2]
    · cases hg : getline d cs with
      | none => simp [hg] at h; simp [h.2]
      | some p =>
        obtain ⟨t, r⟩ := p
        simp [hg] at h
        have := ih t r hg
        simp [← h.2]; omega

/-- More iterations than the stream has characters never change the result of the
loop of split: the loop has ended by itself. -/
theorem splitLoop_fuel (d : Char) :
    ∀ (fuel extra : Nat) (ss : Str) (internal : List Str), ss.length < fuel →
      splitLoop d (fuel + extra) ss internal = splitLoop d fuel ss internal := by
  intro fuel
  induction fuel with
  | zero => intro extra ss internal h; omega
  | succ n ih =>
    intro extra ss internal h
    have e : n + 1 + extra = (n + extra) + 1 := by omega
    rw [e]
    unfold splitLoop
    cases hg : getline d ss with
    | none => rfl
    | some p =>
      obtain ⟨t, r⟩ := p
      have hl := getline_length d ss t r hg
      simp only
      exact ih extra r (internal ++ [t]) (by omega)

/-- More iterations than the buffer is long never change the result of the loop of
flushFBuffer: the loop has ended by itself. -/
theorem flushLoop_fuel (now : Int) :
    ∀ (fuel extra i : Nat) (buf : List tFStamp) (counter : Int), buf.length ≤ fuel + i →
      flushLoop now (fuel + extra) i buf counter = flushLoop now fuel i buf counter := by
  intro fuel
  induction fuel with
  | zero =>
    intro extra i buf counter h
    have hn : buf[i]? = none := by
      rw [List.getElem?_eq_none_iff]; omega
    cases extra with
    | zero => rfl
    | succ k => simp [flushLoop, hn]
  | succ n ih =>
    intro extra i buf counter h
    have e : n + 1 + extra = (n + extra) + 1 := by omega
    rw [e]
    unfold flushLoop
    cases hg : buf[i]? with
    | none => rfl
    | some st =>
      simp only
      split
      · apply ih
        rw [List.length_eraseIdx]
        split <;> omega
      · apply ih
        omega

theorem isInFBuffer_iff (buf : List tFStamp) (stamp : tFStamp) :
    isInFBuffer buf stamp = true ↔
      ∃ st ∈ buf, st.hex = stamp.hex ∧ st.callsign = stamp.callsign := by
  induction buf with
  | nil => simp [isInFBuffer]
  | cons st rest ih =>
    unfold isInFBuffer
    by_cases h : st.hex = stamp.hex ∧ st.callsign = stamp.callsign
    · simp [h]
    · simp only [h, if_false, ih, List.mem_cons, exists_eq_or_imp, false_or]

theorem isInFBuffer_eq_false_iff (buf : List tFStamp) (stamp : tFStamp) :
    isInFBuffer buf stamp = false ↔
      ∀ st ∈ buf, ¬ (st.hex = stamp.hex ∧ st.callsign = stamp.callsign) := by
  rw [← Bool.not_eq_true, isInFBuffer_iff]
  push_neg
  rfl

theorem companyTest_eq (callsign : Str) :
    companyTest (substr0 callsign 3) callsign = Except.ok (airlineCallsign callsign) := by
  match callsign with
  | [] => simp [companyTest, substr0, strAt, airlineCallsign, isalpha, ok_bind, pure, Except.pure]
  | [a] =>
    by_cases ha : isalpha a = true <;>
      (simp [companyTest, substr0, strAt, airlineCallsign, ok_bind, pure, Except.pure, ha]; try simp [isalpha])
  | [a, b] =>
    by_cases ha : isalpha a = true <;> by_cases hb : isalpha b = true <;>
      (simp [companyTest, substr0, strAt, airlineCallsign, ok_bind, pure, Except.pure, ha, hb]; try simp [isalpha])
  | [a, b, c] =>
    by_cases ha : isalpha a = true <;> by_cases hb : isalpha b = true <;>
      by_cases hc : isalpha c = true <;>
      (simp [companyTest, substr0, strAt, airlineCallsign, ok_bind, pure, Except.pure, ha, hb, hc]; try simp [isdigit])
  | a :: b :: c :: d :: rest =>
    by_cases ha : isalpha a = true <;> by_cases hb : isalpha b = true <;>
      by_cases hc : isalpha c = true <;>
      simp [companyTest, substr0, strAt, airlineCallsign, ok_bind, pure, Except.pure, ha, hb, hc]

theorem mapFind_mapSet_self {K : Type} [DecidableEq K] (lt : K → K → Bool) (k : K) (v : Int)
    (m : List (K × Int)) : mapFind (mapSet lt k v m) k = some v := by
  induction m with
  | nil => simp [mapSet, mapFind]
  | cons kv rest ih =>
    obtain ⟨k1, v1⟩ := kv
    unfold mapSet
    by_cases h : k = k1
    · simp [h, mapFind]
    · by_cases hl : lt k k1 = true
      · simp [h, hl, mapFind]
      · simp [h, hl, mapFind, ih]

theorem mapFind_mapSet_ne {K : Type} [DecidableEq K] (lt : K → K → Bool) (k k2 : K) (v : Int)
    (m : List (K × Int)) (hne : k2 ≠ k) : mapFind (mapSet lt k v m) k2 = mapFind m k2 := by
  induction m with
  | nil => simp [mapSet, mapFind, hne]
  | cons kv rest ih =>
    obtain ⟨k1, v1⟩ := kv
    unfold mapSet
    by_cases h : k = k1
    · subst h; simp [mapFind, hne]
    · by_cases hl : lt k k1 = true
      · simp [h, hl, mapFind, hne]
      · by_cases h2 : k2 = k1
        · simp [h, hl, mapFind, h2]
        · simp [h, hl, mapFind, h2, ih]

/-- The body of case 1 on a message that carries both fields, in closed form. -/
theorem caseId_eq {F : Type} (now : Int) (s : data F) (fields : List Str) (hex callsign : Str)
    (h4 : vecGet fields 4 = Except.ok hex) (hhex : hex ≠ [])
    (h10 : vecGet fields 10 = Except.ok callsign) (hcs : callsign ≠ []) :
    caseId now s fields =
      if isInFBuffer s.flightBuffer { hex := hex, callsign := callsign, timestamp := now } then
        Except.ok (1, s)
      else
        (if airlineCallsign callsign then mapCount strLt s.companyPlot (substr0 callsign 3)
          else Except.ok s.companyPlot) >>= fun plot =>
        Except.ok (1, { s with
          companyPlot := plot,
          flightBuffer := s.flightBuffer ++ [{ hex := hex, callsign := callsign, timestamp := now }] }) := by
  unfold caseId
  simp only [h4, h10, ok_bind, hhex, hcs, ne_eq, not_false_eq_true, if_true, companyTest_eq]
  split_ifs <;> rfl

/-- The head of processMessage on a message whose second field converts. -/
theorem processMessage_kind {F : Type} (M : Libm F) (now : Int) (s : data F) (message f1 : Str)
    (kind : Int) (h1 : vecGet (split message ',') 1 = Except.ok f1) (hk : stoi f1 = Except.ok kind) :
    processMessage M now s message =
      if kind = 1 then caseId now s (split message ',')
      else if kind = 3 then
        updatePosition M s (split message ',') >>= fun s1 =>
        updateAltitude s1 (split message ',') >>= fun s2 => Except.ok (3, s2)
      else Except.ok (0, s) := by
  unfold processMessage
  simp only [h1, hk, ok_bind]
  rfl

theorem mapCount_ok {K : Type} [DecidableEq K] (lt : K → K → Bool) (m : List (K × Int)) (k : K)
    (hov : ∀ v, mapFind m k = some v → v < INT_MAX) :
    mapCount lt m k = Except.ok (mapSet lt k ((mapFind m k).getD 0 + 1) m) := by
  unfold mapCount
  cases h : mapFind m k with
  | none => simp
  | some v => simp [incrInt, hov v h]

/-! ## The properties of the specification -/

/-- C1 (flushFBuffer, two adjacent stale entries): two ID messages processed at time 0
put two entries in the flight buffer; flushFBuffer run at time 2000 erases the first,
steps over the second and returns 1, so that the second entry stays in the buffer
although 2000 - 0 > FBUFFER_TIMEOUT. -/
theorem flushFBuffer_skips_after_erase :
    (processAll nullLibm (dataScratch 0 0 50 16) [(0, msgStaleA), (0, msgStaleB)]).map
        (fun s => (s.flightBuffer, (flushFBuffer 2000 s).2, (flushFBuffer 2000 s).1.flightBuffer)) =
      Except.ok
        ([{ hex := "AAAAAA".toList, callsign := "RYR123".toList, timestamp := 0 },
          { hex := "BBBBBB".toList, callsign := "DLH456".toList, timestamp := 0 }],
         1,
         [{ hex := "BBBBBB".toList, callsign := "DLH456".toList, timestamp := 0 }]) ∧
    (2000 : Int) - 0 > FBUFFER_TIMEOUT := by
  decide
/-- C2 (dedup idempotence): on any state, an ID message whose fields 5 (hex) and 11
(callsign) are present and non-empty, processed twice in a row at any two times, is
accepted both times; the second call returns the state of the first unchanged (so
neither the airlines nor the flight buffer change), and the count of the callsign
prefix has grown by at most one over both calls.  No condition is put on the
timestamps stored in the buffer.  The count of the prefix is supposed below INT_MAX,
the only value at which the increment of an int has no result. -/
theorem dedup_idempotent {F : Type} (M : Libm F) (now1 now2 : Int) (s : data F)
    (message f1 hex callsign : Str)
    (h1 : vecGet (split message ',') 1 = Except.ok f1) (hk : stoi f1 = Except.ok 1)
    (h4 : vecGet (split message ',') 4 = Except.ok hex) (hhex : hex ≠ [])
    (h10 : vecGet (split message ',') 10 = Except.ok callsign) (hcs : callsign ≠ [])
    (hov : ∀ v, mapFind s.companyPlot (substr0 callsign 3) = some v → v < INT_MAX) :
    ∃ s1 : data F,
      processMessage M now1 s message = Except.ok (1, s1) ∧
      processMessage M now2 s1 message = Except.ok (1, s1) ∧
      airlineCount s (substr0 callsign 3) ≤ airlineCount s1 (substr0 callsign 3) ∧
      airlineCount s1 (substr0 callsign 3) ≤ airlineCount s (substr0 callsign 3) + 1 := by
  have hsame : ∀ (buf : List tFStamp) (t1 t2 : Int),
      isInFBuffer buf { hex := hex, callsign := callsign, timestamp := t1 } =
        isInFBuffer buf { hex := hex, callsign := callsign, timestamp := t2 } := by
    intro buf t1 t2
    rw [Bool.eq_iff_iff, isInFBuffer_iff, isInFBuffer_iff]
  by_cases hin : isInFBuffer s.flightBuffer { hex := hex, callsign := callsign, timestamp := now1 } = true
  · refine ⟨s, ?_, ?_, le_refl _, by omega⟩
    · rw [processMessage_kind M now1 s message f1 1 h1 hk, if_pos rfl,
        caseId_eq now1 s _ hex callsign h4 hhex h10 hcs, if_pos hin]
    · rw [processMessage_kind M now2 s message f1 1 h1 hk, if_pos rfl,
        caseId_eq now2 s _ hex callsign h4 hhex h10 hcs, if_pos (by rw [hsame _ now2 now1]; exact hin)]
  · have hplot : ∃ plot,
        (if airlineCallsign callsign then mapCount strLt s.companyPlot (substr0 callsign 3)
          else Except.ok s.companyPlot) = Except.ok plot ∧
        (mapFind s.companyPlot (substr0 callsign 3)).getD 0 ≤
          (mapFind plot (substr0 callsign 3)).getD 0 ∧
        (mapFind plot (substr0 callsign 3)).getD 0 ≤
          (mapFind s.companyPlot (substr0 callsign 3)).getD 0 + 1 := by
      by_cases ha : airlineCallsign callsign = true
      · refine ⟨_, by rw [if_pos ha, mapCount_ok strLt _ _ hov], ?_, ?_⟩ <;>
          rw [mapFind_mapSet_self] <;> simp
      · exact ⟨s.companyPlot, by rw [if_neg ha], le_refl _, by omega⟩
    obtain ⟨plot, hp, hlo, hhi⟩ := hplot
    refine ⟨{ s with
      companyPlot := plot,
      flightBuffer := s.flightBuffer ++ [{ hex := hex, callsign := callsign, timestamp := now1 }] },
      ?_, ?_, hlo, hhi⟩
    · rw [processMessage_kind M now1 s message f1 1 h1 hk, if_pos rfl,
        caseId_eq now1 s _ hex callsign h4 hhex h10 hcs, if_neg hin, hp, ok_bind]
    · rw [processMessage_kind M now2 _ message f1 1 h1 hk, if_pos rfl,
        caseId_eq now2 _ _ hex callsign h4 hhex h10 hcs, if_pos]
      rw [isInFBuffer_iff]
      exact ⟨{ hex := hex, callsign := callsign, timestamp := now1 }, by simp, rfl, rfl⟩

/-- Witness of C2: the ID message of RYR123 processed twice on a fresh state. -/
theorem dedup_idempotent_witness :
    ∃ s1 : data Int,
      processMessage nullLibm 1 (dataScratch 0 0 50 16) msgStaleA = Except.ok (1, s1) ∧
      processMessage nullLibm 2 s1 msgStaleA = Except.ok (1, s1) ∧
      airlineCount (dataScratch 0 0 50 16) (substr0 "RYR123".toList 3) ≤
        airlineCount s1 (substr0 "RYR123".toList 3) ∧
      airlineCount s1 (substr0 "RYR123".toList 3) ≤
        airlineCount (dataScratch 0 0 50 16) (substr0 "RYR123".toList 3) + 1 :=
  dedup_idempotent nullLibm 1 2 (dataScratch 0 0 50 16) msgStaleA "1".toList "AAAAAA".toList
    "RYR123".toList (by decide) (by decide) (by decide) (by decide) (by decide) (by decide)
    (fun v h => by cases h)
/-- C5 (airline counting rule): an ID message with non-empty hex (field 5) and
callsign (field 11) whose pair is not in the flight buffer returns 1 and appends
exactly the entry (hex, callsign, now) to the buffer; when the first three
characters of the callsign are alphabetic and the fourth is a digit the count of
callsign[0..3] becomes its former value plus one (1 when it was absent) and every
other key keeps its entry, otherwise the airlines map is unchanged; nothing else
in the state changes.  The count is supposed below INT_MAX. -/
theorem airline_counting_rule {F : Type} (M : Libm F) (now : Int) (s : data F)
    (message f1 hex callsign : Str)
    (h1 : vecGet (split message ',') 1 = Except.ok f1) (hk : stoi f1 = Except.ok 1)
    (h4 : vecGet (split message ',') 4 = Except.ok hex) (hhex : hex ≠ [])
    (h10 : vecGet (split message ',') 10 = Except.ok callsign) (hcs : callsign ≠ [])
    (hnew : ∀ st ∈ s.flightBuffer, ¬ (st.hex = hex ∧ st.callsign = callsign))
    (hov : ∀ v, mapFind s.companyPlot (substr0 callsign 3) = some v → v < INT_MAX) :
    ∃ s1 : data F,
      processMessage M now s message = Except.ok (1, s1) ∧
      s1.flightBuffer =
        s.flightBuffer ++ [{ hex := hex, callsign := callsign, timestamp := now }] ∧
      (airlineCallsign callsign = true →
        mapFind s1.companyPlot (substr0 callsign 3) =
          some (airlineCount s (substr0 callsign 3) + 1) ∧
        ∀ key, key ≠ substr0 callsign 3 →
          mapFind s1.companyPlot key = mapFind s.companyPlot key) ∧
      (airlineCallsign callsign = false → s1.companyPlot = s.companyPlot) ∧
      s1.ref = s.ref ∧ s1.polarRange = s.polarRange ∧ s1.heatMap = s.heatMap ∧
      s1.altPlot = s.altPlot ∧ s1.timestamp = s.timestamp ∧ s1.uptime = s.uptime := by
  have hin : ¬ isInFBuffer s.flightBuffer { hex := hex, callsign := callsign, timestamp := now } = true := by
    rw [Bool.not_eq_true, isInFBuffer_eq_false_iff]
    exact hnew
  rw [processMessage_kind M now s message f1 1 h1 hk, if_pos rfl,
    caseId_eq now s _ hex callsign h4 hhex h10 hcs, if_neg hin]
  by_cases ha : airlineCallsign callsign = true
  · rw [if_pos ha, mapCount_ok strLt _ _ hov, ok_bind]
    refine ⟨_, rfl, rfl, ?_, ?_, rfl, rfl, rfl, rfl, rfl, rfl⟩
    · intro _
      exact ⟨mapFind_mapSet_self _ _ _ _, fun key hkey => mapFind_mapSet_ne _ _ _ _ _ hkey⟩
    · intro hf
      rw [ha] at hf
      cases hf
  · rw [if_neg ha, ok_bind]
    refine ⟨_, rfl, rfl, ?_, fun _ => rfl, rfl, rfl, rfl, rfl, rfl, rfl⟩
    intro ht
    exact absurd ht ha

/-- Witness of C5: the ID message of RYR123 on a fresh state. -/
theorem airline_counting_rule_witness :
    airlineCallsign "RYR123".toList = true ∧
    ∃ s1 : data Int,
      processMessage nullLibm 7 (dataScratch 0 0 50 16) msgScenario2Id = Except.ok (1, s1) ∧
      s1.flightBuffer =
        (dataScratch 0 0 50 16 : data Int).flightBuffer ++
          [{ hex := "ABCDEF".toList, callsign := "RYR123".toList, timestamp := 7 }] ∧
      (airlineCallsign "RYR123".toList = true →
        mapFind s1.companyPlot (substr0 "RYR123".toList 3) =
          some (airlineCount (dataScratch 0 0 50 16 : data Int) (substr0 "RYR123".toList 3) + 1) ∧
        ∀ key, key ≠ substr0 "RYR123".toList 3 →
          mapFind s1.companyPlot key = mapFind (dataScratch 0 0 50 16 : data Int).companyPlot key) ∧
      (airlineCallsign "RYR123".toList = false →
        s1.companyPlot = (dataScratch 0 0 50 16 : data Int).companyPlot) ∧
      s1.ref = (dataScratch 0 0 50 16 : data Int).ref ∧
      s1.polarRange = (dataScratch 0 0 50 16 : data Int).polarRange ∧
      s1.heatMap = (dataScratch 0 0 50 16 : data Int).heatMap ∧
      s1.altPlot = (dataScratch 0 0 50 16 : data Int).altPlot ∧
      s1.timestamp = (dataScratch 0 0 50 16 : data Int).timestamp ∧
      s1.uptime = (dataScratch 0 0 50 16 : data Int).uptime :=
  ⟨by decide,
    airline_counting_rule nullLibm 7 (dataScratch 0 0 50 16) msgScenario2Id "1".toList
      "ABCDEF".toList "RYR123".toList (by decide) (by decide) (by decide) (by decide) (by decide)
      (by decide) (fun st h => absurd h (List.not_mem_nil st))
      (fun v h => by cases h)⟩

/-- C3, the scenario as the specification writes it: on a fresh state the literal
line of scenario 2, whose field 11 is empty and whose field 12 is RYR123, is
processed twice with result 1, and afterwards the airlines map has no entry for RYR
and the flight buffer is empty. -/
theorem scenario2_literal_counts_nothing :
    (processMessage nullLibm 1 (dataScratch 0 0 50 16) msgScenario2).map
        (fun r => (r.1, mapFind r.2.companyPlot "RYR".toList, r.2.flightBuffer)) =
      Except.ok (1, none, []) ∧
    (processAll nullLibm (dataScratch 0 0 50 16) [(1, msgScenario2), (2, msgScenario2)]).map
        (fun s => (mapFind s.companyPlot "RYR".toList, s.flightBuffer)) =
      Except.ok (none, []) := by
  decide

/-- C3 as amended: on a fresh state data(lat, lon), whatever the arithmetic and the
times, processing twice the ID message of scenario 2 with the callsign RYR123 in
field 11 yields a state whose airlines map is exactly RYR -> 1 and whose flight
buffer holds exactly the one entry (ABCDEF, RYR123, time of the first call). -/
theorem scenario2_callsign_in_field_11 {F : Type} (M : Libm F) (now0 uninit now1 now2 : Int)
    (lat lon : F) :
    ∃ s : data F,
      processAll M (dataScratch now0 uninit lat lon)
        [(now1, msgScenario2Id), (now2, msgScenario2Id)] = Except.ok s ∧
      mapFind s.companyPlot "RYR".toList = some 1 ∧
      s.companyPlot = [("RYR".toList, 1)] ∧
      s.flightBuffer =
        [{ hex := "ABCDEF".toList, callsign := "RYR123".toList, timestamp := now1 }] ∧
      s.flightBuffer.length = 1 := by
  refine ⟨{ dataScratch now0 uninit lat lon with
    companyPlot := [("RYR".toList, 1)],
    flightBuffer := [{ hex := "ABCDEF".toList, callsign := "RYR123".toList, timestamp := now1 }] },
    ?_, rfl, rfl, rfl, rfl⟩
  have e1 : vecGet (split msgScenario2Id ',') 1 = Except.ok "1".toList := by decide
  have e4 : vecGet (split msgScenario2Id ',') 4 = Except.ok "ABCDEF".toList := by decide
  have e10 : vecGet (split msgScenario2Id ',') 10 = Except.ok "RYR123".toList := by decide
  have ek : stoi "1".toList = Except.ok 1 := by decide
  have p1 : processMessage M now1 (dataScratch now0 uninit lat lon) msgScenario2Id =
      Except.ok (1, { dataScratch now0 uninit lat lon with
        companyPlot := [("RYR".toList, 1)],
        flightBuffer := [{ hex := "ABCDEF".toList, callsign := "RYR123".toList, timestamp := now1 }] }) := by
    rw [processMessage_kind M now1 _ _ _ 1 e1 ek, if_pos rfl,
      caseId_eq now1 _ _ _ _ e4 (by decide) e10 (by decide)]
    rfl
  have p2 : processMessage M now2 { dataScratch now0 uninit lat lon with
        companyPlot := [("RYR".toList, 1)],
        flightBuffer := [{ hex := "ABCDEF".toList, callsign := "RYR123".toList, timestamp := now1 }] }
        msgScenario2Id =
      Except.ok (1, { dataScratch now0 uninit lat lon with
        companyPlot := [("RYR".toList, 1)],
        flightBuffer := [{ hex := "ABCDEF".toList, callsign := "RYR123".toList, timestamp := now1 }] }) := by
    rw [processMessage_kind M now2 _ _ _ 1 e1 ek, if_pos rfl,
      caseId_eq now2 _ _ _ _ e4 (by decide) e10 (by decide)]
    rfl
  simp only [processAll, p1, p2]
/-! ### Frame lemmas of the three parts of processMessage -/

/-- What case 1 can do to a state: nothing, or add one stamp to the buffer and
count the prefix of an airline callsign. -/
theorem caseId_cases {F : Type} (now : Int) (s : data F) (fields : List Str) (r : Int)
    (s1 : data F) (h : caseId now s fields = Except.ok (r, s1)) :
    r = 1 ∧
    (s1 = s ∨
      ∃ hex callsign plot,
        hex ≠ [] ∧ callsign ≠ [] ∧
        (∀ st ∈ s.flightBuffer, ¬ (st.hex = hex ∧ st.callsign = callsign)) ∧
        (if airlineCallsign callsign then mapCount strLt s.companyPlot (substr0 callsign 3)
          else Except.ok s.companyPlot) = Except.ok plot ∧
        s1 = { s with
          companyPlot := plot,
          flightBuffer := s.flightBuffer ++ [{ hex := hex, callsign := callsign, timestamp := now }] }) := by
  cases h4 : vecGet fields 4 with
  | error e => simp [caseId, h4, error_bind] at h
  | ok hex =>
    by_cases hhex : hex = []
    · simp only [caseId, h4, ok_bind, hhex, ne_eq, not_true_eq_false, if_false, pure, Except.pure,
        Except.ok.injEq, Prod.mk.injEq] at h
      exact ⟨h.1.symm, Or.inl h.2.symm⟩
    · cases h10 : vecGet fields 10 with
      | error e => simp [caseId, h4, h10, hhex, ok_bind, error_bind] at h
      | ok callsign =>
        by_cases hcs : callsign = []
        · simp only [caseId, h4, h10, ok_bind, hhex, hcs, ne_eq, not_true_eq_false, if_false,
            not_false_eq_true, if_true, pure, Except.pure, Except.ok.injEq, Prod.mk.injEq] at h
          exact ⟨h.1.symm, Or.inl h.2.symm⟩
        · rw [caseId_eq now s fields hex callsign h4 hhex h10 hcs] at h
          by_cases hin : isInFBuffer s.flightBuffer
              { hex := hex, callsign := callsign, timestamp := now } = true
          · rw [if_pos hin] at h
            simp only [Except.ok.injEq, Prod.mk.injEq] at h
            exact ⟨h.1.symm, Or.inl h.2.symm⟩
          · rw [if_neg hin] at h
            cases hp : (if airlineCallsign callsign = true then
                mapCount strLt s.companyPlot (substr0 callsign 3)
              else Except.ok s.companyPlot) with
            | error e => rw [hp, error_bind] at h; cases h
            | ok plot =>
              rw [hp, ok_bind] at h
              simp only [Except.ok.injEq, Prod.mk.injEq] at h
              refine ⟨h.1.symm, Or.inr ⟨hex, callsign, plot, hhex, hcs, ?_, hp, h.2.symm⟩⟩
              rw [Bool.not_eq_true, isInFBuffer_eq_false_iff] at hin
              exact hin

/-- The position step changes only the polar range plot and the heat map. -/
theorem positionStep_cases {F : Type} (M : Libm F) (s s1 : data F) (mPos : tCoords F)
    (h : positionStep M s mPos = Except.ok s1) :
    ∃ polar key heat,
      polarStep M s mPos = Except.ok polar ∧ heatKey M mPos = Except.ok key ∧
      mapCount intLt s.heatMap key = Except.ok heat ∧
      s1 = { s with polarRange := polar, heatMap := heat } := by
  unfold positionStep at h
  cases hp : polarStep M s mPos with
  | error e => rw [hp, error_bind] at h; cases h
  | ok polar =>
    rw [hp, ok_bind] at h
    cases hk : heatKey M mPos with
    | error e => rw [hk, error_bind] at h; cases h
    | ok key =>
      rw [hk, ok_bind] at h
      cases hm : mapCount intLt s.heatMap key with
      | error e => rw [hm, error_bind] at h; cases h
      | ok heat =>
        rw [hm, ok_bind] at h
        simp only [pure, Except.pure, Except.ok.injEq] at h
        exact ⟨polar, key, heat, rfl, rfl, hm, h.symm⟩

/-- The first statement of case 3 either leaves the state as it is (a position
field is empty) or runs the position step on the position read. -/
theorem updatePosition_cases {F : Type} (M : Libm F) (s s1 : data F) (fields : List Str)
    (h : updatePosition M s fields = Except.ok s1) :
    (s1 = s ∧ ((vecGet fields 14 = Except.ok []) ∨
        (vecGet fields 14).isOk = true ∧ vecGet fields 15 = Except.ok [])) ∨
      ∃ f14 f15 lat lon,
        vecGet fields 14 = Except.ok f14 ∧ f14 ≠ [] ∧
        vecGet fields 15 = Except.ok f15 ∧ f15 ≠ [] ∧
        M.stod f14 = Except.ok lat ∧ M.stod f15 = Except.ok lon ∧
        positionStep M s { lat := lat, lon := lon } = Except.ok s1 := by
  unfold updatePosition at h
  cases h14 : vecGet fields 14 with
  | error e => rw [h14, error_bind] at h; cases h
  | ok f14 =>
    rw [h14, ok_bind] at h
    by_cases h14e : f14 = []
    · simp only [h14e, ne_eq, not_true_eq_false, if_false, pure, Except.pure, Except.ok.injEq] at h
      exact Or.inl ⟨h.symm, Or.inl (by rw [h14e])⟩
    · rw [if_pos h14e] at h
      cases h15 : vecGet fields 15 with
      | error e => rw [h15, error_bind] at h; cases h
      | ok f15 =>
        rw [h15, ok_bind] at h
        by_cases h15e : f15 = []
        · simp only [h15e, ne_eq, not_true_eq_false, if_false, pure, Except.pure, Except.ok.injEq] at h
          exact Or.inl ⟨h.symm, Or.inr ⟨rfl, by rw [h15e]⟩⟩
        · rw [if_pos h15e] at h
          cases hlat : M.stod f14 with
          | error e => rw [hlat, error_bind] at h; cases h
          | ok lat =>
            rw [hlat, ok_bind] at h
            cases hlon : M.stod f15 with
            | error e => rw [hlon, error_bind] at h; cases h
            | ok lon =>
              rw [hlon, ok_bind] at h
              exact Or.inr ⟨f14, f15, lat, lon, rfl, h14e, rfl, h15e, hlat, hlon, h⟩

/-- The first statement of case 3 changes only the polar range plot and the heat
map. -/
theorem updatePosition_frame {F : Type} (M : Libm F) (s s1 : data F) (fields : List Str)
    (h : updatePosition M s fields = Except.ok s1) :
    s1.timestamp = s.timestamp ∧ s1.uptime = s.uptime ∧ s1.ref = s.ref ∧
    s1.companyPlot = s.companyPlot ∧ s1.altPlot = s.altPlot ∧
    s1.flightBuffer = s.flightBuffer := by
  rcases updatePosition_cases M s s1 fields h with ⟨h1, _⟩ | ⟨_, _, lat, lon, _, _, _, _, _, _, hp⟩
  · subst h1; simp
  · obtain ⟨polar, key, heat, _, _, _, e⟩ := positionStep_cases M s s1 _ hp
    subst e; simp

/-- The second statement of case 3 either leaves the state as it is or replaces one
bucket of the altitude plot by its value plus one. -/
theorem updateAltitude_cases {F : Type} (s s2 : data F) (fields : List Str)
    (h : updateAltitude s fields = Except.ok s2) :
    s2 = s ∨
      ∃ f11 altitude count,
        vecGet fields 11 = Except.ok f11 ∧ f11 ≠ [] ∧ stoi f11 = Except.ok altitude ∧
        Int.tdiv altitude 100 ≤ 500 ∧ 0 ≤ Int.tdiv altitude 100 ∧
        s.altPlot[(Int.tdiv altitude 100).toNat]? = some count ∧ count < INT_MAX ∧
        s2 = { s with altPlot := s.altPlot.set (Int.tdiv altitude 100).toNat (count + 1) } := by
  unfold updateAltitude at h
  cases h11 : vecGet fields 11 with
  | error e => rw [h11, error_bind] at h; cases h
  | ok f11 =>
    rw [h11, ok_bind] at h
    by_cases h11e : f11 = []
    · simp only [h11e, ne_eq, not_true_eq_false, if_false, pure, Except.pure, Except.ok.injEq] at h
      exact Or.inl h.symm
    · rw [if_pos h11e] at h
      cases ha : stoi f11 with
      | error e => rw [ha, error_bind] at h; cases h
      | ok altitude =>
        rw [ha, ok_bind] at h
        by_cases hfl : Int.tdiv altitude 100 ≤ 500
        · simp only [hfl, if_true] at h
          cases hc : vecGet s.altPlot (Int.tdiv altitude 100) with
          | error e => rw [hc, error_bind] at h; cases h
          | ok count =>
            rw [hc, ok_bind] at h
            unfold vecGet at hc
            by_cases h0 : 0 ≤ Int.tdiv altitude 100
            · rw [if_pos h0] at hc
              cases hg : s.altPlot[(Int.tdiv altitude 100).toNat]? with
              | none => rw [hg] at hc; cases hc
              | some c =>
                rw [hg] at hc
                simp only [Except.ok.injEq] at hc
                subst hc
                unfold incrInt at h
                by_cases hlt : c < INT_MAX
                · rw [if_pos hlt, ok_bind] at h
                  have hlen : (Int.tdiv altitude 100).toNat < s.altPlot.length := by
                    rcases List.getElem?_eq_some_iff.mp hg with ⟨hl, _⟩
                    exact hl
                  unfold vecSet at h
                  rw [if_pos ⟨h0, hlen⟩, ok_bind] at h
                  simp only [pure, Except.pure, Except.ok.injEq] at h
                  exact Or.inr ⟨f11, altitude, c, rfl, h11e, ha, hfl, h0, hg, hlt, h.symm⟩
                · rw [if_neg hlt, error_bind] at h; cases h
            · rw [if_neg h0] at hc; cases hc
        · simp only [hfl, if_false, pure, Except.pure, Except.ok.injEq] at h
          exact Or.inl h.symm
/-- What a call of processMessage that returns has done. -/
theorem processMessage_cases {F : Type} (M : Libm F) (now : Int) (s s1 : data F) (message : Str)
    (r : Int) (h : processMessage M now s message = Except.ok (r, s1)) :
    ∃ f1 kind,
      vecGet (split message ',') 1 = Except.ok f1 ∧ stoi f1 = Except.ok kind ∧
      ((kind = 1 ∧ caseId now s (split message ',') = Except.ok (r, s1)) ∨
       (kind = 3 ∧ r = 3 ∧ ∃ sp, updatePosition M s (split message ',') = Except.ok sp ∧
          updateAltitude sp (split message ',') = Except.ok s1) ∨
       (kind ≠ 1 ∧ kind ≠ 3 ∧ r = 0 ∧ s1 = s)) := by
  cases h1 : vecGet (split message ',') 1 with
  | error e => simp [processMessage, h1, error_bind] at h
  | ok f1 =>
    cases hk : stoi f1 with
    | error e => simp [processMessage, h1, hk, ok_bind, error_bind] at h
    | ok kind =>
      rw [processMessage_kind M now s message f1 kind h1 hk] at h
      refine ⟨f1, kind, rfl, hk, ?_⟩
      by_cases k1 : kind = 1
      · rw [if_pos k1] at h
        exact Or.inl ⟨k1, h⟩
      · rw [if_neg k1] at h
        by_cases k3 : kind = 3
        · rw [if_pos k3] at h
          cases hp : updatePosition M s (split message ',') with
          | error e => rw [hp, error_bind] at h; cases h
          | ok sp =>
            rw [hp, ok_bind] at h
            cases ha : updateAltitude sp (split message ',') with
            | error e => rw [ha, error_bind] at h; cases h
            | ok s2 =>
              rw [ha, ok_bind] at h
              simp only [Except.ok.injEq, Prod.mk.injEq] at h
              exact Or.inr (Or.inl ⟨k3, h.1.symm, sp, rfl, by rw [ha, h.2]⟩)
        · rw [if_neg k3] at h
          simp only [Except.ok.injEq, Prod.mk.injEq] at h
          exact Or.inr (Or.inr ⟨k1, k3, h.1.symm, h.2.symm⟩)

/-- C4 (code bug), the scenario as the specification writes it: on the line
not,a,valid,record the conversion std::stoi of field 2 throws std::invalid_argument,
which nothing catches, so processMessage does not return the tag 0 with the state
unchanged, the value its own comment gives for a discarded message: it does not
return at all. -/
theorem malformed_line_throws :
    processMessage nullLibm 0 (dataScratch 0 0 50 16) msgMalformed =
      Except.error Fault.invalidArgument ∧
    processMessage nullLibm 0 (dataScratch 0 0 50 16) msgMalformed ≠
      Except.ok (0, dataScratch 0 0 50 16) := by
  decide

theorem mem_mapSet {K : Type} [DecidableEq K] (lt : K → K → Bool) (k : K) (v : Int)
    (m : List (K × Int)) (kv : K × Int) (h : kv ∈ mapSet lt k v m) : kv.1 = k ∨ kv ∈ m := by
  induction m with
  | nil =>
    simp only [mapSet, List.mem_singleton] at h
    exact Or.inl (by rw [h])
  | cons e rest ih =>
    obtain ⟨k1, v1⟩ := e
    unfold mapSet at h
    by_cases hk : k = k1
    · rw [if_pos hk] at h
      rcases List.mem_cons.mp h with h | h
      · exact Or.inl (by rw [h])
      · exact Or.inr (List.mem_cons_of_mem _ h)
    · rw [if_neg hk] at h
      by_cases hl : lt k k1 = true
      · rw [if_pos hl] at h
        rcases List.mem_cons.mp h with h | h
        · exact Or.inl (by rw [h])
        · exact Or.inr h
      · rw [if_neg hl] at h
        rcases List.mem_cons.mp h with h | h
        · exact Or.inr (by rw [h]; exact List.mem_cons_self _ _)
        · rcases ih h with h | h
          · exact Or.inl h
          · exact Or.inr (List.mem_cons_of_mem _ h)

theorem mem_mapCount {K : Type} [DecidableEq K] (lt : K → K → Bool) (m m1 : List (K × Int))
    (k : K) (h : mapCount lt m k = Except.ok m1) (kv : K × Int) (hkv : kv ∈ m1) :
    kv.1 = k ∨ kv ∈ m := by
  unfold mapCount at h
  cases hf : mapFind m k with
  | none =>
    simp only [hf, Except.ok.injEq] at h
    subst h
    exact mem_mapSet lt k 1 m kv hkv
  | some v =>
    simp only [hf] at h
    cases hi : incrInt v with
    | error e => simp only [hi] at h; cases h
    | ok w =>
      simp only [hi, Except.ok.injEq] at h
      subst h
      exact mem_mapSet lt k w m kv hkv

theorem alphaKey_of_airlineCallsign (callsign : Str) (h : airlineCallsign callsign = true) :
    alphaKey (substr0 callsign 3) = true := by
  match callsign with
  | [] => simp [airlineCallsign] at h
  | [_] => simp [airlineCallsign] at h
  | [_, _] => simp [airlineCallsign] at h
  | [_, _, _] => simp [airlineCallsign] at h
  | a :: b :: c :: d :: rest =>
    simp only [airlineCallsign, Bool.and_eq_true] at h
    simp [alphaKey, substr0, List.all, h.1.1.1, h.1.1.2, h.1.2]

/-- A call of processMessage adds to the airlines map only keys of three alphabetic
characters. -/
theorem processMessage_keys {F : Type} (M : Libm F) (now : Int) (s s1 : data F) (message : Str)
    (r : Int) (h : processMessage M now s message = Except.ok (r, s1))
    (kv : Str × Int) (hkv : kv ∈ s1.companyPlot) :
    kv ∈ s.companyPlot ∨ alphaKey kv.1 = true := by
  obtain ⟨f1, kind, _, _, hc⟩ := processMessage_cases M now s s1 message r h
  rcases hc with ⟨_, hc⟩ | ⟨_, _, sp, hp, ha⟩ | ⟨_, _, _, e⟩
  · rcases (caseId_cases now s _ r s1 hc).2 with e | ⟨hex, callsign, plot, _, _, _, hplot, e⟩
    · subst e; exact Or.inl hkv
    · subst e
      by_cases hair : airlineCallsign callsign = true
      · rw [if_pos hair] at hplot
        rcases mem_mapCount strLt _ _ _ hplot kv hkv with hk | hk
        · exact Or.inr (by rw [hk]; exact alphaKey_of_airlineCallsign callsign hair)
        · exact Or.inl hk
      · rw [if_neg hair] at hplot
        simp only [Except.ok.injEq] at hplot
        subst hplot
        exact Or.inl hkv
  · have f1 := updatePosition_frame M s sp _ hp
    rcases updateAltitude_cases sp s1 _ ha with e | ⟨_, _, _, _, _, _, _, _, _, _, e⟩
    · subst e; rw [f1.2.2.2.1] at hkv; exact Or.inl hkv
    · subst e; simp only at hkv; rw [f1.2.2.2.1] at hkv; exact Or.inl hkv
  · subst e; exact Or.inl hkv

theorem processAll_keys {F : Type} (M : Libm F) :
    ∀ (msgs : List (Int × Str)) (s s1 : data F),
      (∀ kv ∈ s.companyPlot, alphaKey kv.1 = true) →
      processAll M s msgs = Except.ok s1 →
      ∀ kv ∈ s1.companyPlot, alphaKey kv.1 = true := by
  intro msgs
  induction msgs with
  | nil =>
    intro s s1 hs h
    simp only [processAll, Except.ok.injEq] at h
    subst h; exact hs
  | cons m rest ih =>
    intro s s1 hs h
    obtain ⟨now, message⟩ := m
    unfold processAll at h
    cases hp : processMessage M now s message with
    | error e => rw [hp] at h; cases h
    | ok r =>
      rw [hp] at h
      refine ih r.2 s1 ?_ h
      intro kv hkv
      rcases processMessage_keys M now s r.2 message r.1 hp kv hkv with hk | hk
      · exact hs kv hk
      · exact hk

/-- C6, as the specification states it: from a fresh state, an ID message whose
callsign is ryr123 is accepted (isalpha holds of lower case letters) and creates
the key ryr, which is not made of upper case letters. -/
theorem lower_case_airline_key :
    (processAll nullLibm (dataScratch 0 0 50 16) [(1, msgLowerCase)]).map
        (fun s => s.companyPlot.map (fun kv => (kv.1, kv.2, upperKey kv.1))) =
      Except.ok [("ryr".toList, 1, false)] := by
  decide

/-- C6 as amended: after any sequence of messages processed from a fresh state
data(lat, lon), every key of the airlines map is made of exactly three alphabetic
characters (of either case). -/
theorem airline_keys_three_letters {F : Type} (M : Libm F) (now0 uninit : Int) (lat lon : F)
    (msgs : List (Int × Str)) (s : data F)
    (hrun : processAll M (dataScratch now0 uninit lat lon) msgs = Except.ok s) :
    ∀ kv ∈ s.companyPlot, kv.1.length = 3 ∧ ∀ c ∈ kv.1, isalpha c = true := by
  intro kv hkv
  have h := processAll_keys M msgs (dataScratch now0 uninit lat lon) s
    (fun kv h => absurd h (List.not_mem_nil kv)) hrun kv hkv
  simp only [alphaKey, Bool.and_eq_true, decide_eq_true_eq, List.all_eq_true] at h
  exact h

/-- Witness of C6: the two airline keys created by three ID messages, one of them in
lower case. -/
theorem airline_keys_three_letters_witness :
    processAll nullLibm (dataScratch 0 0 50 16)
        [(1, msgStaleA), (2, msgLowerCase), (3, msgStaleB)] =
      Except.ok { dataScratch 0 0 50 16 with
        companyPlot := [("DLH".toList, 1), ("RYR".toList, 1), ("ryr".toList, 1)],
        flightBuffer :=
          [{ hex := "AAAAAA".toList, callsign := "RYR123".toList, timestamp := 1 },
           { hex := "ABCDEF".toList, callsign := "ryr123".toList, timestamp := 2 },
           { hex := "BBBBBB".toList, callsign := "DLH456".toList, timestamp := 3 }] } ∧
    ∀ kv ∈ [("DLH".toList, (1 : Int)), ("RYR".toList, 1), ("ryr".toList, 1)],
      kv.1.length = 3 ∧ ∀ c ∈ kv.1, isalpha c = true :=
  ⟨rfl,
   airline_keys_three_letters nullLibm 0 0 50 16
     [(1, msgStaleA), (2, msgLowerCase), (3, msgStaleB)] _ rfl⟩
theorem dataScratch_altPlot_length {F : Type} (now uninit : Int) (lat lon : F) :
    (dataScratch now uninit lat lon).altPlot.length = 501 :=
  List.length_replicate 501 (0 : Int)

theorem dataScratch_polarRange_length {F : Type} (now uninit : Int) (lat lon : F) :
    (dataScratch now uninit lat lon).polarRange.length = 360 :=
  List.length_replicate 360 _

/-- The first statement of case 3 does nothing when field 15 is present and empty. -/
theorem updatePosition_no_lat {F : Type} (M : Libm F) (s : data F) (fields : List Str)
    (h14 : vecGet fields 14 = Except.ok []) : updatePosition M s fields = Except.ok s := by
  unfold updatePosition
  rw [h14, ok_bind]
  rfl

/-- The second statement of case 3 in closed form, on a message whose altitude
field is present, non-empty and converts. -/
theorem updateAltitude_eq {F : Type} (s : data F) (fields : List Str) (f11 : Str) (altitude : Int)
    (h11 : vecGet fields 11 = Except.ok f11) (hne : f11 ≠ [])
    (ha : stoi f11 = Except.ok altitude) :
    updateAltitude s fields =
      if Int.tdiv altitude 100 ≤ 500 then
        vecGet s.altPlot (Int.tdiv altitude 100) >>= fun count =>
        incrInt count >>= fun count1 =>
        vecSet s.altPlot (Int.tdiv altitude 100) count1 >>= fun alt =>
        Except.ok { s with altPlot := alt }
      else Except.ok s := by
  unfold updateAltitude
  rw [h11, ok_bind, if_pos hne, ha, ok_bind]
  rfl

/-- C7 (negative altitude): on every state and with every arithmetic, the airborne
position message whose altitude field is -300 (flight level -300 / 100 = -3, which
passes the test fl <= 500) makes processMessage evaluate altPlot[-3], an access
outside the 501 elements of the histogram: the call does not return. -/
theorem negative_altitude_out_of_bounds {F : Type} (M : Libm F) (now : Int) (s : data F) :
    Int.tdiv (-300) 100 = -3 ∧
    processMessage M now s msgNegativeAltitude = Except.error Fault.outOfBounds := by
  refine ⟨by decide, ?_⟩
  have e1 : vecGet (split msgNegativeAltitude ',') 1 = Except.ok "3".toList := by decide
  have ek : stoi "3".toList = Except.ok 3 := by decide
  have e14 : vecGet (split msgNegativeAltitude ',') 14 = Except.ok [] := by decide
  have e11 : vecGet (split msgNegativeAltitude ',') 11 = Except.ok "-300".toList := by decide
  have ea : stoi "-300".toList = Except.ok (-300) := by decide
  rw [processMessage_kind M now s _ _ 3 e1 ek, if_neg (by decide), if_pos rfl,
    updatePosition_no_lat M s _ e14, ok_bind,
    updateAltitude_eq s _ _ (-300) e11 (by decide) ea, if_pos (by decide)]
  rfl

/-- C9 (altitude histogram update): take an airborne position message whose
position part is processed to the state s1 and whose altitude field is non-empty
and converts to altitude, with fl = altitude / 100 (division truncating towards
zero).  The position part leaves the histogram as it was.  If 0 <= fl <= 500,
processMessage returns 3 and the state s1 with bucket fl incremented by exactly
one and every other bucket unchanged (polar range plot and heat map are those of
s1, updated from the position fields).  If fl > 500, processMessage returns 3 and
s1 itself: the histogram is unchanged.  The histogram has its 501 buckets and the
bucket is supposed below INT_MAX. -/
theorem altitude_histogram_update {F : Type} (M : Libm F) (now : Int) (s s1 : data F)
    (message f1 f11 : Str) (altitude : Int)
    (h1 : vecGet (split message ',') 1 = Except.ok f1) (hk : stoi f1 = Except.ok 3)
    (hpos : updatePosition M s (split message ',') = Except.ok s1)
    (h11 : vecGet (split message ',') 11 = Except.ok f11) (hne : f11 ≠ [])
    (ha : stoi f11 = Except.ok altitude)
    (hlen : s.altPlot.length = 501)
    (hov : ∀ v ∈ s.altPlot, v < INT_MAX) :
    s1.altPlot = s.altPlot ∧
    (0 ≤ Int.tdiv altitude 100 → Int.tdiv altitude 100 ≤ 500 →
      ∃ s2 : data F,
        processMessage M now s message = Except.ok (3, s2) ∧
        s2 = { s1 with altPlot := (s.altPlot.set (Int.tdiv altitude 100).toNat
                (s.altPlot.getD (Int.tdiv altitude 100).toNat 0 + 1)) } ∧
        s2.altPlot.length = 501 ∧
        s2.altPlot.getD (Int.tdiv altitude 100).toNat 0 =
          s.altPlot.getD (Int.tdiv altitude 100).toNat 0 + 1 ∧
        (∀ i, i ≠ (Int.tdiv altitude 100).toNat → s2.altPlot[i]? = s.altPlot[i]?) ∧
        s2.polarRange = s1.polarRange ∧ s2.heatMap = s1.heatMap) ∧
    (500 < Int.tdiv altitude 100 →
      processMessage M now s message = Except.ok (3, s1)) := by
  have hfr := updatePosition_frame M s s1 _ hpos
  have halt : s1.altPlot = s.altPlot := hfr.2.2.2.2.1
  refine ⟨halt, ?_, ?_⟩
  · intro h0 h500
    have hi : (Int.tdiv altitude 100).toNat < s.altPlot.length := by
      rw [hlen]; omega
    have hget : s.altPlot[(Int.tdiv altitude 100).toNat]? =
        some (s.altPlot.getD (Int.tdiv altitude 100).toNat 0) := by
      rw [List.getD_eq_getElem?_getD, List.getElem?_eq_getElem hi]
      rfl
    have hlt : s.altPlot.getD (Int.tdiv altitude 100).toNat 0 < INT_MAX := by
      apply hov
      rw [List.getD_eq_getElem?_getD, List.getElem?_eq_getElem hi]
      exact List.getElem_mem _
    refine ⟨_, ?_, rfl, ?_, ?_, ?_, rfl, rfl⟩
    · rw [processMessage_kind M now s message f1 3 h1 hk, if_neg (by decide), if_pos rfl, hpos,
        ok_bind, updateAltitude_eq s1 _ f11 altitude h11 hne ha, if_pos h500, halt]
      simp only [vecGet, h0, if_true, hget, ok_bind, incrInt, hlt, vecSet, hi, and_self]
    · simp [hlen]
    · simp [List.getD_eq_getElem?_getD, hi]
    · intro i hne
      simp only
      rw [List.getElem?_set_ne (Ne.symm hne)]
  · intro h500
    rw [processMessage_kind M now s message f1 3 h1 hk, if_neg (by decide), if_pos rfl, hpos,
      ok_bind, updateAltitude_eq s1 _ f11 altitude h11 hne ha, if_neg (by omega)]
    rfl

/-- Witness of C9: 38000 ft counts in bucket 380 of a fresh histogram. -/
theorem altitude_histogram_update_witness :
    Int.tdiv 38000 100 = 380 ∧
    ∃ s2 : data Int,
      processMessage nullLibm 5 (dataScratch 0 0 50 16) msgAltitudeOnly = Except.ok (3, s2) ∧
      s2.altPlot.getD 380 0 = 1 ∧
      ∀ i, i ≠ 380 → s2.altPlot[i]? = (dataScratch 0 0 50 16 : data Int).altPlot[i]? := by
  have h := altitude_histogram_update nullLibm 5 (dataScratch 0 0 50 16) (dataScratch 0 0 50 16)
    msgAltitudeOnly "3".toList "38000".toList 38000 (by decide) (by decide)
    (updatePosition_no_lat nullLibm _ _ (by decide)) (by decide) (by decide) (by decide)
    (dataScratch_altPlot_length 0 0 50 16)
    (fun v hv => by
      rw [List.eq_of_mem_replicate hv]
      decide)
  obtain ⟨s2, hp, _, _, hg, ho, _⟩ := h.2.1 (by decide) (by decide)
  exact ⟨by decide, s2, hp, hg, ho⟩

/-! ### Evaluation over the real numbers -/

theorem stod_30 : realLibm.stod "30.0".toList = Except.ok 30 := by
  have h : stodParts "30.0".toList = Except.ok (false, 300, -1) := by decide
  simp only [realLibm, h, decimalValue]
  norm_num

theorem stod_m01 : realLibm.stod "-0.1".toList = Except.ok (-(1/10)) := by
  have h : stodParts "-0.1".toList = Except.ok (true, 1, -1) := by decide
  simp only [realLibm, h, decimalValue]
  norm_num

theorem stod_0 : realLibm.stod "0".toList = Except.ok 0 := by
  have h : stodParts "0".toList = Except.ok (false, 0, 0) := by decide
  simp only [realLibm, h, decimalValue]
  norm_num

/-! ### The bearing of the north-west position, over the real numbers -/

theorem log_sqrt_three_ge : (1 : ℝ) / 2 ≤ Real.log (Real.sqrt 3) := by
  have h3 : Real.exp 1 ≤ 3 := by
    have := Real.exp_one_lt_d9
    linarith
  have hl : (1 : ℝ) ≤ Real.log 3 := by
    rw [Real.le_log_iff_exp_le (by norm_num)]
    exact h3
  rw [Real.log_sqrt (by norm_num)]
  linarith

/-- The angle atan2 returns for the north-west position lies strictly between
-0.5 degree and 0. -/
theorem arg_northwest :
    -(Real.pi / 360) < Complex.arg ⟨Real.log (Real.sqrt 3), -(Real.pi / 1800)⟩ ∧
    Complex.arg ⟨Real.log (Real.sqrt 3), -(Real.pi / 1800)⟩ < 0 := by
  have hpi := Real.pi_gt_three
  have hpi4 := Real.pi_lt_four
  have hre := log_sqrt_three_ge
  set z : ℂ := ⟨Real.log (Real.sqrt 3), -(Real.pi / 1800)⟩ with hz
  have hzre : z.re = Real.log (Real.sqrt 3) := rfl
  have hzim : z.im = -(Real.pi / 1800) := rfl
  have hneg : Complex.arg z < 0 := by
    rw [Complex.arg_neg_iff, hzim]
    linarith
  refine ⟨?_, hneg⟩
  have habs : |Complex.arg z| < Real.pi / 2 := by
    rw [Complex.abs_arg_lt_pi_div_two_iff]
    left; rw [hzre]; linarith
  have hlo : -(Real.pi / 2) < Complex.arg z := (abs_lt.mp habs).1
  have hhi : Complex.arg z < Real.pi / 2 := (abs_lt.mp habs).2
  by_contra hcon
  rw [not_lt] at hcon
  have hmono := Real.strictMonoOn_sin.monotoneOn
    (show Complex.arg z ∈ Set.Icc (-(Real.pi / 2)) (Real.pi / 2) from ⟨hlo.le, hhi.le⟩)
    (show -(Real.pi / 360) ∈ Set.Icc (-(Real.pi / 2)) (Real.pi / 2) from
      ⟨by linarith, by linarith⟩) hcon
  rw [Complex.sin_arg, Real.sin_neg] at hmono
  have hsin : 2 / Real.pi * (Real.pi / 360) ≤ Real.sin (Real.pi / 360) :=
    Real.mul_le_sin (by positivity) (by linarith)
  have hval : 2 / Real.pi * (Real.pi / 360) = 1 / 180 := by
    field_simp; ring
  rw [hval] at hsin
  have hzabs : Real.log (Real.sqrt 3) ≤ Complex.abs z := by
    rw [← hzre]; exact Complex.re_le_abs z
  have hzpos : 0 < Complex.abs z := by linarith
  have him : -(1 / 180 : ℝ) < z.im / Complex.abs z := by
    rw [hzim, lt_div_iff₀ hzpos]
    have : (1 / 180 : ℝ) * Complex.abs z ≥ 1 / 180 * (1 / 2) := by
      apply mul_le_mul_of_nonneg_left _ (by norm_num)
      linarith
    nlinarith
  linarith

theorem truncReal_of_nonneg (x : ℝ) (n : Int) (h0 : 0 ≤ n) (hn : (n : ℝ) ≤ x)
    (hx : x < (n : ℝ) + 1) : truncReal x = n := by
  have hx0 : (0 : ℝ) ≤ x := le_trans (by exact_mod_cast h0) hn
  unfold truncReal
  rw [if_pos hx0, Int.floor_eq_iff]
  exact ⟨hn, hx⟩

/-- Over the real numbers the call abs(x) of getBearing, which converts x to int,
returns at most the absolute value of x. -/
theorem realLibm_abs_le (d : ℝ) : realLibm.abs d ≤ |d| := by
  show (((|truncReal d| : Int)) : ℝ) ≤ |d|
  unfold truncReal
  by_cases h : 0 ≤ d
  · rw [if_pos h, abs_of_nonneg (Int.floor_nonneg.mpr h), abs_of_nonneg h]
    exact Int.floor_le d
  · rw [if_neg h]
    have hd : d < 0 := not_le.mp h
    have hc : ⌈d⌉ ≤ 0 := Int.ceil_le.mpr (by exact_mod_cast hd.le)
    rw [abs_of_nonpos hc, abs_of_neg hd]
    push_cast
    have := Int.le_ceil d
    linarith

/-- Over the real numbers the correction of getBearing leaves a difference of
absolute value at most π as it is. -/
theorem normDeltaLon_small (d : ℝ) (h : |d| ≤ Real.pi) : normDeltaLon realLibm d = d := by
  unfold normDeltaLon
  have : realLibm.gt (realLibm.abs d) realLibm.pi = false := by
    show decide (Real.pi < realLibm.abs d) = false
    rw [decide_eq_false_iff_not, not_lt]
    exact le_trans (realLibm_abs_le d) h
  rw [this]
  rfl

/-- Over the real numbers the bearing from (0, 0) to (30, -0.1) lies in
[359.5, 360). -/
theorem getBearing_northwest :
    359.5 ≤ getBearing realLibm { lat := 0, lon := 0 } { lat := 30, lon := -(1 / 10) } ∧
    getBearing realLibm { lat := 0, lon := 0 } { lat := 30, lon := -(1 / 10) } < 360 := by
  have hpi := Real.pi_gt_three
  have hpi4 := Real.pi_lt_four
  have hpos : (0 : ℝ) < Real.pi := Real.pi_pos
  obtain ⟨hlo, hhi⟩ := arg_northwest
  have hd : (-(1 / 10) : ℝ) * (Real.pi / 180) - 0 * (Real.pi / 180) = -(Real.pi / 1800) := by
    ring
  have ht1 : Real.tan (30 * (Real.pi / 180) / 2 + Real.pi / 4) = Real.sqrt 3 := by
    rw [← Real.tan_pi_div_three]
    congr 1; ring
  have ht0 : Real.tan (0 * (Real.pi / 180) / 2 + Real.pi / 4) = 1 := by
    rw [← Real.tan_pi_div_four]
    congr 1; ring
  have hn : normDeltaLon realLibm (-(Real.pi / 1800)) = -(Real.pi / 1800) := by
    apply normDeltaLon_small
    rw [abs_neg, abs_of_pos (by positivity)]
    linarith
  have hb : getBearing realLibm { lat := 0, lon := 0 } { lat := 30, lon := -(1 / 10) } =
      realLibm.fmod
        (Complex.arg ⟨Real.log (Real.sqrt 3), -(Real.pi / 1800)⟩ * (180 / Real.pi) + 360) 360 := by
    unfold getBearing toDegrees toRadians
    simp only [realLibm] at hn ⊢
    simp only [Rat.cast_ofNat]
    rw [hd, ht1, ht0, div_one, hn]
  set θ := Complex.arg ⟨Real.log (Real.sqrt 3), -(Real.pi / 1800)⟩ with hθ
  have hx1 : 359.5 ≤ θ * (180 / Real.pi) + 360 := by
    have : -(1 / 2 : ℝ) ≤ θ * (180 / Real.pi) := by
      rw [← mul_div_assoc, le_div_iff₀ hpos]
      linarith
    linarith
  have hx2 : θ * (180 / Real.pi) + 360 < 360 := by
    have : θ * (180 / Real.pi) < 0 := by
      apply mul_neg_of_neg_of_pos hhi
      positivity
    linarith
  have hf : realLibm.fmod (θ * (180 / Real.pi) + 360) 360 = θ * (180 / Real.pi) + 360 := by
    simp only [realLibm]
    rw [truncReal_of_nonneg _ 0 (le_refl 0)]
    · simp
    · simp only [Int.cast_zero]
      apply div_nonneg _ (by norm_num)
      linarith
    · simp only [Int.cast_zero, zero_add]
      rw [div_lt_one (by norm_num)]
      exact hx2
  rw [hb, hf]
  exact ⟨hx1, hx2⟩

theorem roundReal_of_nonneg (x : ℝ) (n : Int) (hx0 : 0 ≤ x) (hn : (n : ℝ) - 1 / 2 ≤ x)
    (hx : x < (n : ℝ) + 1 / 2) : realLibm.round x = (n : ℝ) := by
  show roundReal x = (n : ℝ)
  unfold roundReal
  rw [if_pos hx0]
  have : ⌊x + 1 / 2⌋ = n := by
    rw [Int.floor_eq_iff]
    constructor <;> linarith
  rw [this]

theorem castInt_real (n : Int) (hlo : INT_MIN ≤ n) (hhi : n ≤ INT_MAX) :
    castInt realLibm (n : ℝ) = Except.ok n := by
  have ht : truncReal (n : ℝ) = n := by
    unfold truncReal
    split <;> simp
  show (match (if INT_MIN ≤ truncReal (n : ℝ) ∧ truncReal (n : ℝ) ≤ INT_MAX then
      some (truncReal (n : ℝ)) else none) with
    | some m => Except.ok m
    | none => Except.error Fault.intOverflow) = Except.ok n
  rw [ht, if_pos ⟨hlo, hhi⟩]

theorem vecGet_length {α : Type} (v : List α) :
    vecGet v (v.length : Int) = Except.error Fault.outOfBounds := by
  unfold vecGet
  rw [if_pos (Int.natCast_nonneg _), Int.toNat_natCast, List.getElem?_eq_none (le_refl _)]

/-- C8 (bearing index 360): over the real numbers, from the reference position
(0, 0), the position (30, -0.1) has bearing in [359.5, 360), which rounds to 360;
processMessage then reads polarRange[360] in the 360-element plot of a fresh state,
an access outside the vector, and does not return: index 360 is not folded to 0. -/
theorem bearing_rounds_to_360 (now now0 uninit : Int) :
    realLibm.round
        (getBearing realLibm { lat := 0, lon := 0 } { lat := 30, lon := -(1 / 10) }) = 360 ∧
    castInt realLibm (realLibm.round
        (getBearing realLibm { lat := 0, lon := 0 } { lat := 30, lon := -(1 / 10) })) =
      Except.ok 360 ∧
    (dataScratch now0 uninit (0 : ℝ) 0).polarRange.length = 360 ∧
    processMessage realLibm now (dataScratch now0 uninit 0 0) msgNorthWest =
      Except.error Fault.outOfBounds := by
  obtain ⟨hlo, hhi⟩ := getBearing_northwest
  have hround : realLibm.round
      (getBearing realLibm { lat := 0, lon := 0 } { lat := 30, lon := -(1 / 10) }) = 360 := by
    have h := roundReal_of_nonneg
      (getBearing realLibm { lat := 0, lon := 0 } { lat := 30, lon := -(1 / 10) }) 360
      (by linarith) (by push_cast; linarith) (by push_cast; linarith)
    rw [h]
    norm_num
  have hcast : castInt realLibm (realLibm.round
      (getBearing realLibm { lat := 0, lon := 0 } { lat := 30, lon := -(1 / 10) })) =
      Except.ok 360 := by
    rw [hround]
    exact castInt_real 360 (by decide) (by decide)
  refine ⟨hround, hcast, dataScratch_polarRange_length now0 uninit 0 0, ?_⟩
  have e1 : vecGet (split msgNorthWest ',') 1 = Except.ok "3".toList := by decide
  have ek : stoi "3".toList = Except.ok 3 := by decide
  have e14 : vecGet (split msgNorthWest ',') 14 = Except.ok "30.0".toList := by decide
  have e15 : vecGet (split msgNorthWest ',') 15 = Except.ok "-0.1".toList := by decide
  have hpolar : polarStep realLibm (dataScratch now0 uninit 0 0)
      { lat := 30, lon := -(1 / 10) } = Except.error Fault.outOfBounds := by
    unfold polarStep
    have href : (dataScratch now0 uninit (0 : ℝ) 0).ref = { lat := 0, lon := 0 } := rfl
    rw [href, hcast, ok_bind]
    have hv := vecGet_length (dataScratch now0 uninit (0 : ℝ) 0).polarRange
    rw [dataScratch_polarRange_length] at hv
    simp only [Nat.cast_ofNat] at hv
    rw [hv]
    rfl
  rw [processMessage_kind realLibm now _ _ _ 3 e1 ek, if_neg (by decide), if_pos rfl]
  unfold updatePosition
  rw [e14, ok_bind, if_pos (by decide), e15, ok_bind, if_pos (by decide), stod_30, ok_bind,
    stod_m01, ok_bind]
  unfold positionStep
  rw [hpolar]
  rfl
/-! ### The polar range plot -/

theorem vecGet_ok_iff {α : Type} (v : List α) (i : Int) (x : α) :
    vecGet v i = Except.ok x ↔ 0 ≤ i ∧ v[i.toNat]? = some x := by
  unfold vecGet
  by_cases h0 : 0 ≤ i
  · rw [if_pos h0]
    cases hg : v[i.toNat]? with
    | none => simp [h0]
    | some y => simp [h0]
  · rw [if_neg h0]
    simp [h0]

theorem vecSet_ok {α : Type} (v w : List α) (i : Int) (x : α)
    (h : vecSet v i x = Except.ok w) : 0 ≤ i ∧ i.toNat < v.length ∧ w = v.set i.toNat x := by
  unfold vecSet at h
  by_cases hc : 0 ≤ i ∧ i.toNat < v.length
  · rw [if_pos hc] at h
    simp only [Except.ok.injEq] at h
    exact ⟨hc.1, hc.2, h.symm⟩
  · rw [if_neg hc] at h
    cases h

/-- What the update of the polar range plot has done when it returns. -/
theorem polarStep_cases {F : Type} (M : Libm F) (s : data F) (mPos : tCoords F)
    (polar : List (tCoords F)) (h : polarStep M s mPos = Except.ok polar) :
    ∃ bearing maxPos,
      castInt M (M.round (getBearing M s.ref mPos)) = Except.ok bearing ∧
      vecGet s.polarRange bearing = Except.ok maxPos ∧
      ((M.gt (getDistance M s.ref mPos) (getDistance M s.ref maxPos) = true ∧
          polar = s.polarRange.set bearing.toNat mPos) ∨
       (M.gt (getDistance M s.ref mPos) (getDistance M s.ref maxPos) = false ∧
          polar = s.polarRange)) := by
  unfold polarStep at h
  cases hb : castInt M (M.round (getBearing M s.ref mPos)) with
  | error e => rw [hb, error_bind] at h; cases h
  | ok bearing =>
    rw [hb, ok_bind] at h
    cases hm : vecGet s.polarRange bearing with
    | error e => rw [hm, error_bind] at h; cases h
    | ok maxPos =>
      rw [hm, ok_bind] at h
      refine ⟨bearing, maxPos, rfl, hm, ?_⟩
      by_cases hg : M.gt (getDistance M s.ref mPos) (getDistance M s.ref maxPos) = true
      · simp only [hg, if_true] at h
        exact Or.inl ⟨hg, (vecSet_ok _ _ _ _ h).2.2⟩
      · simp only [hg, if_false, Bool.false_eq_true, pure, Except.pure, Except.ok.injEq] at h
        exact Or.inr ⟨by simpa using hg, h.symm⟩

theorem vecGet_lt_length {α : Type} (v : List α) (i : Int) (x : α)
    (h : vecGet v i = Except.ok x) : 0 ≤ i ∧ i < (v.length : Int) := by
  rw [vecGet_ok_iff] at h
  have := (List.getElem?_eq_some_iff.mp h.2).1
  omega

theorem realLibm_gt (x y : ℝ) : realLibm.gt x y = true ↔ y < x := by
  show decide (y < x) = true ↔ y < x
  exact decide_eq_true_iff

theorem getBearing_at_reference :
    getBearing realLibm { lat := 0, lon := 0 } { lat := 0, lon := 0 } = 0 := by
  have hpos : (0 : ℝ) < Real.pi := Real.pi_pos
  have ht0 : Real.tan (0 * (Real.pi / 180) / 2 + Real.pi / 4) = 1 := by
    rw [← Real.tan_pi_div_four]
    congr 1; ring
  have hn : normDeltaLon realLibm (0 * (Real.pi / 180) - 0 * (Real.pi / 180)) = 0 := by
    have e : (0 : ℝ) * (Real.pi / 180) - 0 * (Real.pi / 180) = 0 := by ring
    rw [e]
    apply normDeltaLon_small
    rw [abs_zero]
    exact hpos.le
  have harg : Complex.arg ⟨0, 0⟩ = 0 := by
    have : (⟨0, 0⟩ : ℂ) = 0 := rfl
    rw [this, Complex.arg_zero]
  have htr : truncReal ((0 * (180 / Real.pi) + 360) / 360) = 1 := by
    apply truncReal_of_nonneg _ 1 (by decide) <;> norm_num
  unfold getBearing toDegrees toRadians
  simp only [realLibm] at hn ⊢
  simp only [Rat.cast_ofNat]
  rw [ht0, hn, div_one, Real.log_one, harg, htr]
  norm_num

theorem getDistance_at_reference :
    getDistance realLibm { lat := 0, lon := 0 } { lat := 0, lon := 0 } = 0 := by
  have harg : Complex.arg ⟨1, 0⟩ = 0 := by
    have : (⟨1, 0⟩ : ℂ) = 1 := rfl
    rw [this, Complex.arg_one]
  unfold getDistance toRadians
  simp only [realLibm]
  simp [harg]

theorem heatKey_at_reference : heatKey realLibm { lat := 0, lon := 0 } = Except.ok 0 := by
  have hr : realLibm.round (realLibm.mul 0 (realLibm.lit 100)) = ((0 : Int) : ℝ) := by
    apply roundReal_of_nonneg
    · show (0 : ℝ) ≤ 0 * ((100 : ℚ) : ℝ)
      simp
    · show ((0 : Int) : ℝ) - 1 / 2 ≤ 0 * ((100 : ℚ) : ℝ)
      norm_num
    · show 0 * ((100 : ℚ) : ℝ) < ((0 : Int) : ℝ) + 1 / 2
      norm_num
  unfold heatKey
  simp only [hr, castInt_real 0 (by decide) (by decide), ok_bind]
  decide

/-- The airborne position message at the reference position, processed over the
real numbers on a fresh state: the polar range plot is unchanged, cell 0 of the
heat map and bucket 380 of the altitude plot are counted once. -/
theorem processMessage_at_reference (now now0 uninit : Int) :
    processMessage realLibm now (dataScratch now0 uninit 0 0) msgAtReference =
      Except.ok (3, { dataScratch now0 uninit (0 : ℝ) 0 with
        heatMap := [(0, 1)],
        altPlot := (List.replicate 501 (0 : Int)).set 380 1 }) := by
  have e1 : vecGet (split msgAtReference ',') 1 = Except.ok "3".toList := by decide
  have ek : stoi "3".toList = Except.ok 3 := by decide
  have e14 : vecGet (split msgAtReference ',') 14 = Except.ok "0".toList := by decide
  have e15 : vecGet (split msgAtReference ',') 15 = Except.ok "0".toList := by decide
  have e11 : vecGet (split msgAtReference ',') 11 = Except.ok "38000".toList := by decide
  have ea : stoi "38000".toList = Except.ok 38000 := by decide
  have href : (dataScratch now0 uninit (0 : ℝ) 0).ref = { lat := 0, lon := 0 } := rfl
  have hb : castInt realLibm (realLibm.round
      (getBearing realLibm { lat := 0, lon := 0 } { lat := 0, lon := 0 })) = Except.ok 0 := by
    rw [getBearing_at_reference]
    have hr : realLibm.round 0 = ((0 : Int) : ℝ) :=
      roundReal_of_nonneg 0 0 (le_refl _) (by norm_num) (by norm_num)
    rw [hr]
    exact castInt_real 0 (by decide) (by decide)
  have hv : vecGet (dataScratch now0 uninit (0 : ℝ) 0).polarRange 0 =
      Except.ok { lat := 0, lon := 0 } := by
    rw [vecGet_ok_iff]
    refine ⟨le_refl _, ?_⟩
    show (List.replicate 360 ({ lat := 0, lon := 0 } : tCoords ℝ))[(0 : Int).toNat]? = _
    rw [List.getElem?_replicate, if_pos (by decide)]
  have hpolar : polarStep realLibm (dataScratch now0 uninit 0 0) { lat := 0, lon := 0 } =
      Except.ok (dataScratch now0 uninit (0 : ℝ) 0).polarRange := by
    unfold polarStep
    rw [href, hb, ok_bind, hv, ok_bind, getDistance_at_reference]
    have hg : realLibm.gt 0 0 = false := by
      show decide ((0 : ℝ) < 0) = false
      simp
    simp only [hg, Bool.false_eq_true, if_false]
    rfl
  have hpos : updatePosition realLibm (dataScratch now0 uninit 0 0) (split msgAtReference ',') =
      Except.ok { dataScratch now0 uninit (0 : ℝ) 0 with heatMap := [(0, 1)] } := by
    unfold updatePosition
    rw [e14, ok_bind, if_pos (by decide), e15, ok_bind, if_pos (by decide), stod_0, ok_bind, ok_bind]
    unfold positionStep
    rw [hpolar, ok_bind, heatKey_at_reference, ok_bind]
    rfl
  rw [processMessage_kind realLibm now _ _ _ 3 e1 ek, if_neg (by decide), if_pos rfl, hpos, ok_bind,
    updateAltitude_eq _ _ _ 38000 e11 (by decide) ea, if_pos (by decide)]
  have hg : vecGet (List.replicate 501 (0 : Int)) (Int.tdiv 38000 100) = Except.ok 0 := by
    rw [vecGet_ok_iff]
    refine ⟨by decide, ?_⟩
    rw [List.getElem?_replicate, if_pos (by decide)]
  have hs : vecSet (List.replicate 501 (0 : Int)) (Int.tdiv 38000 100) 1 =
      Except.ok ((List.replicate 501 (0 : Int)).set 380 1) := by
    unfold vecSet
    rw [if_pos ⟨by decide, by rw [List.length_replicate]; decide⟩]
    rfl
  have hi : incrInt 0 = Except.ok 1 := by decide
  simp only [dataScratch, hg, ok_bind, hi, hs]


/-! ### Key order of the maps -/

theorem intLt_strictTotal : StrictTotal intLt where
  irrefl := by intro a; simp [intLt]
  trans := by
    intro a b c h1 h2
    simp only [intLt, decide_eq_true_eq] at *
    omega
  total := by
    intro a b hne h
    simp only [intLt, decide_eq_true_eq, decide_eq_false_iff_not] at *
    omega

theorem strLt_irrefl : ∀ a : Str, strLt a a = false := by
  intro a
  induction a with
  | nil => rfl
  | cons c cs ih => simp [strLt, ih]

theorem strLt_trans : ∀ a b c : Str, strLt a b = true → strLt b c = true → strLt a c = true := by
  intro a
  induction a with
  | nil =>
    intro b c h1 h2
    cases b with
    | nil => simp [strLt] at h1
    | cons y ys =>
      cases c with
      | nil => simp [strLt] at h2
      | cons z zs => rfl
  | cons x xs ih =>
    intro b c h1 h2
    cases b with
    | nil => simp [strLt] at h1
    | cons y ys =>
      cases c with
      | nil => simp [strLt] at h2
      | cons z zs =>
        simp only [strLt] at h1 h2 ⊢
        by_cases hxy : x.toNat < y.toNat
        · by_cases hyz : y.toNat < z.toNat
          · rw [if_pos (by omega)]
          · rw [if_neg hyz] at h2
            by_cases hzy : z.toNat < y.toNat
            · rw [if_pos hzy] at h2; cases h2
            · rw [if_pos (by omega)]
        · rw [if_neg hxy] at h1
          by_cases hyx : y.toNat < x.toNat
          · rw [if_pos hyx] at h1; cases h1
          · rw [if_neg hyx] at h1
            by_cases hyz : y.toNat < z.toNat
            · rw [if_pos (by omega)]
            · rw [if_neg hyz] at h2
              by_cases hzy : z.toNat < y.toNat
              · rw [if_pos hzy] at h2; cases h2
              · rw [if_neg hzy] at h2
                rw [if_neg (by omega), if_neg (by omega)]
                exact ih ys zs h1 h2

theorem strLt_total : ∀ a b : Str, a ≠ b → strLt a b = false → strLt b a = true := by
  intro a
  induction a with
  | nil =>
    intro b hne h
    cases b with
    | nil => exact absurd rfl hne
    | cons y ys => simp [strLt] at h
  | cons x xs ih =>
    intro b hne h
    cases b with
    | nil => rfl
    | cons y ys =>
      simp only [strLt] at h ⊢
      by_cases hxy : x.toNat < y.toNat
      · rw [if_pos hxy] at h; cases h
      · rw [if_neg hxy] at h
        by_cases hyx : y.toNat < x.toNat
        · rw [if_pos hyx]
        · rw [if_neg hyx] at h
          rw [if_neg hyx, if_neg hxy]
          have hc : x = y := by
            apply Char.ext
            apply UInt32.ext
            have : x.toNat = y.toNat := by omega
            exact this
          subst hc
          apply ih ys _ h
          intro hcon
          apply hne
          rw [hcon]

theorem strLt_strictTotal : StrictTotal strLt where
  irrefl := strLt_irrefl
  trans := strLt_trans
  total := strLt_total
theorem mem_mapSet_val {K : Type} [DecidableEq K] (lt : K → K → Bool) (k : K) (v : Int)
    (m : List (K × Int)) (kv : K × Int) (h : kv ∈ mapSet lt k v m) : kv = (k, v) ∨ kv ∈ m := by
  induction m with
  | nil =>
    simp only [mapSet, List.mem_singleton] at h
    exact Or.inl h
  | cons e rest ih =>
    obtain ⟨k1, v1⟩ := e
    unfold mapSet at h
    by_cases hk : k = k1
    · rw [if_pos hk] at h
      rcases List.mem_cons.mp h with h | h
      · exact Or.inl h
      · exact Or.inr (List.mem_cons_of_mem _ h)
    · rw [if_neg hk] at h
      by_cases hl : lt k k1 = true
      · rw [if_pos hl] at h
        rcases List.mem_cons.mp h with h | h
        · exact Or.inl h
        · exact Or.inr h
      · rw [if_neg hl] at h
        rcases List.mem_cons.mp h with h | h
        · exact Or.inr (by rw [h]; exact List.mem_cons_self _ _)
        · rcases ih h with h | h
          · exact Or.inl h
          · exact Or.inr (List.mem_cons_of_mem _ h)

/-- The assignment m[k] = v keeps the entries in key order. -/
theorem sortedKeys_mapSet {K : Type} [DecidableEq K] (lt : K → K → Bool) (hlt : StrictTotal lt)
    (k : K) (v : Int) (m : List (K × Int)) (h : sortedKeys lt m) :
    sortedKeys lt (mapSet lt k v m) := by
  induction m with
  | nil => simp [mapSet, sortedKeys]
  | cons e rest ih =>
    obtain ⟨k1, v1⟩ := e
    unfold sortedKeys at h ih ⊢
    rw [List.pairwise_cons] at h
    unfold mapSet
    by_cases hk : k = k1
    · rw [if_pos hk, List.pairwise_cons]
      subst hk
      exact ⟨h.1, h.2⟩
    · rw [if_neg hk]
      by_cases hl : lt k k1 = true
      · rw [if_pos hl, List.pairwise_cons, List.pairwise_cons]
        refine ⟨?_, h.1, h.2⟩
        intro b hb
        rcases List.mem_cons.mp hb with e | hb
        · rw [e]; exact hl
        · exact hlt.trans _ _ _ hl (h.1 b hb)
      · rw [if_neg hl, List.pairwise_cons]
        refine ⟨?_, ih h.2⟩
        intro b hb
        rcases mem_mapSet_val lt k v rest b hb with e | hb
        · rw [e]
          exact hlt.total k k1 hk (by simpa using hl)
        · exact h.1 b hb

/-- Writing the entries of a map in key order into an empty map, one after the
other, gives the same map back. -/
theorem mapSet_append_last {K : Type} [DecidableEq K] (lt : K → K → Bool) (hlt : StrictTotal lt)
    (k : K) (v : Int) (m : List (K × Int)) (h : ∀ e ∈ m, lt e.1 k = true) :
    mapSet lt k v m = m ++ [(k, v)] := by
  induction m with
  | nil => rfl
  | cons e rest ih =>
    obtain ⟨k1, v1⟩ := e
    have h1 : lt k1 k = true := h (k1, v1) (List.mem_cons_self _ _)
    have hne : k ≠ k1 := by
      intro hcon
      subst hcon
      rw [hlt.irrefl] at h1
      cases h1
    have hnl : ¬ lt k k1 = true := by
      intro hcon
      have := hlt.trans _ _ _ hcon h1
      rw [hlt.irrefl] at this
      cases this
    unfold mapSet
    rw [if_neg hne, if_neg hnl, ih (fun e he => h e (List.mem_cons_of_mem _ he))]
    rfl

theorem incrInt_ok (v w : Int) (h : incrInt v = Except.ok w) : w = v + 1 ∧ v < INT_MAX := by
  unfold incrInt at h
  by_cases hv : v < INT_MAX
  · rw [if_pos hv] at h
    simp only [Except.ok.injEq] at h
    exact ⟨h.symm, hv⟩
  · rw [if_neg hv] at h
    cases h

theorem mem_mapFind {K : Type} [DecidableEq K] (m : List (K × Int)) (k : K) (v : Int)
    (h : mapFind m k = some v) : (k, v) ∈ m := by
  induction m with
  | nil => simp [mapFind] at h
  | cons e rest ih =>
    obtain ⟨k1, v1⟩ := e
    unfold mapFind at h
    by_cases hk : k = k1
    · rw [if_pos hk] at h
      simp only [Option.some.injEq] at h
      rw [hk, h]
      exact List.mem_cons_self _ _
    · rw [if_neg hk] at h
      exact List.mem_cons_of_mem _ (ih h)

/-- What the counting statement of the two maps has done when it returns. -/
theorem mapCount_cases {K : Type} [DecidableEq K] (lt : K → K → Bool) (m m1 : List (K × Int))
    (k : K) (h : mapCount lt m k = Except.ok m1) :
    (mapFind m k = none ∧ m1 = mapSet lt k 1 m) ∨
    (∃ v, mapFind m k = some v ∧ v < INT_MAX ∧ m1 = mapSet lt k (v + 1) m) := by
  unfold mapCount at h
  cases hf : mapFind m k with
  | none =>
    simp only [hf, Except.ok.injEq] at h
    exact Or.inl ⟨rfl, h.symm⟩
  | some v =>
    simp only [hf] at h
    cases hi : incrInt v with
    | error e => simp only [hi] at h; cases h
    | ok w =>
      simp only [hi, Except.ok.injEq] at h
      obtain ⟨hw, hv⟩ := incrInt_ok v w hi
      subst hw
      exact Or.inr ⟨v, rfl, hv, h.symm⟩

/-- The counting statement keeps a map in key order with counts between 1 and
INT_MAX, and its keys inside any set that holds the key counted. -/
theorem mapCount_valid {K : Type} [DecidableEq K] (lt : K → K → Bool) (hlt : StrictTotal lt)
    (P : K → Prop) (m m1 : List (K × Int)) (k : K) (hk : P k)
    (h : mapCount lt m k = Except.ok m1) (hs : sortedKeys lt m)
    (hv : ∀ kv ∈ m, P kv.1 ∧ 1 ≤ kv.2 ∧ kv.2 ≤ INT_MAX) :
    sortedKeys lt m1 ∧ ∀ kv ∈ m1, P kv.1 ∧ 1 ≤ kv.2 ∧ kv.2 ≤ INT_MAX := by
  rcases mapCount_cases lt m m1 k h with ⟨_, e⟩ | ⟨v, hf, hlt1, e⟩
  · subst e
    refine ⟨sortedKeys_mapSet lt hlt k 1 m hs, ?_⟩
    intro kv hkv
    rcases mem_mapSet_val lt k 1 m kv hkv with e | hm
    · rw [e]; exact ⟨hk, le_refl _, (by decide : (1 : Int) ≤ INT_MAX)⟩
    · exact hv kv hm
  · subst e
    refine ⟨sortedKeys_mapSet lt hlt k (v + 1) m hs, ?_⟩
    intro kv hkv
    rcases mem_mapSet_val lt k (v + 1) m kv hkv with e | hm
    · rw [e]
      have := (hv (k, v) (mem_mapFind m k v hf)).2.1
      refine ⟨hk, ?_, ?_⟩
      · show 1 ≤ v + 1
        change 1 ≤ v at this
        omega
      · show v + 1 ≤ INT_MAX
        omega
    · exact hv kv hm
/-- A value std::stoi returns is a value of an int. -/
theorem stoi_range (str : Str) (n : Int) (h : stoi str = Except.ok n) :
    INT_MIN ≤ n ∧ n ≤ INT_MAX := by
  unfold stoi at h
  simp only at h
  by_cases hd : List.takeWhile isdigit (readSign (List.dropWhile isspace str)).2 = []
  · rw [if_pos hd] at h; cases h
  · rw [if_neg hd] at h
    by_cases hr : (if (readSign (List.dropWhile isspace str)).1 = true then
          -(decValue (List.takeWhile isdigit (readSign (List.dropWhile isspace str)).2) : Int)
        else (decValue (List.takeWhile isdigit (readSign (List.dropWhile isspace str)).2) : Int)) <
          INT_MIN ∨
        INT_MAX < (if (readSign (List.dropWhile isspace str)).1 = true then
          -(decValue (List.takeWhile isdigit (readSign (List.dropWhile isspace str)).2) : Int)
        else (decValue (List.takeWhile isdigit (readSign (List.dropWhile isspace str)).2) : Int))
    · rw [if_pos hr] at h; cases h
    · rw [if_neg hr] at h
      simp only [Except.ok.injEq] at h
      rw [← h]
      rw [not_or, not_lt, not_lt] at hr
      exact hr

theorem heatKey_range {F : Type} (M : Libm F) (mPos : tCoords F) (key : Int)
    (h : heatKey M mPos = Except.ok key) : INT_MIN ≤ key ∧ key ≤ INT_MAX := by
  unfold heatKey at h
  cases ha : castInt M (M.round (M.mul mPos.lat (M.lit 100))) with
  | error e => rw [ha, error_bind] at h; cases h
  | ok a =>
    rw [ha, ok_bind] at h
    cases hb : castInt M (M.round (M.mul mPos.lon (M.lit 100))) with
    | error e => rw [hb, error_bind] at h; cases h
    | ok b =>
      rw [hb, ok_bind] at h
      exact stoi_range _ _ h

/-- One call of processMessage keeps a state well formed. -/
theorem processMessage_valid {F : Type} (M : Libm F) (now : Int) (s s1 : data F) (message : Str)
    (r : Int) (h : processMessage M now s message = Except.ok (r, s1)) (hv : validState s) :
    validState s1 := by
  obtain ⟨hp360, ha501, halt, hhs, hhv, hcs, hcv⟩ := hv
  obtain ⟨f1, kind, _, _, hc⟩ := processMessage_cases M now s s1 message r h
  rcases hc with ⟨_, hc⟩ | ⟨_, _, sp, hp, ha⟩ | ⟨_, _, _, e⟩
  · rcases (caseId_cases now s _ r s1 hc).2 with e | ⟨hex, callsign, plot, _, _, _, hplot, e⟩
    · subst e; exact ⟨hp360, ha501, halt, hhs, hhv, hcs, hcv⟩
    · subst e
      refine ⟨hp360, ha501, halt, hhs, hhv, ?_⟩
      by_cases hair : airlineCallsign callsign = true
      · rw [if_pos hair] at hplot
        exact mapCount_valid strLt strLt_strictTotal (fun k => alphaKey k = true) _ _ _
          (alphaKey_of_airlineCallsign callsign hair) hplot hcs hcv
      · rw [if_neg hair] at hplot
        simp only [Except.ok.injEq] at hplot
        subst hplot
        exact ⟨hcs, hcv⟩
  · have hsp : validState sp := by
      rcases updatePosition_cases M s sp _ hp with ⟨e, _⟩ | ⟨_, _, lat, lon, _, _, _, _, _, _, hps⟩
      · subst e; exact ⟨hp360, ha501, halt, hhs, hhv, hcs, hcv⟩
      · obtain ⟨polar, key, heat, hpol, hkey, hheat, e⟩ := positionStep_cases M s sp _ hps
        subst e
        have hkr := heatKey_range M _ key hkey
        have hh := mapCount_valid intLt intLt_strictTotal
          (fun k => INT_MIN ≤ k ∧ k ≤ INT_MAX) _ _ _ hkr hheat hhs
          (fun kv hkv => ⟨⟨(hhv kv hkv).1, (hhv kv hkv).2.1⟩, (hhv kv hkv).2.2⟩)
        refine ⟨?_, ha501, halt, hh.1, ?_, hcs, hcv⟩
        · obtain ⟨bearing, maxPos, _, _, hcase⟩ := polarStep_cases M s _ polar hpol
          rcases hcase with ⟨_, e⟩ | ⟨_, e⟩
          · subst e; simp [hp360]
          · subst e; exact hp360
        · intro kv hkv
          have := hh.2 kv hkv
          exact ⟨this.1.1, this.1.2, this.2.1, this.2.2⟩
    obtain ⟨sp360, sa501, salt, shs, shv, scs, scv⟩ := hsp
    rcases updateAltitude_cases sp s1 _ ha with e | ⟨_, altitude, count, _, _, _, _, h0, hget, hlt, e⟩
    · subst e; exact ⟨sp360, sa501, salt, shs, shv, scs, scv⟩
    · subst e
      refine ⟨sp360, by simp [sa501], ?_, shs, shv, scs, scv⟩
      intro v hv
      rcases List.mem_or_eq_of_mem_set hv with hm | e
      · exact salt v hm
      · rw [e]
        have hc := salt count (List.getElem?_mem hget)
        constructor <;> omega
  · subst e; exact ⟨hp360, ha501, halt, hhs, hhv, hcs, hcv⟩

/-- The fresh state is well formed. -/
theorem dataScratch_valid {F : Type} (now uninit : Int) (lat lon : F) :
    validState (dataScratch now uninit lat lon) := by
  refine ⟨dataScratch_polarRange_length now uninit lat lon,
    dataScratch_altPlot_length now uninit lat lon, ?_, List.Pairwise.nil, ?_, List.Pairwise.nil, ?_⟩
  · intro v hv
    have : v = 0 := List.eq_of_mem_replicate hv
    rw [this]
    decide
  · intro kv hkv; exact absurd hkv (List.not_mem_nil kv)
  · intro kv hkv; exact absurd hkv (List.not_mem_nil kv)

/-- Every state reached by a run of processMessage from a well-formed state is well
formed. -/
theorem processAll_valid {F : Type} (M : Libm F) :
    ∀ (msgs : List (Int × Str)) (s s1 : data F), validState s →
      processAll M s msgs = Except.ok s1 → validState s1 := by
  intro msgs
  induction msgs with
  | nil =>
    intro s s1 hs h
    simp only [processAll, Except.ok.injEq] at h
    subst h; exact hs
  | cons m rest ih =>
    intro s s1 hs h
    obtain ⟨now, message⟩ := m
    unfold processAll at h
    cases hp : processMessage M now s message with
    | error e => rw [hp] at h; cases h
    | ok r =>
      rw [hp] at h
      exact ih r.2 s1 (processMessage_valid M now s r.2 message r.1 hp hs) h

/-- C18 (length and positivity invariant): after any sequence of lines processed by
processMessage from the fresh state data(lat, lon), the polar range plot has
exactly 360 entries, the altitude plot has exactly 501 entries, and every value
stored in the airlines map and in the heat map is at least 1. -/
theorem lengths_and_positive_counts {F : Type} (M : Libm F) (now0 uninit : Int) (lat lon : F)
    (msgs : List (Int × Str)) (s : data F)
    (hrun : processAll M (dataScratch now0 uninit lat lon) msgs = Except.ok s) :
    s.polarRange.length = 360 ∧ s.altPlot.length = 501 ∧
    (∀ kv ∈ s.companyPlot, 1 ≤ kv.2) ∧ (∀ kv ∈ s.heatMap, 1 ≤ kv.2) := by
  obtain ⟨h1, h2, _, _, h5, _, h7⟩ :=
    processAll_valid M msgs _ s (dataScratch_valid now0 uninit lat lon) hrun
  exact ⟨h1, h2, fun kv hkv => (h7 kv hkv).2.1, fun kv hkv => (h5 kv hkv).2.2.1⟩
/-- Witness of C18: two ID messages processed on a fresh state. -/
theorem lengths_and_positive_counts_witness :
    processAll nullLibm (dataScratch 0 0 50 16) [(1, msgStaleA), (2, msgStaleB)] =
      Except.ok { dataScratch 0 0 50 16 with
        companyPlot := [("DLH".toList, 1), ("RYR".toList, 1)],
        flightBuffer :=
          [{ hex := "AAAAAA".toList, callsign := "RYR123".toList, timestamp := 1 },
           { hex := "BBBBBB".toList, callsign := "DLH456".toList, timestamp := 2 }] } ∧
    (dataScratch 0 0 (50 : Int) 16).polarRange.length = 360 ∧
    (dataScratch 0 0 (50 : Int) 16).altPlot.length = 501 ∧
    (∀ kv ∈ [("DLH".toList, (1 : Int)), ("RYR".toList, 1)], 1 ≤ kv.2) ∧
    (∀ kv ∈ ([] : List (Int × Int)), 1 ≤ kv.2) :=
  ⟨rfl,
   lengths_and_positive_counts nullLibm 0 0 50 16 [(1, msgStaleA), (2, msgStaleB)] _ rfl⟩

/-- C13 (frame of processMessage): on every state and every line whose field 2
converts to the number kind, (a) when kind is neither 1 nor 3 the call returns 0
and the state unchanged; (b) a call on a line of kind 1 that returns, returns 1 and
leaves ref, the polar range plot, the heat map and the altitude plot (and both
times) unchanged; (c) a call on a line of kind 3 that returns, returns 3, leaves
ref, the airlines map and the flight buffer (and both times) unchanged, and
changes at most one slot of the polar range plot, one key of the heat map and one
bucket of the altitude plot. -/
theorem processMessage_frame {F : Type} (M : Libm F) (now : Int) (s : data F)
    (message f1 : Str) (kind : Int)
    (h1 : vecGet (split message ',') 1 = Except.ok f1) (hk : stoi f1 = Except.ok kind) :
    (kind ≠ 1 → kind ≠ 3 → processMessage M now s message = Except.ok (0, s)) ∧
    (kind = 1 → ∀ r s1, processMessage M now s message = Except.ok (r, s1) →
      r = 1 ∧ s1.ref = s.ref ∧ s1.polarRange = s.polarRange ∧ s1.heatMap = s.heatMap ∧
      s1.altPlot = s.altPlot ∧ s1.timestamp = s.timestamp ∧ s1.uptime = s.uptime) ∧
    (kind = 3 → ∀ r s1, processMessage M now s message = Except.ok (r, s1) →
      r = 3 ∧ s1.ref = s.ref ∧ s1.companyPlot = s.companyPlot ∧
      s1.flightBuffer = s.flightBuffer ∧ s1.timestamp = s.timestamp ∧ s1.uptime = s.uptime ∧
      s1.polarRange.length = s.polarRange.length ∧
      (∃ i : Nat, ∀ j, j ≠ i → s1.polarRange[j]? = s.polarRange[j]?) ∧
      (∃ key : Int, ∀ k, k ≠ key → mapFind s1.heatMap k = mapFind s.heatMap k) ∧
      s1.altPlot.length = s.altPlot.length ∧
      (∃ i : Nat, ∀ j, j ≠ i → s1.altPlot[j]? = s.altPlot[j]?)) := by
  refine ⟨?_, ?_, ?_⟩
  · intro k1 k3
    rw [processMessage_kind M now s message f1 kind h1 hk, if_neg k1, if_neg k3]
  · intro k1 r s1 h
    rw [processMessage_kind M now s message f1 kind h1 hk, if_pos k1] at h
    obtain ⟨hr, hc⟩ := caseId_cases now s _ r s1 h
    rcases hc with e | ⟨_, _, _, _, _, _, _, e⟩
    · subst e; exact ⟨hr, rfl, rfl, rfl, rfl, rfl, rfl⟩
    · subst e; exact ⟨hr, rfl, rfl, rfl, rfl, rfl, rfl⟩
  · intro k3 r s1 h
    have k1 : kind ≠ 1 := by rw [k3]; decide
    rw [processMessage_kind M now s message f1 kind h1 hk, if_neg k1, if_pos k3] at h
    cases hp : updatePosition M s (split message ',') with
    | error e => rw [hp, error_bind] at h; cases h
    | ok sp =>
      rw [hp, ok_bind] at h
      cases ha : updateAltitude sp (split message ',') with
      | error e => rw [ha, error_bind] at h; cases h
      | ok s2 =>
        rw [ha, ok_bind] at h
        simp only [Except.ok.injEq, Prod.mk.injEq] at h
        obtain ⟨hr, e⟩ := h
        subst e
        have hpos : sp.ref = s.ref ∧ sp.companyPlot = s.companyPlot ∧
            sp.flightBuffer = s.flightBuffer ∧ sp.timestamp = s.timestamp ∧
            sp.uptime = s.uptime ∧ sp.altPlot = s.altPlot ∧
            sp.polarRange.length = s.polarRange.length ∧
            (∃ i : Nat, ∀ j, j ≠ i → sp.polarRange[j]? = s.polarRange[j]?) ∧
            (∃ key : Int, ∀ k, k ≠ key → mapFind sp.heatMap k = mapFind s.heatMap k) := by
          rcases updatePosition_cases M s sp _ hp with ⟨e, _⟩ | ⟨_, _, lat, lon, _, _, _, _, _, _, hps⟩
          · subst e
            exact ⟨rfl, rfl, rfl, rfl, rfl, rfl, rfl, ⟨0, fun _ _ => rfl⟩, ⟨0, fun _ _ => rfl⟩⟩
          · obtain ⟨polar, key, heat, hpol, _, hheat, e⟩ := positionStep_cases M s sp _ hps
            subst e
            refine ⟨rfl, rfl, rfl, rfl, rfl, rfl, ?_, ?_, ?_⟩
            · obtain ⟨bearing, maxPos, _, _, hcase⟩ := polarStep_cases M s _ polar hpol
              rcases hcase with ⟨_, e⟩ | ⟨_, e⟩
              · subst e; simp
              · subst e; rfl
            · obtain ⟨bearing, maxPos, _, _, hcase⟩ := polarStep_cases M s _ polar hpol
              rcases hcase with ⟨_, e⟩ | ⟨_, e⟩
              · subst e
                exact ⟨bearing.toNat, fun j hj => List.getElem?_set_ne (Ne.symm hj)⟩
              · subst e; exact ⟨0, fun _ _ => rfl⟩
            · refine ⟨key, ?_⟩
              intro k hkne
              rcases mapCount_cases intLt _ _ _ hheat with ⟨_, e⟩ | ⟨v, _, _, e⟩
              · subst e; exact mapFind_mapSet_ne _ _ _ _ _ hkne
              · subst e; exact mapFind_mapSet_ne _ _ _ _ _ hkne
        obtain ⟨p1, p2, p3, p4, p5, p6, p7, p8, p9⟩ := hpos
        rcases updateAltitude_cases sp s2 _ ha with e | ⟨_, altitude, count, _, _, _, _, _, _, _, e⟩
        · subst e
          exact ⟨hr.symm, p1, p2, p3, p4, p5, p7, p8, p9, by rw [p6], ⟨0, fun _ _ => by rw [p6]⟩⟩
        · subst e
          refine ⟨hr.symm, p1, p2, p3, p4, p5, p7, p8, p9, by simp [p6], ?_⟩
          refine ⟨(Int.tdiv altitude 100).toNat, ?_⟩
          intro j hj
          simp only
          rw [List.getElem?_set_ne (Ne.symm hj), p6]

/-- Witness of C13: a line of type 8, the ID message of RYR123 and the altitude
message of 38000 ft, each on a fresh state. -/
theorem processMessage_frame_witness :
    processMessage nullLibm 0 (dataScratch 0 0 50 16) "MSG,8,1,1,ABCDEF,1".toList =
      Except.ok (0, dataScratch 0 0 50 16) ∧
    processMessage nullLibm 7 (dataScratch 0 0 50 16) msgScenario2Id =
      Except.ok (1, { dataScratch 0 0 50 16 with
        companyPlot := [("RYR".toList, 1)],
        flightBuffer :=
          [{ hex := "ABCDEF".toList, callsign := "RYR123".toList, timestamp := 7 }] }) ∧
    (dataScratch 0 0 (50 : Int) 16).altPlot.length = 501 := by
  have h8 := (processMessage_frame nullLibm 0 (dataScratch 0 0 50 16) "MSG,8,1,1,ABCDEF,1".toList
    "8".toList 8 (by decide) (by decide)).1 (by decide) (by decide)
  have hid : processMessage nullLibm 7 (dataScratch 0 0 50 16) msgScenario2Id =
      Except.ok (1, { dataScratch 0 0 50 16 with
        companyPlot := [("RYR".toList, 1)],
        flightBuffer :=
          [{ hex := "ABCDEF".toList, callsign := "RYR123".toList, timestamp := 7 }] }) := rfl
  have h1 := (processMessage_frame nullLibm 7 (dataScratch 0 0 50 16) msgScenario2Id
    "1".toList 1 (by decide) (by decide)).2.1 rfl _ _ hid
  exact ⟨h8, hid, by rw [h1.2.2.2.2.1]; exact dataScratch_altPlot_length 0 0 50 16⟩
/-! ### The flush condition -/

theorem tdiv60_eq (a : Int) : Int.tdiv a 60 = if 0 ≤ a then a / 60 else -((-a) / 60) := by
  by_cases h : 0 ≤ a
  · rw [if_pos h, Int.tdiv_eq_ediv h (by decide)]
  · rw [if_neg h]
    have : a = -(-a) := by omega
    rw [this, Int.neg_tdiv, Int.tdiv_eq_ediv (by omega) (by decide)]
    simp

theorem tdiv60_mono (a b : Int) (h : a ≤ b) : Int.tdiv a 60 ≤ Int.tdiv b 60 := by
  rw [tdiv60_eq, tdiv60_eq]
  split <;> split <;> omega

theorem toInt32_of_range (x : Int) (h1 : INT_MIN ≤ x) (h2 : x ≤ INT_MAX) : toInt32 x = x := by
  unfold toInt32
  unfold INT_MIN at h1
  unfold INT_MAX at h2
  omega

/-- After a value of lastDiskOp that no later minute goes below, every flush
happens in a minute strictly after it. -/
theorem flushTimes_after (uptime : Int) :
    ∀ (times : List Int) (lastDiskOp : Int),
      times.Pairwise (fun a b => a ≤ b) →
      (∀ t ∈ times, INT_MIN ≤ Int.tdiv t 60 ∧ Int.tdiv t 60 ≤ INT_MAX) →
      (∀ t ∈ times, lastDiskOp ≤ Int.tdiv t 60) →
      ∀ t ∈ flushTimes uptime lastDiskOp times, t ∈ times ∧ lastDiskOp < Int.tdiv t 60 := by
  intro times
  induction times with
  | nil => intro l _ _ _ t ht; simp [flushTimes] at ht
  | cons now rest ih =>
    intro l hs hr hl t ht
    rw [List.pairwise_cons] at hs
    have hrest : ∀ t ∈ rest, INT_MIN ≤ Int.tdiv t 60 ∧ Int.tdiv t 60 ≤ INT_MAX :=
      fun t ht => hr t (List.mem_cons_of_mem _ ht)
    unfold flushTimes at ht
    by_cases hd : flushDue uptime l now = true
    · have htick : tick uptime l now = (true, Int.tdiv now 60) := by
        unfold tick
        rw [if_pos hd, toInt32_of_range _ (hr now (List.mem_cons_self _ _)).1
          (hr now (List.mem_cons_self _ _)).2]
      rw [htick] at ht
      simp only [if_true] at ht
      have hne : Int.tdiv now 60 ≠ l := by
        unfold flushDue at hd
        simp only [Bool.and_eq_true, decide_eq_true_eq] at hd
        exact hd.2
      have hlt : l < Int.tdiv now 60 := by
        have := hl now (List.mem_cons_self _ _)
        omega
      rcases List.mem_cons.mp ht with e | ht
      · rw [e]; exact ⟨List.mem_cons_self _ _, hlt⟩
      · have := ih (Int.tdiv now 60) hs.2 hrest
          (fun t ht => tdiv60_mono _ _ (hs.1 t ht)) t ht
        exact ⟨List.mem_cons_of_mem _ this.1, by omega⟩
    · have htick : tick uptime l now = (false, l) := by
        unfold tick
        rw [if_neg hd]
      rw [htick] at ht
      simp only [Bool.false_eq_true, if_false] at ht
      have := ih l hs.2 hrest (fun t ht => hl t (List.mem_cons_of_mem _ ht)) t ht
      exact ⟨List.mem_cons_of_mem _ this.1, this.2⟩

/-- The minutes of the flushes of a run of the loop are strictly increasing. -/
theorem flushTimes_increasing (uptime : Int) :
    ∀ (times : List Int) (lastDiskOp : Int),
      times.Pairwise (fun a b => a ≤ b) →
      (∀ t ∈ times, INT_MIN ≤ Int.tdiv t 60 ∧ Int.tdiv t 60 ≤ INT_MAX) →
      (flushTimes uptime lastDiskOp times).Pairwise
        (fun a b => Int.tdiv a 60 < Int.tdiv b 60) := by
  intro times
  induction times with
  | nil => intro l _ _; simp [flushTimes]
  | cons now rest ih =>
    intro l hs hr
    rw [List.pairwise_cons] at hs
    have hrest : ∀ t ∈ rest, INT_MIN ≤ Int.tdiv t 60 ∧ Int.tdiv t 60 ≤ INT_MAX :=
      fun t ht => hr t (List.mem_cons_of_mem _ ht)
    unfold flushTimes
    by_cases hd : flushDue uptime l now = true
    · have htick : tick uptime l now = (true, Int.tdiv now 60) := by
        unfold tick
        rw [if_pos hd, toInt32_of_range _ (hr now (List.mem_cons_self _ _)).1
          (hr now (List.mem_cons_self _ _)).2]
      rw [htick]
      simp only [if_true]
      rw [List.pairwise_cons]
      refine ⟨?_, ih _ hs.2 hrest⟩
      intro t ht
      exact (flushTimes_after uptime rest (Int.tdiv now 60) hs.2 hrest
        (fun t ht => tdiv60_mono _ _ (hs.1 t ht)) t ht).2
    · have htick : tick uptime l now = (false, l) := by
        unfold tick
        rw [if_neg hd]
      rw [htick]
      simp only [Bool.false_eq_true, if_false]
      exact ih l hs.2 hrest

/-- C17 (at most one flush per wall-clock minute): for every start time uptime,
every initial value of lastDiskOp and every non-decreasing sequence of times at
which the loop reaches its flush condition (minutes being values of an int), the
flushes happen in strictly increasing minutes now / 60: no two flushes share a
minute, and two passes in the same second never both flush. -/
theorem one_flush_per_minute (uptime lastDiskOp : Int) (times : List Int)
    (hsorted : times.Pairwise (fun a b => a ≤ b))
    (hrange : ∀ t ∈ times, INT_MIN ≤ Int.tdiv t 60 ∧ Int.tdiv t 60 ≤ INT_MAX) :
    (flushTimes uptime lastDiskOp times).Pairwise
      (fun a b => Int.tdiv a 60 < Int.tdiv b 60) ∧
    ((flushTimes uptime lastDiskOp times).map (fun t => Int.tdiv t 60)).Nodup ∧
    ∀ now, now ∈ times → (tick uptime (tick uptime lastDiskOp now).2 now).1 = false := by
  have hinc := flushTimes_increasing uptime times lastDiskOp hsorted hrange
  refine ⟨hinc, ?_, ?_⟩
  · rw [List.Nodup, List.pairwise_map]
    exact hinc.imp (fun h => ne_of_lt h)
  · intro now hnow
    have hr := hrange now hnow
    unfold tick
    by_cases hd : flushDue uptime lastDiskOp now = true
    · rw [if_pos hd, toInt32_of_range _ hr.1 hr.2]
      simp only
      have : flushDue uptime (Int.tdiv now 60) now = false := by
        unfold flushDue
        simp
      rw [this]
      simp
    · rw [if_neg hd]
      simp only
      rw [if_neg hd]

/-- Witness of C17: the loop started at 1000 passes its condition at 1060 twice,
at 1061, at 1119 and at 1120; it flushes at 1060 and at 1120 only. -/
theorem one_flush_per_minute_witness :
    flushTimes 1000 0 [1060, 1060, 1061, 1119, 1120] = [1060, 1120] ∧
    (flushTimes 1000 0 [1060, 1060, 1061, 1119, 1120]).Pairwise
      (fun a b => Int.tdiv a 60 < Int.tdiv b 60) ∧
    ((flushTimes 1000 0 [1060, 1060, 1061, 1119, 1120]).map (fun t => Int.tdiv t 60)).Nodup ∧
    ∀ now, now ∈ [(1060 : Int), 1060, 1061, 1119, 1120] →
      (tick 1000 (tick 1000 0 now).2 now).1 = false :=
  ⟨by decide,
   one_flush_per_minute 1000 0 [1060, 1060, 1061, 1119, 1120] (by decide) (by decide)⟩
/-! ### The longitude difference of getBearing, over the real numbers -/

/-- C19, at the longitudes 170 and -170: over the real numbers, the longitude
difference of getBearing from longitude 170 to longitude -170 is -17π/9, below -π;
the correction of getBearing replaces it by 2π - (-17π/9) = 35π/9, which is not in
(-π, π] (the difference reduced by a turn is π/9). -/
theorem normDeltaLon_westward_across_antimeridian :
    realLibm.sub (toRadians realLibm (-170)) (toRadians realLibm 170) = -(17 * Real.pi / 9) ∧
    normDeltaLon realLibm (realLibm.sub (toRadians realLibm (-170)) (toRadians realLibm 170)) =
      35 * Real.pi / 9 ∧
    ¬ (normDeltaLon realLibm (realLibm.sub (toRadians realLibm (-170)) (toRadians realLibm 170)) ≤
      Real.pi) := by
  have hpos : (0 : ℝ) < Real.pi := Real.pi_pos
  have hd : realLibm.sub (toRadians realLibm (-170)) (toRadians realLibm 170) =
      -(17 * Real.pi / 9) := by
    unfold toRadians
    simp only [realLibm, Rat.cast_ofNat]
    ring
  have hn : normDeltaLon realLibm (-(17 * Real.pi / 9)) = 35 * Real.pi / 9 := by
    unfold normDeltaLon
    have h1 : realLibm.gt (realLibm.abs (-(17 * Real.pi / 9))) realLibm.pi = true := by
      rw [realLibm_gt]
      have h3 : (3 : ℝ) < Real.pi := Real.pi_gt_three
      have h315 : Real.pi < 3.15 := Real.pi_lt_d2
      have ht : truncReal (-(17 * Real.pi / 9)) = -5 := by
        unfold truncReal
        rw [if_neg (by linarith), Int.ceil_eq_iff]
        push_cast
        constructor <;> linarith
      show Real.pi < (((|truncReal (-(17 * Real.pi / 9))| : Int)) : ℝ)
      rw [ht]
      norm_num
      linarith
    have h2 : realLibm.gt (-(17 * Real.pi / 9)) (realLibm.lit 0) = false := by
      show decide (((0 : ℚ) : ℝ) < -(17 * Real.pi / 9)) = false
      rw [decide_eq_false_iff_not]
      simp only [Rat.cast_zero, not_lt]
      linarith
    rw [h1, h2]
    simp only [if_true, Bool.false_eq_true, if_false]
    show ((2 : ℚ) : ℝ) * Real.pi - -(17 * Real.pi / 9) = 35 * Real.pi / 9
    simp only [Rat.cast_ofNat]
    ring
  rw [hd, hn]
  refine ⟨rfl, rfl, ?_⟩
  rw [not_le]
  linarith
/-! ### The haversine distance, over the real numbers -/

/-- The function getDistance over the real numbers, in the usual notation. -/
theorem getDistance_real (R P : tCoords ℝ) :
    getDistance realLibm R P =
      (6378137 / 1000 : ℝ) * (2 * Complex.arg
        ⟨Real.sqrt (1 - (Real.sin ((R.lat * (Real.pi / 180) - P.lat * (Real.pi / 180)) / 2) ^ 2 +
            Real.cos (R.lat * (Real.pi / 180)) * Real.cos (P.lat * (Real.pi / 180)) *
              Real.sin ((R.lon * (Real.pi / 180) - P.lon * (Real.pi / 180)) / 2) ^ 2)),
         Real.sqrt (Real.sin ((R.lat * (Real.pi / 180) - P.lat * (Real.pi / 180)) / 2) ^ 2 +
            Real.cos (R.lat * (Real.pi / 180)) * Real.cos (P.lat * (Real.pi / 180)) *
              Real.sin ((R.lon * (Real.pi / 180) - P.lon * (Real.pi / 180)) / 2) ^ 2)⟩) := by
  unfold getDistance toRadians EARTH_RADIUS
  simp only [realLibm, Rat.cast_ofNat, Rat.cast_one, Real.rpow_two]
  norm_num

/-- Over the real numbers getDistance is zero exactly when the haversine term is
not positive. -/
theorem getDistance_real_eq_zero (R P : tCoords ℝ) :
    getDistance realLibm R P = 0 ↔
      Real.sin ((R.lat * (Real.pi / 180) - P.lat * (Real.pi / 180)) / 2) ^ 2 +
        Real.cos (R.lat * (Real.pi / 180)) * Real.cos (P.lat * (Real.pi / 180)) *
          Real.sin ((R.lon * (Real.pi / 180) - P.lon * (Real.pi / 180)) / 2) ^ 2 ≤ 0 := by
  rw [getDistance_real]
  constructor
  · intro h
    have h2 : Complex.arg
        ⟨Real.sqrt (1 - (Real.sin ((R.lat * (Real.pi / 180) - P.lat * (Real.pi / 180)) / 2) ^ 2 +
            Real.cos (R.lat * (Real.pi / 180)) * Real.cos (P.lat * (Real.pi / 180)) *
              Real.sin ((R.lon * (Real.pi / 180) - P.lon * (Real.pi / 180)) / 2) ^ 2)),
         Real.sqrt (Real.sin ((R.lat * (Real.pi / 180) - P.lat * (Real.pi / 180)) / 2) ^ 2 +
            Real.cos (R.lat * (Real.pi / 180)) * Real.cos (P.lat * (Real.pi / 180)) *
              Real.sin ((R.lon * (Real.pi / 180) - P.lon * (Real.pi / 180)) / 2) ^ 2)⟩ = 0 := by
      rcases mul_eq_zero.mp h with h | h
      · norm_num at h
      · rcases mul_eq_zero.mp h with h | h
        · norm_num at h
        · exact h
    rw [Complex.arg_eq_zero_iff] at h2
    exact Real.sqrt_eq_zero'.mp h2.2
  · intro h
    have h2 : Complex.arg
        ⟨Real.sqrt (1 - (Real.sin ((R.lat * (Real.pi / 180) - P.lat * (Real.pi / 180)) / 2) ^ 2 +
            Real.cos (R.lat * (Real.pi / 180)) * Real.cos (P.lat * (Real.pi / 180)) *
              Real.sin ((R.lon * (Real.pi / 180) - P.lon * (Real.pi / 180)) / 2) ^ 2)),
         Real.sqrt (Real.sin ((R.lat * (Real.pi / 180) - P.lat * (Real.pi / 180)) / 2) ^ 2 +
            Real.cos (R.lat * (Real.pi / 180)) * Real.cos (P.lat * (Real.pi / 180)) *
              Real.sin ((R.lon * (Real.pi / 180) - P.lon * (Real.pi / 180)) / 2) ^ 2)⟩ = 0 := by
      rw [Complex.arg_eq_zero_iff]
      exact ⟨Real.sqrt_nonneg _, Real.sqrt_eq_zero'.mpr h⟩
    rw [h2]
    ring

/-! ### The position step over the real numbers -/

/-- Over the real numbers, when the corrected longitude difference is not negative
the bearing lies in [0, 180]. -/
theorem getBearing_real_east (a b : tCoords ℝ)
    (h : 0 ≤ normDeltaLon realLibm
      (realLibm.sub (toRadians realLibm b.lon) (toRadians realLibm a.lon))) :
    0 ≤ getBearing realLibm a b ∧ getBearing realLibm a b ≤ 180 := by
  have hpos : (0 : ℝ) < Real.pi := Real.pi_pos
  unfold getBearing
  simp only
  generalize normDeltaLon realLibm
    (realLibm.sub (toRadians realLibm b.lon) (toRadians realLibm a.lon)) = d at h
  generalize realLibm.log (realLibm.div
    (realLibm.tan (realLibm.add (realLibm.div (toRadians realLibm b.lat) (realLibm.lit 2))
      (realLibm.div realLibm.pi (realLibm.lit 4))))
    (realLibm.tan (realLibm.add (realLibm.div (toRadians realLibm a.lat) (realLibm.lit 2))
      (realLibm.div realLibm.pi (realLibm.lit 4))))) = L
  show 0 ≤ (Complex.arg ⟨L, d⟩ * (((180 : ℚ) : ℝ) / Real.pi) + ((360 : ℚ) : ℝ)) -
      ((360 : ℚ) : ℝ) * (truncReal ((Complex.arg ⟨L, d⟩ * (((180 : ℚ) : ℝ) / Real.pi) +
        ((360 : ℚ) : ℝ)) / ((360 : ℚ) : ℝ)) : ℝ) ∧
    (Complex.arg ⟨L, d⟩ * (((180 : ℚ) : ℝ) / Real.pi) + ((360 : ℚ) : ℝ)) -
      ((360 : ℚ) : ℝ) * (truncReal ((Complex.arg ⟨L, d⟩ * (((180 : ℚ) : ℝ) / Real.pi) +
        ((360 : ℚ) : ℝ)) / ((360 : ℚ) : ℝ)) : ℝ) ≤ 180
  simp only [Rat.cast_ofNat]
  have h0 : 0 ≤ Complex.arg ⟨L, d⟩ := Complex.arg_nonneg_iff.mpr h
  have h1 : Complex.arg ⟨L, d⟩ ≤ Real.pi := Complex.arg_le_pi _
  have hx0 : 0 ≤ Complex.arg ⟨L, d⟩ * (180 / Real.pi) :=
    mul_nonneg h0 (by positivity)
  have hx1 : Complex.arg ⟨L, d⟩ * (180 / Real.pi) ≤ 180 := by
    rw [← mul_div_assoc, div_le_iff₀ hpos]
    nlinarith
  have ht : truncReal ((Complex.arg ⟨L, d⟩ * (180 / Real.pi) + 360) / 360) = 1 := by
    apply truncReal_of_nonneg _ 1 (by decide)
    · rw [Int.cast_one, le_div_iff₀ (by norm_num)]
      linarith
    · rw [Int.cast_one, div_lt_iff₀ (by norm_num)]
      linarith
  rw [ht, Int.cast_one]
  constructor <;> linarith

/-- Over the real numbers, the update of the polar range plot returns when the plot
has its 360 slots and the bearing lies in [0, 359.5). -/
theorem polarStep_real_ok (s : data ℝ) (p : tCoords ℝ) (hlen : s.polarRange.length = 360)
    (h0 : 0 ≤ getBearing realLibm s.ref p) (h1 : getBearing realLibm s.ref p < 359.5) :
    ∃ polar, polarStep realLibm s p = Except.ok polar := by
  have hfl := Int.floor_le (getBearing realLibm s.ref p + 1 / 2)
  have hfl2 := Int.lt_floor_add_one (getBearing realLibm s.ref p + 1 / 2)
  have hn0 : 0 ≤ ⌊getBearing realLibm s.ref p + 1 / 2⌋ := Int.floor_nonneg.mpr (by linarith)
  have hn1 : ⌊getBearing realLibm s.ref p + 1 / 2⌋ < 360 := by
    rw [Int.floor_lt]
    push_cast
    linarith
  have hround : realLibm.round (getBearing realLibm s.ref p) =
      ((⌊getBearing realLibm s.ref p + 1 / 2⌋ : Int) : ℝ) :=
    roundReal_of_nonneg _ _ h0 (by linarith) (by linarith)
  have hcast : castInt realLibm (realLibm.round (getBearing realLibm s.ref p)) =
      Except.ok ⌊getBearing realLibm s.ref p + 1 / 2⌋ := by
    rw [hround]
    apply castInt_real
    · unfold INT_MIN; omega
    · unfold INT_MAX; omega
  have hidx : (⌊getBearing realLibm s.ref p + 1 / 2⌋).toNat < s.polarRange.length := by
    rw [hlen]; omega
  have hget : vecGet s.polarRange ⌊getBearing realLibm s.ref p + 1 / 2⌋ =
      Except.ok (s.polarRange.get ⟨_, hidx⟩) := by
    rw [vecGet_ok_iff]
    exact ⟨hn0, List.getElem?_eq_getElem hidx⟩
  unfold polarStep
  rw [hcast, ok_bind, hget, ok_bind]
  simp only
  split
  · refine ⟨s.polarRange.set (⌊getBearing realLibm s.ref p + 1 / 2⌋).toNat p, ?_⟩
    unfold vecSet
    rw [if_pos ⟨hn0, hidx⟩]
  · exact ⟨s.polarRange, rfl⟩
/-- The first statement of case 3 in closed form, on a message whose position
fields are present, non-empty and convert. -/
theorem updatePosition_eq {F : Type} (M : Libm F) (s : data F) (fields : List Str)
    (f14 f15 : Str) (lat lon : F)
    (h14 : vecGet fields 14 = Except.ok f14) (n14 : f14 ≠ [])
    (h15 : vecGet fields 15 = Except.ok f15) (n15 : f15 ≠ [])
    (hlat : M.stod f14 = Except.ok lat) (hlon : M.stod f15 = Except.ok lon) :
    updatePosition M s fields = positionStep M s { lat := lat, lon := lon } := by
  unfold updatePosition
  rw [h14, ok_bind, if_pos n14, h15, ok_bind, if_pos n15, hlat, ok_bind, hlon, ok_bind]

theorem stod_5010 : realLibm.stod "50.10".toList = Except.ok (501 / 10) := by
  have h : stodParts "50.10".toList = Except.ok (false, 5010, -2) := by decide
  simp only [realLibm, h, decimalValue]
  norm_num

theorem stod_1610 : realLibm.stod "16.10".toList = Except.ok (161 / 10) := by
  have h : stodParts "16.10".toList = Except.ok (false, 1610, -2) := by decide
  simp only [realLibm, h, decimalValue]
  norm_num

/-- Over the real numbers, the rounding to int of a product that is a whole number
of an int that is not negative. -/
theorem castInt_round_mul100 (x : ℝ) (n : Int) (hx : x * 100 = (n : ℝ)) (h0 : 0 ≤ n)
    (h1 : n ≤ INT_MAX) :
    castInt realLibm (realLibm.round (realLibm.mul x (realLibm.lit 100))) = Except.ok n := by
  have hm : realLibm.mul x (realLibm.lit 100) = (n : ℝ) := by
    show x * ((100 : ℚ) : ℝ) = (n : ℝ)
    rw [← hx]
    norm_num
  rw [hm, roundReal_of_nonneg (n : ℝ) n (by exact_mod_cast h0) (by linarith) (by linarith)]
  exact castInt_real n (by unfold INT_MIN; omega) h1

/-- The line of scenario 1 processed over the real numbers on the fresh state of
reference position (50, 16). -/
theorem processMessage_scenario1 (now now0 uninit : Int) :
    ∃ polar : List (tCoords ℝ),
      processMessage realLibm now (dataScratch now0 uninit 50 16) msgScenario1 =
        Except.ok (3, { dataScratch now0 uninit (50 : ℝ) 16 with
          polarRange := polar,
          heatMap := [(50101610, 1)],
          altPlot := (List.replicate 501 (0 : Int)).set 380 1 }) := by
  have hpos : (0 : ℝ) < Real.pi := Real.pi_pos
  have e1 : vecGet (split msgScenario1 ',') 1 = Except.ok "3".toList := by decide
  have ek : stoi "3".toList = Except.ok 3 := by decide
  have e14 : vecGet (split msgScenario1 ',') 14 = Except.ok "50.10".toList := by decide
  have e15 : vecGet (split msgScenario1 ',') 15 = Except.ok "16.10".toList := by decide
  have e11 : vecGet (split msgScenario1 ',') 11 = Except.ok "38000".toList := by decide
  have ea : stoi "38000".toList = Except.ok 38000 := by decide
  have hd : realLibm.sub (toRadians realLibm (161 / 10)) (toRadians realLibm 16) =
      Real.pi / 1800 := by
    unfold toRadians
    simp only [realLibm, Rat.cast_ofNat]
    ring
  have hn : normDeltaLon realLibm (Real.pi / 1800) = Real.pi / 1800 := by
    apply normDeltaLon_small
    rw [abs_of_pos (by positivity)]
    linarith
  have hb := getBearing_real_east { lat := 50, lon := 16 } { lat := 501 / 10, lon := 161 / 10 }
    (by rw [hd, hn]; positivity)
  obtain ⟨polar, hpolar⟩ := polarStep_real_ok (dataScratch now0 uninit 50 16)
    { lat := 501 / 10, lon := 161 / 10 } (dataScratch_polarRange_length now0 uninit 50 16)
    hb.1 (by have := hb.2; show getBearing realLibm { lat := 50, lon := 16 } _ < 359.5; linarith)
  have hkey : heatKey realLibm { lat := 501 / 10, lon := 161 / 10 } = Except.ok 50101610 := by
    unfold heatKey
    rw [castInt_round_mul100 (501 / 10) 5010 (by norm_num) (by decide) (by decide), ok_bind,
      castInt_round_mul100 (161 / 10) 1610 (by norm_num) (by decide) (by decide), ok_bind]
    decide
  have hposn : updatePosition realLibm (dataScratch now0 uninit 50 16) (split msgScenario1 ',') =
      Except.ok { dataScratch now0 uninit (50 : ℝ) 16 with
        polarRange := polar, heatMap := [(50101610, 1)] } := by
    rw [updatePosition_eq realLibm _ _ _ _ _ _ e14 (by decide) e15 (by decide) stod_5010 stod_1610]
    unfold positionStep
    rw [hpolar, ok_bind, hkey, ok_bind]
    rfl
  refine ⟨polar, ?_⟩
  rw [processMessage_kind realLibm now _ _ _ 3 e1 ek, if_neg (by decide), if_pos rfl, hposn, ok_bind,
    updateAltitude_eq _ _ _ 38000 e11 (by decide) ea, if_pos (by decide)]
  have hg : vecGet (List.replicate 501 (0 : Int)) (Int.tdiv 38000 100) = Except.ok 0 := by
    rw [vecGet_ok_iff]
    refine ⟨by decide, ?_⟩
    rw [List.getElem?_replicate, if_pos (by decide)]
  have hs : vecSet (List.replicate 501 (0 : Int)) (Int.tdiv 38000 100) 1 =
      Except.ok ((List.replicate 501 (0 : Int)).set 380 1) := by
    unfold vecSet
    rw [if_pos ⟨by decide, by rw [List.length_replicate]; decide⟩]
    rfl
  have hi : incrInt 0 = Except.ok 1 := by decide
  simp only [dataScratch, hg, ok_bind, hi, hs]

/-- Over the real numbers, a position at the reference position (0, 0) leaves the
fresh polar range plot as it is. -/
theorem polarStep_at_reference (now0 uninit : Int) :
    polarStep realLibm (dataScratch now0 uninit 0 0) { lat := 0, lon := 0 } =
      Except.ok (dataScratch now0 uninit (0 : ℝ) 0).polarRange := by
  have href : (dataScratch now0 uninit (0 : ℝ) 0).ref = { lat := 0, lon := 0 } := rfl
  have hb : castInt realLibm (realLibm.round
      (getBearing realLibm { lat := 0, lon := 0 } { lat := 0, lon := 0 })) = Except.ok 0 := by
    rw [getBearing_at_reference]
    have hr : realLibm.round 0 = ((0 : Int) : ℝ) :=
      roundReal_of_nonneg 0 0 (le_refl _) (by norm_num) (by norm_num)
    rw [hr]
    exact castInt_real 0 (by decide) (by decide)
  have hv : vecGet (dataScratch now0 uninit (0 : ℝ) 0).polarRange 0 =
      Except.ok { lat := 0, lon := 0 } := by
    rw [vecGet_ok_iff]
    refine ⟨le_refl _, ?_⟩
    show (List.replicate 360 ({ lat := 0, lon := 0 } : tCoords ℝ))[(0 : Int).toNat]? = _
    rw [List.getElem?_replicate, if_pos (by decide)]
  unfold polarStep
  rw [href, hb, ok_bind, hv, ok_bind, getDistance_at_reference]
  have hg : realLibm.gt 0 0 = false := by
    show decide ((0 : ℝ) < 0) = false
    simp
  simp only [hg, Bool.false_eq_true, if_false]
  rfl

/-- C12 (heat map key and increment).  For every arithmetic, state and airborne
position message whose latitude and longitude fields are non-empty and convert:
when the polar range plot is updated without fault, the products by 100 round to
the int values latInt and lonInt, std::stoi reads key from the decimal text of
latInt immediately followed by the decimal text of lonInt, the count of key is
below INT_MAX and the altitude part returns, then processMessage returns 3 and a
state in which the heat map holds for key its former count plus one (1 when key
was absent) and for every other key what it held before.  And over the real
numbers, on the fresh state of reference position (50, 16), the line of scenario 1
returns 3 and leaves the heat map with the single entry 50101610 -> 1. -/
theorem heatmap_key_and_increment {F : Type} (M : Libm F) (now : Int) (s s2 : data F)
    (message f1 f14 f15 : Str) (lat lon : F) (polar : List (tCoords F))
    (latInt lonInt key : Int)
    (h1 : vecGet (split message ',') 1 = Except.ok f1) (hk : stoi f1 = Except.ok 3)
    (h14 : vecGet (split message ',') 14 = Except.ok f14) (n14 : f14 ≠ [])
    (h15 : vecGet (split message ',') 15 = Except.ok f15) (n15 : f15 ≠ [])
    (hlat : M.stod f14 = Except.ok lat) (hlon : M.stod f15 = Except.ok lon)
    (hpolar : polarStep M s { lat := lat, lon := lon } = Except.ok polar)
    (hlatInt : castInt M (M.round (M.mul lat (M.lit 100))) = Except.ok latInt)
    (hlonInt : castInt M (M.round (M.mul lon (M.lit 100))) = Except.ok lonInt)
    (hkey : stoi (printInt latInt ++ printInt lonInt) = Except.ok key)
    (hov : ∀ v, mapFind s.heatMap key = some v → v < INT_MAX)
    (halt : updateAltitude { s with
        polarRange := polar,
        heatMap := mapSet intLt key ((mapFind s.heatMap key).getD 0 + 1) s.heatMap }
      (split message ',') = Except.ok s2) :
    (processMessage M now s message = Except.ok (3, s2) ∧
      mapFind s2.heatMap key = some ((mapFind s.heatMap key).getD 0 + 1) ∧
      (∀ k, k ≠ key → mapFind s2.heatMap k = mapFind s.heatMap k)) ∧
    (∀ now1 now0 uninit : Int, ∃ s3 : data ℝ,
      processMessage realLibm now1 (dataScratch now0 uninit 50 16) msgScenario1 =
        Except.ok (3, s3) ∧
      s3.heatMap = [(50101610, 1)]) := by
  constructor
  · have hkey2 : heatKey M { lat := lat, lon := lon } = Except.ok key := by
      unfold heatKey
      rw [hlatInt, ok_bind, hlonInt, ok_bind]
      exact hkey
    have hposn : updatePosition M s (split message ',') =
        Except.ok { s with
          polarRange := polar,
          heatMap := mapSet intLt key ((mapFind s.heatMap key).getD 0 + 1) s.heatMap } := by
      rw [updatePosition_eq M s _ f14 f15 lat lon h14 n14 h15 n15 hlat hlon]
      unfold positionStep
      rw [hpolar, ok_bind, hkey2, ok_bind, mapCount_ok intLt s.heatMap key hov, ok_bind]
      rfl
    have hheat : s2.heatMap = mapSet intLt key ((mapFind s.heatMap key).getD 0 + 1) s.heatMap := by
      rcases updateAltitude_cases _ s2 _ halt with e | ⟨_, _, _, _, _, _, _, _, _, _, e⟩
      · rw [e]
      · rw [e]
    refine ⟨?_, ?_, ?_⟩
    · rw [processMessage_kind M now s message f1 3 h1 hk, if_neg (by decide), if_pos rfl, hposn,
        ok_bind, halt, ok_bind]
    · rw [hheat]; exact mapFind_mapSet_self _ _ _ _
    · intro k hkne
      rw [hheat]; exact mapFind_mapSet_ne _ _ _ _ _ hkne
  · intro now1 now0 uninit
    obtain ⟨polar1, hp⟩ := processMessage_scenario1 now1 now0 uninit
    exact ⟨_, hp, rfl⟩

/-- Witness of C12: the airborne position message at the reference position
(0, 0), over the real numbers, on a fresh state. -/
theorem heatmap_key_and_increment_witness :
    processMessage realLibm 1 (dataScratch 0 0 0 0) msgAtReference =
      Except.ok (3, { dataScratch 0 0 (0 : ℝ) 0 with
        heatMap := [(0, 1)],
        altPlot := (List.replicate 501 (0 : Int)).set 380 1 }) ∧
    mapFind [((0 : Int), (1 : Int))] 0 = some 1 := by
  have e1 : vecGet (split msgAtReference ',') 1 = Except.ok "3".toList := by decide
  have ek : stoi "3".toList = Except.ok 3 := by decide
  have e14 : vecGet (split msgAtReference ',') 14 = Except.ok "0".toList := by decide
  have e15 : vecGet (split msgAtReference ',') 15 = Except.ok "0".toList := by decide
  have hpolar := polarStep_at_reference 0 0
  have h := heatmap_key_and_increment realLibm 1 (dataScratch 0 0 0 0)
    { dataScratch 0 0 (0 : ℝ) 0 with
        heatMap := [(0, 1)],
        altPlot := (List.replicate 501 (0 : Int)).set 380 1 }
    msgAtReference "3".toList "0".toList "0".toList 0 0 (dataScratch 0 0 (0 : ℝ) 0).polarRange
    0 0 0 e1 ek e14 (by decide) e15 (by decide) stod_0 stod_0 hpolar
    (castInt_round_mul100 0 0 (by norm_num) (by decide) (by decide))
    (castInt_round_mul100 0 0 (by norm_num) (by decide) (by decide))
    (by decide) (fun v hv => by cases hv)
    (by
      have e11 : vecGet (split msgAtReference ',') 11 = Except.ok "38000".toList := by decide
      have ea : stoi "38000".toList = Except.ok 38000 := by decide
      rw [updateAltitude_eq _ _ _ 38000 e11 (by decide) ea, if_pos (by decide)]
      have hg : vecGet (List.replicate 501 (0 : Int)) (Int.tdiv 38000 100) = Except.ok 0 := by
        rw [vecGet_ok_iff]
        refine ⟨by decide, ?_⟩
        rw [List.getElem?_replicate, if_pos (by decide)]
      have hs : vecSet (List.replicate 501 (0 : Int)) (Int.tdiv 38000 100) 1 =
          Except.ok ((List.replicate 501 (0 : Int)).set 380 1) := by
        unfold vecSet
        rw [if_pos ⟨by decide, by rw [List.length_replicate]; decide⟩]
        rfl
      have hi : incrInt 0 = Except.ok 1 := by decide
      simp only [dataScratch, hg, ok_bind, hi, hs]
      rfl)
  exact ⟨h.1.1, h.1.2.1⟩
/-- A call of processMessage that returns, seen with the position the message
reports: without reported position the polar range plot is unchanged, with one the
plot is the result of the update for that position. -/
theorem processMessage_observed {F : Type} (M : Libm F) (now : Int) (s s1 : data F)
    (message : Str) (r : Int) (h : processMessage M now s message = Except.ok (r, s1)) :
    (observedPosition M message = none ∧ s1.polarRange = s.polarRange) ∨
    (∃ p, observedPosition M message = some p ∧ polarStep M s p = Except.ok s1.polarRange) := by
  obtain ⟨f1, kind, h1, hk, hc⟩ := processMessage_cases M now s s1 message r h
  have hnot3 : kind ≠ 3 → observedPosition M message = none := by
    intro k3
    unfold observedPosition
    simp only [h1, hk]
    rw [if_neg]
    intro hcon
    simp only [Except.ok.injEq] at hcon
    exact k3 hcon
  rcases hc with ⟨k1, hc⟩ | ⟨k3, _, sp, hp, ha⟩ | ⟨_, k3, _, e⟩
  · refine Or.inl ⟨hnot3 (by rw [k1]; decide), ?_⟩
    rcases (caseId_cases now s _ r s1 hc).2 with e | ⟨_, _, _, _, _, _, _, e⟩
    · rw [e]
    · rw [e]
  · have hframe : s1.polarRange = sp.polarRange := by
      rcases updateAltitude_cases sp s1 _ ha with e | ⟨_, _, _, _, _, _, _, _, _, _, e⟩
      · rw [e]
      · rw [e]
    subst k3
    rcases updatePosition_cases M s sp _ hp with
      ⟨e, h14 | ⟨_, h15⟩⟩ | ⟨f14, f15, lat, lon, h14, n14, h15, n15, hlat, hlon, hps⟩
    · refine Or.inl ⟨?_, by rw [hframe, e]⟩
      unfold observedPosition
      simp only [h1, hk, h14, if_true]
      cases h15 : vecGet (split message ',') 15 <;> simp
    · refine Or.inl ⟨?_, by rw [hframe, e]⟩
      unfold observedPosition
      simp only [h1, hk, h15, if_true]
      cases h14 : vecGet (split message ',') 14 <;> simp
    · refine Or.inr ⟨{ lat := lat, lon := lon }, ?_, ?_⟩
      · unfold observedPosition
        simp only [h1, hk, h14, h15, if_true, hlat, hlon]
        rw [if_pos ⟨n14, n15⟩]
      · obtain ⟨polar, key, heat, hpol, _, _, e⟩ := positionStep_cases M s sp _ hps
        rw [hframe, e]
        exact hpol
  · exact Or.inl ⟨hnot3 k3, by rw [e]⟩

/-! ### Two positions of slot 180 at the same distance, over the real numbers -/

theorem stod_m30 : realLibm.stod "-30.0".toList = Except.ok (-30) := by
  have h : stodParts "-30.0".toList = Except.ok (true, 300, -1) := by decide
  simp only [realLibm, h, decimalValue]
  norm_num

theorem stod_01 : realLibm.stod "0.1".toList = Except.ok (1 / 10) := by
  have h : stodParts "0.1".toList = Except.ok (false, 1, -1) := by decide
  simp only [realLibm, h, decimalValue]
  norm_num

theorem roundReal_int (n : Int) : realLibm.round (n : ℝ) = (n : ℝ) := by
  show roundReal (n : ℝ) = (n : ℝ)
  unfold roundReal
  by_cases h : (0 : ℝ) ≤ (n : ℝ)
  · rw [if_pos h]
    have : ⌊(n : ℝ) + 1 / 2⌋ = n := by
      rw [Int.floor_eq_iff]
      constructor <;> linarith
    rw [this]
  · rw [if_neg h]
    have : ⌈(n : ℝ) - 1 / 2⌉ = n := by
      rw [Int.ceil_eq_iff]
      constructor <;> linarith
    rw [this]

theorem tan_south : Real.tan (-30 * (Real.pi / 180) / 2 + Real.pi / 4) = 1 / Real.sqrt 3 := by
  rw [← Real.tan_pi_div_six]
  congr 1; ring

theorem tan_equator : Real.tan (0 * (Real.pi / 180) / 2 + Real.pi / 4) = 1 := by
  rw [← Real.tan_pi_div_four]
  congr 1; ring

theorem log_south : Real.log (1 / Real.sqrt 3 / 1) = -Real.log (Real.sqrt 3) := by
  rw [div_one, one_div, Real.log_inv]

/-- Over the real numbers the bearing from (0, 0) to (-30, 0.1) lies in
(179.5, 180). -/
theorem getBearing_southeast :
    179.5 < getBearing realLibm { lat := 0, lon := 0 } { lat := -30, lon := 1 / 10 } ∧
    getBearing realLibm { lat := 0, lon := 0 } { lat := -30, lon := 1 / 10 } < 180 := by
  have hpos : (0 : ℝ) < Real.pi := Real.pi_pos
  have hpi4 := Real.pi_lt_four
  obtain ⟨hlo, hhi⟩ := arg_northwest
  have hd : (1 / 10 : ℝ) * (Real.pi / 180) - 0 * (Real.pi / 180) = Real.pi / 1800 := by ring
  have hn := normDeltaLon_small (Real.pi / 1800) (by rw [abs_of_pos (by positivity)]; linarith)
  have harg : Complex.arg ⟨-Real.log (Real.sqrt 3), Real.pi / 1800⟩ =
      Complex.arg ⟨Real.log (Real.sqrt 3), -(Real.pi / 1800)⟩ + Real.pi := by
    have e : (⟨-Real.log (Real.sqrt 3), Real.pi / 1800⟩ : ℂ) =
        -(⟨Real.log (Real.sqrt 3), -(Real.pi / 1800)⟩ : ℂ) := by
      apply Complex.ext <;> simp
    rw [e, Complex.arg_neg_eq_arg_add_pi_of_im_neg]
    show -(Real.pi / 1800) < 0
    linarith
  have hb : getBearing realLibm { lat := 0, lon := 0 } { lat := -30, lon := 1 / 10 } =
      realLibm.fmod
        (Complex.arg ⟨-Real.log (Real.sqrt 3), Real.pi / 1800⟩ * (180 / Real.pi) + 360) 360 := by
    unfold getBearing toDegrees toRadians
    simp only [realLibm] at hn ⊢
    simp only [Rat.cast_ofNat]
    rw [hd, tan_south, tan_equator, log_south, hn]
  set θ := Complex.arg ⟨Real.log (Real.sqrt 3), -(Real.pi / 1800)⟩ with hθ
  have hx1 : -(1 / 2 : ℝ) < θ * (180 / Real.pi) := by
    rw [← mul_div_assoc, lt_div_iff₀ hpos]
    linarith
  have hx2 : θ * (180 / Real.pi) < 0 := mul_neg_of_neg_of_pos hhi (by positivity)
  have hpi180 : Real.pi * (180 / Real.pi) = 180 := by field_simp
  have hf : realLibm.fmod ((θ + Real.pi) * (180 / Real.pi) + 360) 360 =
      θ * (180 / Real.pi) + 180 := by
    show (θ + Real.pi) * (180 / Real.pi) + 360 -
      360 * (truncReal (((θ + Real.pi) * (180 / Real.pi) + 360) / 360) : ℝ) = _
    rw [truncReal_of_nonneg _ 1 (by decide)]
    · rw [add_mul, hpi180]; push_cast; ring
    · rw [Int.cast_one, le_div_iff₀ (by norm_num), add_mul, hpi180]
      linarith
    · rw [Int.cast_one, div_lt_iff₀ (by norm_num), add_mul, hpi180]
      linarith
  rw [hb, harg, hf]
  constructor <;> linarith

/-- Over the real numbers the bearing from (0, 0) to (-30, -0.1) lies in
(180, 180.5). -/
theorem getBearing_southwest :
    180 < getBearing realLibm { lat := 0, lon := 0 } { lat := -30, lon := -(1 / 10) } ∧
    getBearing realLibm { lat := 0, lon := 0 } { lat := -30, lon := -(1 / 10) } < 180.5 := by
  have hpos : (0 : ℝ) < Real.pi := Real.pi_pos
  have hpi4 := Real.pi_lt_four
  obtain ⟨hlo, hhi⟩ := arg_northwest
  have hd : (-(1 / 10) : ℝ) * (Real.pi / 180) - 0 * (Real.pi / 180) = -(Real.pi / 1800) := by
    ring
  have hn := normDeltaLon_small (-(Real.pi / 1800))
    (by rw [abs_neg, abs_of_pos (by positivity)]; linarith)
  have hconj : Complex.arg ⟨Real.log (Real.sqrt 3), Real.pi / 1800⟩ =
      -Complex.arg ⟨Real.log (Real.sqrt 3), -(Real.pi / 1800)⟩ := by
    have e : (⟨Real.log (Real.sqrt 3), Real.pi / 1800⟩ : ℂ) =
        (starRingEnd ℂ) (⟨Real.log (Real.sqrt 3), -(Real.pi / 1800)⟩ : ℂ) := by
      apply Complex.ext <;> simp
    rw [e, Complex.arg_conj, if_neg]
    intro hcon
    linarith
  have harg : Complex.arg ⟨-Real.log (Real.sqrt 3), -(Real.pi / 1800)⟩ =
      -Complex.arg ⟨Real.log (Real.sqrt 3), -(Real.pi / 1800)⟩ - Real.pi := by
    have e : (⟨-Real.log (Real.sqrt 3), -(Real.pi / 1800)⟩ : ℂ) =
        -(⟨Real.log (Real.sqrt 3), Real.pi / 1800⟩ : ℂ) := by
      apply Complex.ext <;> simp
    rw [e, Complex.arg_neg_eq_arg_sub_pi_of_im_pos, hconj]
    show 0 < Real.pi / 1800
    positivity
  have hb : getBearing realLibm { lat := 0, lon := 0 } { lat := -30, lon := -(1 / 10) } =
      realLibm.fmod
        (Complex.arg ⟨-Real.log (Real.sqrt 3), -(Real.pi / 1800)⟩ * (180 / Real.pi) + 360)
        360 := by
    unfold getBearing toDegrees toRadians
    simp only [realLibm] at hn ⊢
    simp only [Rat.cast_ofNat]
    rw [hd, tan_south, tan_equator, log_south, hn]
  set θ := Complex.arg ⟨Real.log (Real.sqrt 3), -(Real.pi / 1800)⟩ with hθ
  have hx1 : -(1 / 2 : ℝ) < θ * (180 / Real.pi) := by
    rw [← mul_div_assoc, lt_div_iff₀ hpos]
    linarith
  have hx2 : θ * (180 / Real.pi) < 0 := mul_neg_of_neg_of_pos hhi (by positivity)
  have hpi180 : Real.pi * (180 / Real.pi) = 180 := by field_simp
  have hf : realLibm.fmod ((-θ - Real.pi) * (180 / Real.pi) + 360) 360 =
      -(θ * (180 / Real.pi)) + 180 := by
    show (-θ - Real.pi) * (180 / Real.pi) + 360 -
      360 * (truncReal (((-θ - Real.pi) * (180 / Real.pi) + 360) / 360) : ℝ) = _
    rw [truncReal_of_nonneg _ 0 (le_refl 0)]
    · rw [sub_mul, hpi180]; push_cast; ring
    · rw [Int.cast_zero, le_div_iff₀ (by norm_num), sub_mul, hpi180]
      linarith
    · rw [Int.cast_zero, zero_add, div_lt_one (by norm_num), sub_mul, hpi180]
      linarith
  rw [hb, harg, hf]
  constructor <;> linarith

/-- Over the real numbers getDistance is never negative. -/
theorem getDistance_real_nonneg (R P : tCoords ℝ) : 0 ≤ getDistance realLibm R P := by
  rw [getDistance_real]
  have h : 0 ≤ Complex.arg
      ⟨Real.sqrt (1 - (Real.sin ((R.lat * (Real.pi / 180) - P.lat * (Real.pi / 180)) / 2) ^ 2 +
          Real.cos (R.lat * (Real.pi / 180)) * Real.cos (P.lat * (Real.pi / 180)) *
            Real.sin ((R.lon * (Real.pi / 180) - P.lon * (Real.pi / 180)) / 2) ^ 2)),
       Real.sqrt (Real.sin ((R.lat * (Real.pi / 180) - P.lat * (Real.pi / 180)) / 2) ^ 2 +
          Real.cos (R.lat * (Real.pi / 180)) * Real.cos (P.lat * (Real.pi / 180)) *
            Real.sin ((R.lon * (Real.pi / 180) - P.lon * (Real.pi / 180)) / 2) ^ 2)⟩ := by
    rw [Complex.arg_nonneg_iff]
    exact Real.sqrt_nonneg _
  positivity

/-- Over the real numbers the position (-30, 0.1) is at a positive distance from
(0, 0). -/
theorem getDistance_southeast_pos :
    0 < getDistance realLibm { lat := 0, lon := 0 } { lat := -30, lon := 1 / 10 } := by
  have hpos : (0 : ℝ) < Real.pi := Real.pi_pos
  have hpi4 := Real.pi_lt_four
  apply lt_of_le_of_ne (getDistance_real_nonneg _ _)
  intro hcon
  have h := (getDistance_real_eq_zero _ _).mp hcon.symm
  simp only at h
  have hs : 0 < Real.sin ((0 * (Real.pi / 180) - -30 * (Real.pi / 180)) / 2) := by
    apply Real.sin_pos_of_pos_of_lt_pi <;> nlinarith
  have hc0 : 0 ≤ Real.cos (0 * (Real.pi / 180)) := by
    apply Real.cos_nonneg_of_neg_pi_div_two_le_of_le <;> nlinarith
  have hc1 : 0 ≤ Real.cos (-30 * (Real.pi / 180)) := by
    apply Real.cos_nonneg_of_neg_pi_div_two_le_of_le <;> nlinarith
  have hB : 0 ≤ Real.cos (0 * (Real.pi / 180)) * Real.cos (-30 * (Real.pi / 180)) *
      Real.sin ((0 * (Real.pi / 180) - 1 / 10 * (Real.pi / 180)) / 2) ^ 2 :=
    mul_nonneg (mul_nonneg hc0 hc1) (sq_nonneg _)
  have hA : 0 < Real.sin ((0 * (Real.pi / 180) - -30 * (Real.pi / 180)) / 2) ^ 2 := by
    positivity
  linarith

/-- Over the real numbers the positions (-30, -0.1) and (-30, 0.1) are at the same
distance from (0, 0). -/
theorem getDistance_southwest_eq :
    getDistance realLibm { lat := 0, lon := 0 } { lat := -30, lon := -(1 / 10) } =
      getDistance realLibm { lat := 0, lon := 0 } { lat := -30, lon := 1 / 10 } := by
  rw [getDistance_real, getDistance_real]
  simp only
  have e : (0 * (Real.pi / 180) - -(1 / 10) * (Real.pi / 180)) / 2 =
      -((0 * (Real.pi / 180) - 1 / 10 * (Real.pi / 180)) / 2) := by ring
  rw [e, Real.sin_neg, neg_sq]

/-- Over the real numbers, the rounding to int of a product by 100 that is a whole
number of an int. -/
theorem castInt_round_mul100_int (x : ℝ) (n : Int) (hx : x * 100 = (n : ℝ))
    (h0 : INT_MIN ≤ n) (h1 : n ≤ INT_MAX) :
    castInt realLibm (realLibm.round (realLibm.mul x (realLibm.lit 100))) = Except.ok n := by
  have hm : realLibm.mul x (realLibm.lit 100) = (n : ℝ) := by
    show x * ((100 : ℚ) : ℝ) = (n : ℝ)
    rw [← hx]
    norm_num
  rw [hm, roundReal_int]
  exact castInt_real n h0 h1

theorem castInt_bearing_southeast :
    castInt realLibm (realLibm.round
      (getBearing realLibm { lat := 0, lon := 0 } { lat := -30, lon := 1 / 10 })) =
      Except.ok 180 := by
  obtain ⟨h1, h2⟩ := getBearing_southeast
  have h := roundReal_of_nonneg
    (getBearing realLibm { lat := 0, lon := 0 } { lat := -30, lon := 1 / 10 }) 180
    (by linarith) (by push_cast; linarith) (by push_cast; linarith)
  rw [h]
  exact castInt_real 180 (by decide) (by decide)

theorem castInt_bearing_southwest :
    castInt realLibm (realLibm.round
      (getBearing realLibm { lat := 0, lon := 0 } { lat := -30, lon := -(1 / 10) })) =
      Except.ok 180 := by
  obtain ⟨h1, h2⟩ := getBearing_southwest
  have h := roundReal_of_nonneg
    (getBearing realLibm { lat := 0, lon := 0 } { lat := -30, lon := -(1 / 10) }) 180
    (by linarith) (by push_cast; linarith) (by push_cast; linarith)
  rw [h]
  exact castInt_real 180 (by decide) (by decide)

/-- The first of the two southern messages, over the real numbers on a fresh state
of reference position (0, 0): slot 180 takes the position (-30, 0.1). -/
theorem processMessage_southeast (now now0 uninit : Int) :
    processMessage realLibm now (dataScratch now0 uninit 0 0) msgSouthEast =
      Except.ok (3, { dataScratch now0 uninit (0 : ℝ) 0 with
        polarRange := (List.replicate 360 ({ lat := 0, lon := 0 } : tCoords ℝ)).set 180
          { lat := -30, lon := 1 / 10 },
        heatMap := [(-300010, 1)] }) := by
  have e1 : vecGet (split msgSouthEast ',') 1 = Except.ok "3".toList := by decide
  have ek : stoi "3".toList = Except.ok 3 := by decide
  have e14 : vecGet (split msgSouthEast ',') 14 = Except.ok "-30.0".toList := by decide
  have e15 : vecGet (split msgSouthEast ',') 15 = Except.ok "0.1".toList := by decide
  have e11 : vecGet (split msgSouthEast ',') 11 = Except.ok [] := by decide
  have href : (dataScratch now0 uninit (0 : ℝ) 0).ref = { lat := 0, lon := 0 } := rfl
  have hpr : (dataScratch now0 uninit (0 : ℝ) 0).polarRange =
      List.replicate 360 ({ lat := 0, lon := 0 } : tCoords ℝ) := rfl
  have hv : vecGet (List.replicate 360 ({ lat := 0, lon := 0 } : tCoords ℝ)) 180 =
      Except.ok { lat := 0, lon := 0 } := by
    rw [vecGet_ok_iff]
    refine ⟨by decide, ?_⟩
    rw [List.getElem?_replicate, if_pos (by decide)]
  have hpolar : polarStep realLibm (dataScratch now0 uninit 0 0) { lat := -30, lon := 1 / 10 } =
      Except.ok ((List.replicate 360 ({ lat := 0, lon := 0 } : tCoords ℝ)).set 180
        { lat := -30, lon := 1 / 10 }) := by
    unfold polarStep
    rw [href, castInt_bearing_southeast, ok_bind, hpr, hv, ok_bind, getDistance_at_reference]
    have hg : realLibm.gt
        (getDistance realLibm { lat := 0, lon := 0 } { lat := -30, lon := 1 / 10 }) 0 = true :=
      (realLibm_gt _ _).mpr getDistance_southeast_pos
    simp only [hg, if_true]
    unfold vecSet
    rw [if_pos ⟨by decide, by rw [List.length_replicate]; decide⟩]
    rfl
  have hkey : heatKey realLibm { lat := -30, lon := 1 / 10 } = Except.ok (-300010) := by
    unfold heatKey
    rw [castInt_round_mul100_int (-30) (-3000) (by norm_num) (by decide) (by decide), ok_bind,
      castInt_round_mul100_int (1 / 10) 10 (by norm_num) (by decide) (by decide), ok_bind]
    decide
  have hposn : updatePosition realLibm (dataScratch now0 uninit 0 0) (split msgSouthEast ',') =
      Except.ok { dataScratch now0 uninit (0 : ℝ) 0 with
        polarRange := (List.replicate 360 ({ lat := 0, lon := 0 } : tCoords ℝ)).set 180
          { lat := -30, lon := 1 / 10 },
        heatMap := [(-300010, 1)] } := by
    rw [updatePosition_eq realLibm _ _ _ _ _ _ e14 (by decide) e15 (by decide) stod_m30 stod_01]
    unfold positionStep
    rw [hpolar, ok_bind, hkey, ok_bind]
    rfl
  rw [processMessage_kind realLibm now _ _ _ 3 e1 ek, if_neg (by decide), if_pos rfl, hposn, ok_bind]
  unfold updateAltitude
  rw [e11, ok_bind]
  rfl

/-- The second of the two southern messages, processed after the first: slot 180
keeps the position (-30, 0.1), which is at the same distance as (-30, -0.1). -/
theorem processMessage_southwest (now now0 uninit : Int) :
    processMessage realLibm now
        { dataScratch now0 uninit (0 : ℝ) 0 with
          polarRange := (List.replicate 360 ({ lat := 0, lon := 0 } : tCoords ℝ)).set 180
            { lat := -30, lon := 1 / 10 },
          heatMap := [(-300010, 1)] }
        msgSouthWest =
      Except.ok (3, { dataScratch now0 uninit (0 : ℝ) 0 with
        polarRange := (List.replicate 360 ({ lat := 0, lon := 0 } : tCoords ℝ)).set 180
          { lat := -30, lon := 1 / 10 },
        heatMap := [(-300010, 1), (-3000, 1)] }) := by
  have e1 : vecGet (split msgSouthWest ',') 1 = Except.ok "3".toList := by decide
  have ek : stoi "3".toList = Except.ok 3 := by decide
  have e14 : vecGet (split msgSouthWest ',') 14 = Except.ok "-30.0".toList := by decide
  have e15 : vecGet (split msgSouthWest ',') 15 = Except.ok "-0.1".toList := by decide
  have e11 : vecGet (split msgSouthWest ',') 11 = Except.ok [] := by decide
  have hv : vecGet ((List.replicate 360 ({ lat := 0, lon := 0 } : tCoords ℝ)).set 180
      { lat := -30, lon := 1 / 10 }) 180 = Except.ok { lat := -30, lon := 1 / 10 } := by
    rw [vecGet_ok_iff]
    refine ⟨by decide, ?_⟩
    show ((List.replicate 360 ({ lat := 0, lon := 0 } : tCoords ℝ)).set 180
      { lat := -30, lon := 1 / 10 })[180]? = _
    rw [List.getElem?_set_self (by rw [List.length_replicate]; decide)]
  have hpolar : polarStep realLibm
      { dataScratch now0 uninit (0 : ℝ) 0 with
        polarRange := (List.replicate 360 ({ lat := 0, lon := 0 } : tCoords ℝ)).set 180
          { lat := -30, lon := 1 / 10 },
        heatMap := [(-300010, 1)] }
      { lat := -30, lon := -(1 / 10) } =
      Except.ok ((List.replicate 360 ({ lat := 0, lon := 0 } : tCoords ℝ)).set 180
        { lat := -30, lon := 1 / 10 }) := by
    unfold polarStep
    show (castInt realLibm (realLibm.round
        (getBearing realLibm { lat := 0, lon := 0 } { lat := -30, lon := -(1 / 10) })) >>=
      fun bearing =>
        vecGet ((List.replicate 360 ({ lat := 0, lon := 0 } : tCoords ℝ)).set 180
          { lat := -30, lon := 1 / 10 }) bearing >>= fun maxPos =>
        if realLibm.gt
            (getDistance realLibm { lat := 0, lon := 0 } { lat := -30, lon := -(1 / 10) })
            (getDistance realLibm { lat := 0, lon := 0 } maxPos) = true then
          vecSet ((List.replicate 360 ({ lat := 0, lon := 0 } : tCoords ℝ)).set 180
            { lat := -30, lon := 1 / 10 }) bearing { lat := -30, lon := -(1 / 10) }
        else pure ((List.replicate 360 ({ lat := 0, lon := 0 } : tCoords ℝ)).set 180
          { lat := -30, lon := 1 / 10 })) = _
    rw [castInt_bearing_southwest, ok_bind, hv, ok_bind, getDistance_southwest_eq]
    have hg : realLibm.gt
        (getDistance realLibm { lat := 0, lon := 0 } { lat := -30, lon := 1 / 10 })
        (getDistance realLibm { lat := 0, lon := 0 } { lat := -30, lon := 1 / 10 }) = false := by
      show decide (_ < _) = false
      simp
    rw [hg]
    rfl
  have hkey : heatKey realLibm { lat := -30, lon := -(1 / 10) } = Except.ok (-3000) := by
    unfold heatKey
    rw [castInt_round_mul100_int (-30) (-3000) (by norm_num) (by decide) (by decide), ok_bind,
      castInt_round_mul100_int (-(1 / 10)) (-10) (by norm_num) (by decide) (by decide), ok_bind]
    decide
  have hposn : updatePosition realLibm
      { dataScratch now0 uninit (0 : ℝ) 0 with
        polarRange := (List.replicate 360 ({ lat := 0, lon := 0 } : tCoords ℝ)).set 180
          { lat := -30, lon := 1 / 10 },
        heatMap := [(-300010, 1)] }
      (split msgSouthWest ',') =
      Except.ok { dataScratch now0 uninit (0 : ℝ) 0 with
        polarRange := (List.replicate 360 ({ lat := 0, lon := 0 } : tCoords ℝ)).set 180
          { lat := -30, lon := 1 / 10 },
        heatMap := [(-300010, 1), (-3000, 1)] } := by
    rw [updatePosition_eq realLibm _ _ _ _ _ _ e14 (by decide) e15 (by decide) stod_m30 stod_m01]
    unfold positionStep
    rw [hpolar, ok_bind, hkey, ok_bind]
    rfl
  rw [processMessage_kind realLibm now _ _ _ 3 e1 ek, if_neg (by decide), if_pos rfl, hposn, ok_bind]
  unfold updateAltitude
  rw [e11, ok_bind]
  rfl

/-- The two southern messages processed in turn from the fresh state data(0, 0),
over the real numbers. -/
theorem processAll_south :
    processAll realLibm (dataScratch 0 0 (0 : ℝ) 0) [(1, msgSouthEast), (2, msgSouthWest)] =
      Except.ok { dataScratch 0 0 (0 : ℝ) 0 with
        polarRange := (List.replicate 360 ({ lat := 0, lon := 0 } : tCoords ℝ)).set 180
          { lat := -30, lon := 1 / 10 },
        heatMap := [(-300010, 1), (-3000, 1)] } := by
  unfold processAll
  rw [processMessage_southeast]
  simp only
  unfold processAll
  rw [processMessage_southwest]
  simp only
  unfold processAll
  rfl

theorem observedPosition_southeast :
    observedPosition realLibm msgSouthEast = some { lat := -30, lon := 1 / 10 } := by
  have e1 : vecGet (split msgSouthEast ',') 1 = Except.ok "3".toList := by decide
  have ek : stoi "3".toList = Except.ok 3 := by decide
  have e14 : vecGet (split msgSouthEast ',') 14 = Except.ok "-30.0".toList := by decide
  have e15 : vecGet (split msgSouthEast ',') 15 = Except.ok "0.1".toList := by decide
  unfold observedPosition
  simp only [e1, ek, e14, e15, if_true]
  rw [if_pos ⟨by decide, by decide⟩, stod_m30, stod_01]

theorem observedPosition_southwest :
    observedPosition realLibm msgSouthWest = some { lat := -30, lon := -(1 / 10) } := by
  have e1 : vecGet (split msgSouthWest ',') 1 = Except.ok "3".toList := by decide
  have ek : stoi "3".toList = Except.ok 3 := by decide
  have e14 : vecGet (split msgSouthWest ',') 14 = Except.ok "-30.0".toList := by decide
  have e15 : vecGet (split msgSouthWest ',') 15 = Except.ok "-0.1".toList := by decide
  unfold observedPosition
  simp only [e1, ek, e14, e15, if_true]
  rw [if_pos ⟨by decide, by decide⟩, stod_m30, stod_m01]

theorem vecGet_south_180 :
    vecGet ((List.replicate 360 ({ lat := 0, lon := 0 } : tCoords ℝ)).set 180
      { lat := -30, lon := 1 / 10 }) 180 = Except.ok { lat := -30, lon := 1 / 10 } := by
  rw [vecGet_ok_iff]
  refine ⟨by decide, ?_⟩
  show ((List.replicate 360 ({ lat := 0, lon := 0 } : tCoords ℝ)).set 180
    { lat := -30, lon := 1 / 10 })[180]? = _
  rw [List.getElem?_set_self (by rw [List.length_replicate]; decide)]

/-- C11, the counterexample: over the real numbers, from the fresh state data(0, 0),
the messages reporting (-30, 0.1) and then (-30, -0.1) both fall in slot 180 and are
at the same distance from the reference position, the two positions differ, and
slot 180 of the final state holds the one seen FIRST, not the later-seen one. -/
theorem polar_range_tie_keeps_first :
    ∃ s : data ℝ,
      processAll realLibm (dataScratch 0 0 (0 : ℝ) 0) [(1, msgSouthEast), (2, msgSouthWest)] =
        Except.ok s ∧
      observedPosition realLibm msgSouthEast = some { lat := -30, lon := 1 / 10 } ∧
      observedPosition realLibm msgSouthWest = some { lat := -30, lon := -(1 / 10) } ∧
      castInt realLibm (realLibm.round
        (getBearing realLibm { lat := 0, lon := 0 } { lat := -30, lon := 1 / 10 })) =
        Except.ok 180 ∧
      castInt realLibm (realLibm.round
        (getBearing realLibm { lat := 0, lon := 0 } { lat := -30, lon := -(1 / 10) })) =
        Except.ok 180 ∧
      getDistance realLibm { lat := 0, lon := 0 } { lat := -30, lon := -(1 / 10) } =
        getDistance realLibm { lat := 0, lon := 0 } { lat := -30, lon := 1 / 10 } ∧
      vecGet s.polarRange 180 = Except.ok { lat := -30, lon := 1 / 10 } ∧
      vecGet s.polarRange 180 ≠ Except.ok { lat := -30, lon := -(1 / 10) } := by
  refine ⟨_, processAll_south, observedPosition_southeast, observedPosition_southwest,
    castInt_bearing_southeast, castInt_bearing_southwest, getDistance_southwest_eq,
    vecGet_south_180, ?_⟩
  show vecGet ((List.replicate 360 ({ lat := 0, lon := 0 } : tCoords ℝ)).set 180
      { lat := -30, lon := 1 / 10 }) 180 ≠ _
  rw [vecGet_south_180]
  intro h
  have h2 := congrArg (fun r => match r with
    | Except.ok (q : tCoords ℝ) => q.lon
    | Except.error _ => 0) h
  simp only at h2
  norm_num at h2


/-! ### The decimal text of an int -/

theorem digitChar_isdigit (k : Nat) (h : k < 10) :
    isdigit (Nat.digitChar k) = true ∧ digitValue (Nat.digitChar k) = k := by
  interval_cases k <;> decide

theorem decValue_append (a : Str) (c : Char) :
    decValue (a ++ [c]) = 10 * decValue a + digitValue c := by
  unfold decValue
  rw [List.foldl_append]
  rfl

/-- The digits Nat.toDigitsCore puts in front of the digits it is given: a run of
decimal digits that is not empty, whose value is n and whose length is that of n. -/
theorem toDigitsCore_spec :
    ∀ (fuel n : Nat) (ds : Str), n < fuel →
      ∃ D : Str, Nat.toDigitsCore 10 fuel n ds = D ++ ds ∧ D ≠ [] ∧
        (∀ c ∈ D, isdigit c = true) ∧ decValue D = n ∧
        (D.length = 1 ∨ 10 ^ (D.length - 1) ≤ n) := by
  intro fuel
  induction fuel with
  | zero => intro n ds h; omega
  | succ f ih =>
    intro n ds h
    unfold Nat.toDigitsCore
    simp only
    by_cases h0 : n / 10 = 0
    · rw [if_pos h0]
      have hn : n < 10 := by omega
      have hd := digitChar_isdigit (n % 10) (Nat.mod_lt _ (by decide))
      refine ⟨[Nat.digitChar (n % 10)], rfl, by simp, ?_, ?_, Or.inl rfl⟩
      · intro c hc
        rw [List.mem_singleton] at hc
        rw [hc]; exact hd.1
      · show 10 * 0 + digitValue (Nat.digitChar (n % 10)) = n
        rw [hd.2]; omega
    · rw [if_neg h0]
      have hlt : n / 10 < f := by omega
      obtain ⟨D, hD, hne, hdig, hval, hlen⟩ := ih (n / 10) (Nat.digitChar (n % 10) :: ds) hlt
      have hd := digitChar_isdigit (n % 10) (Nat.mod_lt _ (by decide))
      have hpos : 1 ≤ D.length := by
        cases D with
        | nil => exact absurd rfl hne
        | cons c cs => simp
      refine ⟨D ++ [Nat.digitChar (n % 10)], ?_, by simp, ?_, ?_, Or.inr ?_⟩
      · rw [hD]; simp
      · intro c hc
        rw [List.mem_append, List.mem_singleton] at hc
        rcases hc with hc | hc
        · exact hdig c hc
        · rw [hc]; exact hd.1
      · rw [decValue_append, hval, hd.2]; omega
      · rw [List.length_append, List.length_singleton, Nat.add_sub_cancel]
        rcases hlen with h1 | h1
        · rw [h1]; omega
        · have e : D.length = (D.length - 1) + 1 := by omega
          rw [e, pow_succ]
          omega

/-- The decimal digits of a natural number. -/
theorem toDigits_spec (n : Nat) :
    Nat.toDigits 10 n ≠ [] ∧ (∀ c ∈ Nat.toDigits 10 n, isdigit c = true) ∧
      decValue (Nat.toDigits 10 n) = n ∧ (n < 10 ^ 10 → (Nat.toDigits 10 n).length ≤ 10) := by
  obtain ⟨D, hD, hne, hdig, hval, hlen⟩ := toDigitsCore_spec (n + 1) n [] (Nat.lt_succ_self n)
  have e : Nat.toDigits 10 n = D := by
    unfold Nat.toDigits
    rw [hD, List.append_nil]
  rw [e]
  refine ⟨hne, hdig, hval, ?_⟩
  intro hn
  rcases hlen with h1 | h1
  · omega
  · by_contra hcon
    have h10 : 10 ≤ D.length - 1 := by omega
    have : 10 ^ 10 ≤ 10 ^ (D.length - 1) := Nat.pow_le_pow_right (by decide) h10
    omega

/-- A character of code above 32 other than the bar is none of the characters that
end a line, a field or a C string, and is no white space. -/
theorem plainChar (c : Char) (h : 33 ≤ c.toNat) (hb : c.toNat ≠ 124) :
    c ≠ '\n' ∧ c ≠ '|' ∧ c ≠ Char.ofNat 0 ∧ isspace c = false := by
  refine ⟨?_, ?_, ?_, ?_⟩
  · intro e; rw [e] at h; revert h; decide
  · intro e; rw [e] at hb; revert hb; decide
  · intro e; rw [e] at h; revert h; decide
  · unfold isspace
    have h1 : c ≠ ' ' := by intro e; rw [e] at h; revert h; decide
    have h2 : c ≠ '\t' := by intro e; rw [e] at h; revert h; decide
    have h3 : c ≠ '\n' := by intro e; rw [e] at h; revert h; decide
    have h4 : c ≠ '\r' := by intro e; rw [e] at h; revert h; decide
    have h5 : c.toNat ≠ 11 := by omega
    have h6 : c.toNat ≠ 12 := by omega
    simp [h1, h2, h3, h4, h5, h6]

theorem isdigit_range (c : Char) (h : isdigit c = true) : 48 ≤ c.toNat ∧ c.toNat ≤ 57 := by
  unfold isdigit at h
  rw [Bool.and_eq_true, decide_eq_true_iff, decide_eq_true_iff] at h
  exact h
/-- A text none of whose characters ends a line, a field or a C string. -/
theorem printInt_chars (n : Int) :
    ∀ c ∈ printInt n, 33 ≤ c.toNat ∧ c.toNat ≠ 124 := by
  have hd : ∀ c ∈ Nat.toDigits 10 n.natAbs, 33 ≤ c.toNat ∧ c.toNat ≠ 124 := by
    intro c hc
    have := isdigit_range c ((toDigits_spec n.natAbs).2.1 c hc)
    omega
  intro c hc
  unfold printInt at hc
  split at hc
  · rw [List.mem_cons] at hc
    rcases hc with hc | hc
    · rw [hc]; decide
    · exact hd c hc
  · exact hd c hc

theorem printInt_plain (n : Int) :
    printInt n ≠ [] ∧ '\n' ∉ printInt n ∧ '|' ∉ printInt n ∧ Char.ofNat 0 ∉ printInt n := by
  refine ⟨?_, ?_, ?_, ?_⟩
  · unfold printInt
    split
    · simp
    · exact (toDigits_spec n.natAbs).1
  · intro h; have := printInt_chars n _ h; revert this; decide
  · intro h; have := printInt_chars n _ h; revert this; decide
  · intro h; have := printInt_chars n _ h; revert this; decide

theorem printInt_length (n : Int) (h0 : INT_MIN ≤ n) (h1 : n ≤ INT_MAX) :
    (printInt n).length ≤ 11 := by
  have hI0 : INT_MIN = -2147483648 := by decide
  have hI1 : INT_MAX = 2147483647 := by decide
  have hl := (toDigits_spec n.natAbs).2.2.2 (by omega)
  unfold printInt
  split
  · rw [List.length_cons]; omega
  · omega

/-- The call std::stoi reads back the text %d writes for an int. -/
theorem stoi_printInt (n : Int) (h0 : INT_MIN ≤ n) (h1 : n ≤ INT_MAX) :
    stoi (printInt n) = Except.ok n := by
  obtain ⟨hne, hdig, hval, _⟩ := toDigits_spec n.natAbs
  have htw : (Nat.toDigits 10 n.natAbs).takeWhile isdigit = Nat.toDigits 10 n.natAbs := by
    rw [List.takeWhile_eq_self_iff]
    exact hdig
  obtain ⟨d, ds, hD⟩ := List.exists_cons_of_ne_nil hne
  have hdd : isdigit d = true := hdig d (by rw [hD]; exact List.mem_cons_self _ _)
  have hr := isdigit_range d hdd
  have hp := plainChar d (by omega) (by omega)
  have hm : d ≠ '-' := by intro e; rw [e] at hdd; revert hdd; decide
  have hpl : d ≠ '+' := by intro e; rw [e] at hdd; revert hdd; decide
  have hI0 : INT_MIN = -2147483648 := by decide
  have hI1 : INT_MAX = 2147483647 := by decide
  unfold stoi printInt
  by_cases hn : n < 0
  · rw [if_pos hn]
    have e1 : ('-' :: Nat.toDigits 10 n.natAbs).dropWhile isspace =
        '-' :: Nat.toDigits 10 n.natAbs := by
      rw [List.dropWhile_cons_of_neg (by decide)]
    simp only [e1, readSign, htw]
    rw [if_neg hne, hval]
    simp only [if_true]
    have ev : -((n.natAbs : Nat) : Int) = n := by omega
    rw [ev, if_neg (by omega)]
  · rw [if_neg hn]
    have e1 : (Nat.toDigits 10 n.natAbs).dropWhile isspace = Nat.toDigits 10 n.natAbs := by
      rw [hD, List.dropWhile_cons_of_neg (by rw [hp.2.2.2]; decide)]
    have e2 : readSign (Nat.toDigits 10 n.natAbs) = (false, Nat.toDigits 10 n.natAbs) := by
      rw [hD]
      unfold readSign
      split
      · rename_i h; injection h with h _; exact absurd h hm
      · rename_i h; injection h with h _; exact absurd h hpl
      · rfl
    simp only [e1, e2, htw]
    rw [if_neg hne, hval]
    simp only [Bool.false_eq_true, if_false]
    have ev : ((n.natAbs : Nat) : Int) = n := by omega
    rw [ev, if_neg (by omega)]

/-! ### Lines and fields -/

theorem getline_append (d : Char) (a rest : Str) (h : d ∉ a) :
    getline d (a ++ d :: rest) = some (a, rest) := by
  induction a with
  | nil => simp [getline]
  | cons c cs ih =>
    have hc : c ≠ d := by
      intro e; exact h (by rw [e]; exact List.mem_cons_self _ _)
    have hcs : d ∉ cs := fun hm => h (List.mem_cons_of_mem _ hm)
    show getline d (c :: (cs ++ d :: rest)) = _
    unfold getline
    rw [if_neg hc, ih hcs]

theorem getline_last (d : Char) (b : Str) (h : d ∉ b) (hne : b ≠ []) :
    getline d b = some (b, []) := by
  induction b with
  | nil => exact absurd rfl hne
  | cons c cs ih =>
    have hc : c ≠ d := by
      intro e; exact h (by rw [e]; exact List.mem_cons_self _ _)
    have hcs : d ∉ cs := fun hm => h (List.mem_cons_of_mem _ hm)
    unfold getline
    rw [if_neg hc]
    cases cs with
    | nil => rfl
    | cons c2 cs2 => rw [ih hcs (by simp)]

/-- The fields of a line of two fields, the second one not empty. -/
theorem split_two (d : Char) (a b : Str) (ha : d ∉ a) (hb : d ∉ b) (hne : b ≠ []) :
    split (a ++ d :: b) d = [a, b] := by
  obtain ⟨c, cs, hcs⟩ := List.exists_cons_of_ne_nil hne
  have hlen : (a ++ d :: b).length + 1 = (a.length + cs.length) + 3 := by
    rw [hcs]; simp; omega
  unfold split
  rw [hlen]
  unfold splitLoop
  rw [getline_append d a b ha]
  simp only
  unfold splitLoop
  rw [getline_last d b hb hne]
  simp only
  unfold splitLoop
  simp [getline]

theorem readLine_append (a rest : Str) (h : '\n' ∉ a) :
    readLine (a ++ '\n' :: rest) = Except.ok (a, rest) := by
  unfold readLine
  rw [getline_append _ a rest h]

theorem cstr_of_not_mem (s : Str) (h : Char.ofNat 0 ∉ s) : cstr s = s := by
  unfold cstr
  rw [List.takeWhile_eq_self_iff]
  intro c hc
  simp only [ne_eq, decide_eq_true_eq]
  intro e
  exact h (by rw [← e]; exact hc)

theorem sprintf32_ok (text : Str) (hlen : text.length < 32) (h : Char.ofNat 0 ∉ text) :
    sprintf32 text = Except.ok text := by
  unfold sprintf32
  rw [if_pos hlen, cstr_of_not_mem text h]
/-! ### The sections of the snapshot file, written and read back -/

theorem vecGet_nat {α : Type} (v : List α) (i : Nat) (h : i < v.length) :
    vecGet v (i : Int) = Except.ok (v.get ⟨i, h⟩) := by
  rw [vecGet_ok_iff]
  refine ⟨by omega, ?_⟩
  rw [Int.toNat_ofNat]
  exact List.getElem?_eq_getElem h

/-- The polar range plot written by exportFile is read back entry by entry. -/
theorem loadPolar_exportPolar {F : Type} (M : Libm F) (P : Fmt F) (pr : List (tCoords F)) :
    ∀ (n i : Nat) (acc qs : List (tCoords F)) (rest : Str), i + n = pr.length →
      List.Forall₂ (polarReadBack M P) (pr.drop i) qs →
      ∃ t, exportPolar P pr n (i : Int) = Except.ok t ∧
        loadPolar M n (t ++ rest) acc = Except.ok (acc ++ qs, rest) := by
  intro n
  induction n with
  | zero =>
    intro i acc qs rest hlen hq
    have hd : pr.drop i = [] := List.drop_eq_nil_of_le (by omega)
    rw [hd] at hq
    cases hq
    exact ⟨[], rfl, by simp [loadPolar]⟩
  | succ n ih =>
    intro i acc qs rest hlen hq
    have hi : i < pr.length := by omega
    have hd : pr.drop i = pr.get ⟨i, hi⟩ :: pr.drop (i + 1) := List.drop_eq_getElem_cons hi
    rw [hd] at hq
    cases hq with
    | cons hpq hrest =>
    rename_i q qs1
    obtain ⟨⟨hne1, hnl1, hbar1, hz1⟩, ⟨hne2, hnl2, hbar2, hz2⟩, hlen32, hlat, hlon⟩ := hpq
    obtain ⟨t1, ht1, hl1⟩ := ih (i + 1) (acc ++ [q]) qs1 rest (by omega) hrest
    have hsp : sprintf32 (P.fixed4 (pr.get ⟨i, hi⟩).lat ++ '|' :: P.fixed4 (pr.get ⟨i, hi⟩).lon) =
        Except.ok (P.fixed4 (pr.get ⟨i, hi⟩).lat ++ '|' :: P.fixed4 (pr.get ⟨i, hi⟩).lon) := by
      apply sprintf32_ok
      · rw [List.length_append, List.length_cons]; omega
      · intro hm
        rw [List.mem_append, List.mem_cons] at hm
        rcases hm with hm | hm | hm
        · exact hz1 hm
        · revert hm; decide
        · exact hz2 hm
    have hcast : ((i : Nat) : Int) + 1 = ((i + 1 : Nat) : Int) := by push_cast; rfl
    refine ⟨(P.fixed4 (pr.get ⟨i, hi⟩).lat ++ '|' :: P.fixed4 (pr.get ⟨i, hi⟩).lon) ++ '\n' :: t1,
      ?_, ?_⟩
    · unfold exportPolar
      rw [vecGet_nat pr i hi, ok_bind, hsp, ok_bind, hcast, ht1, ok_bind]
      rfl
    · have hnl : '\n' ∉ P.fixed4 (pr.get ⟨i, hi⟩).lat ++ '|' :: P.fixed4 (pr.get ⟨i, hi⟩).lon := by
        intro hm
        rw [List.mem_append, List.mem_cons] at hm
        rcases hm with hm | hm | hm
        · exact hnl1 hm
        · revert hm; decide
        · exact hnl2 hm
      unfold loadPolar
      rw [List.append_assoc, List.cons_append, readLine_append _ _ hnl]
      simp only [ok_bind]
      rw [split_two '|' _ _ hbar1 hbar2 hne2]
      have e0 : vecGet [P.fixed4 (pr.get ⟨i, hi⟩).lat, P.fixed4 (pr.get ⟨i, hi⟩).lon] 0 =
          Except.ok (P.fixed4 (pr.get ⟨i, hi⟩).lat) := rfl
      have e1 : vecGet [P.fixed4 (pr.get ⟨i, hi⟩).lat, P.fixed4 (pr.get ⟨i, hi⟩).lon] 1 =
          Except.ok (P.fixed4 (pr.get ⟨i, hi⟩).lon) := rfl
      rw [e0, e1]
      simp only [liftFault, ok_bind, hlat, hlon, hl1, List.append_assoc, List.singleton_append]
/-- The altitude plot written by exportFile is read back bucket by bucket. -/
theorem loadAlt_exportAlt (alt : List Int) (hr : ∀ v ∈ alt, INT_MIN ≤ v ∧ v ≤ INT_MAX) :
    ∀ (n i : Nat) (acc : List Int) (rest : Str), i + n = alt.length →
      ∃ t, exportAlt alt n (i : Int) = Except.ok t ∧
        loadAlt n (t ++ rest) acc = Except.ok (acc ++ alt.drop i, rest) := by
  intro n
  induction n with
  | zero =>
    intro i acc rest hlen
    have hd : alt.drop i = [] := List.drop_eq_nil_of_le (by omega)
    rw [hd]
    exact ⟨[], rfl, by simp [loadAlt]⟩
  | succ n ih =>
    intro i acc rest hlen
    have hi : i < alt.length := by omega
    have hd : alt.drop i = alt.get ⟨i, hi⟩ :: alt.drop (i + 1) := List.drop_eq_getElem_cons hi
    obtain ⟨t1, ht1, hl1⟩ := ih (i + 1) (acc ++ [alt.get ⟨i, hi⟩]) rest (by omega)
    have hv := hr (alt.get ⟨i, hi⟩) (List.get_mem alt i hi)
    have hcast : ((i : Nat) : Int) + 1 = ((i + 1 : Nat) : Int) := by push_cast; rfl
    refine ⟨printInt (alt.get ⟨i, hi⟩) ++ '\n' :: t1, ?_, ?_⟩
    · unfold exportAlt
      rw [vecGet_nat alt i hi, ok_bind, hcast, ht1, ok_bind]
      rfl
    · unfold loadAlt
      rw [List.append_assoc, List.cons_append,
        readLine_append _ _ (printInt_plain _).2.1]
      simp only [ok_bind, stoi_printInt _ hv.1 hv.2, liftFault, hl1, hd, List.append_assoc,
        List.singleton_append]

/-- Entries assigned in key order to a std::map whose keys are all below them are
appended to it. -/
theorem foldl_mapSet_sorted {K : Type} [DecidableEq K] (lt : K → K → Bool)
    (hlt : StrictTotal lt) :
    ∀ (entries acc : List (K × Int)), sortedKeys lt (acc ++ entries) →
      entries.foldl (fun m kv => mapSet lt kv.1 kv.2 m) acc = acc ++ entries := by
  intro entries
  induction entries with
  | nil => intro acc _; simp
  | cons e rest ih =>
    intro acc hs
    rw [List.foldl_cons]
    have hall : ∀ a ∈ acc, lt a.1 e.1 = true := by
      intro a ha
      unfold sortedKeys at hs
      rw [List.pairwise_append] at hs
      exact hs.2.2 a ha e (List.mem_cons_self _ _)
    rw [mapSet_append_last lt hlt e.1 e.2 acc hall]
    have e2 : acc ++ [(e.1, e.2)] ++ rest = acc ++ e :: rest := by simp
    rw [ih (acc ++ [(e.1, e.2)]) (by rw [e2]; exact hs), e2]

/-- The heat map written by exportFile is read back entry by entry, up to the blank
line that ends the section. -/
theorem loadHeat_exportHeat :
    ∀ (entries acc : List (Int × Int)) (rest : Str),
      (∀ kv ∈ entries, INT_MIN ≤ kv.1 ∧ kv.1 ≤ INT_MAX ∧ INT_MIN ≤ kv.2 ∧ kv.2 ≤ INT_MAX) →
      ∃ t, exportHeat entries = Except.ok t ∧
        ∀ fuel, (t ++ '\n' :: rest).length < fuel →
          loadHeatLoop fuel (t ++ '\n' :: rest) acc =
            Except.ok (entries.foldl (fun m kv => mapSet intLt kv.1 kv.2 m) acc, rest) := by
  intro entries
  induction entries with
  | nil =>
    intro acc rest _
    refine ⟨[], rfl, ?_⟩
    intro fuel hf
    cases fuel with
    | zero => omega
    | succ f => simp [loadHeatLoop, getline]
  | cons e es ih =>
    intro acc rest hr
    obtain ⟨h1, h2, h3, h4⟩ := hr e (List.mem_cons_self _ _)
    obtain ⟨t1, ht1, hl1⟩ := ih (mapSet intLt e.1 e.2 acc) rest
      (fun kv hkv => hr kv (List.mem_cons_of_mem _ hkv))
    obtain ⟨hne1, hnl1, hbar1, hz1⟩ := printInt_plain e.1
    obtain ⟨hne2, hnl2, hbar2, hz2⟩ := printInt_plain e.2
    have hlen1 := printInt_length e.1 h1 h2
    have hlen2 := printInt_length e.2 h3 h4
    have hsp : sprintf32 (printInt e.1 ++ '|' :: printInt e.2) =
        Except.ok (printInt e.1 ++ '|' :: printInt e.2) := by
      apply sprintf32_ok
      · rw [List.length_append, List.length_cons]; omega
      · intro hm
        rw [List.mem_append, List.mem_cons] at hm
        rcases hm with hm | hm | hm
        · exact hz1 hm
        · revert hm; decide
        · exact hz2 hm
    have hnl : '\n' ∉ printInt e.1 ++ '|' :: printInt e.2 := by
      intro hm
      rw [List.mem_append, List.mem_cons] at hm
      rcases hm with hm | hm | hm
      · exact hnl1 hm
      · revert hm; decide
      · exact hnl2 hm
    have hline : printInt e.1 ++ '|' :: printInt e.2 ≠ [] := by simp
    refine ⟨(printInt e.1 ++ '|' :: printInt e.2) ++ '\n' :: t1, ?_, ?_⟩
    · unfold exportHeat
      rw [hsp, ok_bind, ht1, ok_bind]
      rfl
    · intro fuel hf
      cases fuel with
      | zero => omega
      | succ f =>
        have hf1 : (t1 ++ '\n' :: rest).length < f := by
          simp only [List.length_append, List.length_cons] at hf ⊢
          omega
        unfold loadHeatLoop
        rw [List.append_assoc, List.cons_append, getline_append _ _ _ hnl]
        simp only
        rw [if_neg hline, split_two '|' _ _ hbar1 hbar2 hne2]
        have e0 : vecGet [printInt e.1, printInt e.2] 0 = Except.ok (printInt e.1) := rfl
        have e1 : vecGet [printInt e.1, printInt e.2] 1 = Except.ok (printInt e.2) := rfl
        rw [e0, e1]
        simp only [liftFault, ok_bind, stoi_printInt _ h1 h2, stoi_printInt _ h3 h4, hl1 f hf1,
          List.foldl_cons]

/-- A key of three alphabetic characters is a plain text. -/
theorem alphaKey_plain (k : Str) (h : alphaKey k = true) :
    k.length = 3 ∧ '\n' ∉ k ∧ '|' ∉ k ∧ Char.ofNat 0 ∉ k := by
  unfold alphaKey at h
  rw [Bool.and_eq_true, decide_eq_true_iff, List.all_eq_true] at h
  have hc : ∀ c ∈ k, 33 ≤ c.toNat ∧ c.toNat ≠ 124 := by
    intro c hc
    have := h.2 c hc
    unfold isalpha at this
    simp only [Bool.or_eq_true, Bool.and_eq_true, decide_eq_true_eq] at this
    have hA : 'A'.toNat = 65 := by decide
    have hZ : 'Z'.toNat = 90 := by decide
    have ha : 'a'.toNat = 97 := by decide
    have hz : 'z'.toNat = 122 := by decide
    omega
  refine ⟨h.1, ?_, ?_, ?_⟩
  · intro hm; have := hc _ hm; revert this; decide
  · intro hm; have := hc _ hm; revert this; decide
  · intro hm; have := hc _ hm; revert this; decide

/-- The company plot written by exportFile is read back entry by entry, up to the
blank line that ends the section. -/
theorem loadCompany_exportCompany :
    ∀ (entries acc : List (Str × Int)) (rest : Str),
      (∀ kv ∈ entries, alphaKey kv.1 = true ∧ INT_MIN ≤ kv.2 ∧ kv.2 ≤ INT_MAX) →
      ∃ t, exportCompany entries = Except.ok t ∧
        ∀ fuel, (t ++ '\n' :: rest).length < fuel →
          loadCompanyLoop fuel (t ++ '\n' :: rest) acc =
            Except.ok (entries.foldl (fun m kv => mapSet strLt kv.1 kv.2 m) acc, rest) := by
  intro entries
  induction entries with
  | nil =>
    intro acc rest _
    refine ⟨[], rfl, ?_⟩
    intro fuel hf
    cases fuel with
    | zero => omega
    | succ f => simp [loadCompanyLoop, getline]
  | cons e es ih =>
    intro acc rest hr
    obtain ⟨hk, h3, h4⟩ := hr e (List.mem_cons_self _ _)
    obtain ⟨t1, ht1, hl1⟩ := ih (mapSet strLt e.1 e.2 acc) rest
      (fun kv hkv => hr kv (List.mem_cons_of_mem _ hkv))
    obtain ⟨hlen1, hnl1, hbar1, hz1⟩ := alphaKey_plain e.1 hk
    obtain ⟨hne2, hnl2, hbar2, hz2⟩ := printInt_plain e.2
    have hlen2 := printInt_length e.2 h3 h4
    have hsp : sprintf32 (cstr e.1 ++ '|' :: printInt e.2) =
        Except.ok (e.1 ++ '|' :: printInt e.2) := by
      rw [cstr_of_not_mem e.1 hz1]
      apply sprintf32_ok
      · rw [List.length_append, List.length_cons]; omega
      · intro hm
        rw [List.mem_append, List.mem_cons] at hm
        rcases hm with hm | hm | hm
        · exact hz1 hm
        · revert hm; decide
        · exact hz2 hm
    have hnl : '\n' ∉ e.1 ++ '|' :: printInt e.2 := by
      intro hm
      rw [List.mem_append, List.mem_cons] at hm
      rcases hm with hm | hm | hm
      · exact hnl1 hm
      · revert hm; decide
      · exact hnl2 hm
    have hline : e.1 ++ '|' :: printInt e.2 ≠ [] := by simp
    have hkey : substr0 (e.1 ++ '|' :: printInt e.2) 3 = e.1 := by
      unfold substr0
      rw [List.take_append_of_le_length (by omega), List.take_of_length_le (by omega)]
    have htail : substrFrom (e.1 ++ '|' :: printInt e.2) 4 = Except.ok (printInt e.2) := by
      unfold substrFrom
      rw [if_pos (by rw [List.length_append, List.length_cons]; omega)]
      congr 1
      have e4 : 4 = e.1.length + 1 := by omega
      rw [e4, ← List.drop_drop, List.drop_left]
      rfl
    refine ⟨(e.1 ++ '|' :: printInt e.2) ++ '\n' :: t1, ?_, ?_⟩
    · unfold exportCompany
      rw [hsp, ok_bind, ht1, ok_bind]
      rfl
    · intro fuel hf
      cases fuel with
      | zero => omega
      | succ f =>
        have hf1 : (t1 ++ '\n' :: rest).length < f := by
          simp only [List.length_append, List.length_cons] at hf ⊢
          omega
        unfold loadCompanyLoop
        rw [List.append_assoc, List.cons_append, getline_append _ _ _ hnl]
        simp only
        rw [if_neg hline, hkey, htail]
        simp only [liftFault, ok_bind, stoi_printInt _ h3 h4, hl1 f hf1, List.foldl_cons]
/-! ### The round trip of a snapshot -/

/-- The file exportFile writes for a well-formed state, at a time that an int holds
and with conversions that behave on the coordinates of the state, is loaded by the
constructor data(path): the integer aggregates are those of the state, the
timestamp is the time of the export, the flight buffer is empty, the uptime is the
time of the load, and the coordinates are the values std::stod reads back from
their texts. -/
theorem load_export {F : Type} (M : Libm F) (P : Fmt F) (now now1 : Int) (s : data F)
    (r : tCoords F) (qs : List (tCoords F)) (hv : validState s)
    (hnow0 : INT_MIN ≤ now) (hnow1 : now ≤ INT_MAX) (href : refReadBack M P s.ref r)
    (hpolar : List.Forall₂ (polarReadBack M P) s.polarRange qs) :
    ∃ text, exportFile P now true s =
        Except.ok ({ s with timestamp := now }, some text, 0) ∧
      dataLoad M now1 (some text) =
        Except.ok { timestamp := now, uptime := now1, ref := r, polarRange := qs,
                    heatMap := s.heatMap, companyPlot := s.companyPlot,
                    altPlot := s.altPlot, flightBuffer := [] } := by
  obtain ⟨hlp, hla, halt, hsh, hheat, hsc, hcomp⟩ := hv
  obtain ⟨hnlat, hnlon, hslat, hslon⟩ := href
  have hI : INT_MIN ≤ 0 ∧ (1 : Int) ≤ INT_MAX ∧ INT_MIN ≤ 1 := by decide
  obtain ⟨tc, htc, hlc⟩ := loadCompany_exportCompany s.companyPlot [] ['$']
    (fun kv hkv => ⟨(hcomp kv hkv).1, le_trans hI.2.2 (hcomp kv hkv).2.1, (hcomp kv hkv).2.2⟩)
  obtain ⟨th, hth, hlh⟩ := loadHeat_exportHeat s.heatMap [] (tc ++ '\n' :: ['$'])
    (fun kv hkv => ⟨(hheat kv hkv).1, (hheat kv hkv).2.1,
      le_trans hI.2.2 (hheat kv hkv).2.2.1, (hheat kv hkv).2.2.2⟩)
  obtain ⟨ta, hta, hlalt⟩ := loadAlt_exportAlt s.altPlot
    (fun v hv => ⟨le_trans hI.1 (halt v hv).1, (halt v hv).2⟩) 501 0 []
    ('\n' :: (th ++ '\n' :: (tc ++ '\n' :: ['$']))) (by rw [hla])
  obtain ⟨tp, htp, hlpol⟩ := loadPolar_exportPolar M P s.polarRange 360 0 [] qs
    ('\n' :: (ta ++ '\n' :: (th ++ '\n' :: (tc ++ '\n' :: ['$'])))) (by rw [hlp])
    (by rw [List.drop_zero]; exact hpolar)
  have hfh : s.heatMap.foldl (fun m kv => mapSet intLt kv.1 kv.2 m) [] = s.heatMap := by
    rw [foldl_mapSet_sorted intLt intLt_strictTotal s.heatMap [] (by simpa using hsh),
      List.nil_append]
  have hfc : s.companyPlot.foldl (fun m kv => mapSet strLt kv.1 kv.2 m) [] = s.companyPlot := by
    rw [foldl_mapSet_sorted strLt strLt_strictTotal s.companyPlot [] (by simpa using hsc),
      List.nil_append]
  have hext : exportText P now s = Except.ok
      (printInt now ++ '\n' :: (P.stream s.ref.lat ++ '\n' :: (P.stream s.ref.lon ++ '\n' ::
        (tp ++ '\n' :: (ta ++ '\n' :: (th ++ '\n' :: (tc ++ '\n' :: ['$']))))))) := by
    unfold exportText
    have c0 : ((0 : Nat) : Int) = 0 := rfl
    rw [c0] at htp hta
    rw [htp, ok_bind, hta, ok_bind, hth, ok_bind, htc, ok_bind]
    rfl
  refine ⟨printInt now ++ '\n' :: (P.stream s.ref.lat ++ '\n' :: (P.stream s.ref.lon ++ '\n' ::
        (tp ++ '\n' :: (ta ++ '\n' :: (th ++ '\n' :: (tc ++ '\n' :: ['$'])))))), ?_, ?_⟩
  · unfold exportFile
    rw [if_pos rfl, hext, ok_bind]
    rfl
  · unfold dataLoad
    simp only
    rw [readLine_append _ _ (printInt_plain now).2.1]
    simp only [ok_bind, liftFault, stoi_printInt now hnow0 hnow1]
    rw [readLine_append _ _ hnlat]
    simp only [ok_bind, liftFault, hslat]
    rw [readLine_append _ _ hnlon]
    simp only [ok_bind, liftFault, hslon]
    rw [hlpol]
    simp only [ok_bind, List.nil_append]
    have hblank : ∀ rest : Str, readLine ('\n' :: rest) = Except.ok ([], rest) := by
      intro rest
      exact readLine_append [] rest (List.not_mem_nil _)
    rw [hblank]
    simp only [ok_bind]
    rw [hlalt]
    simp only [ok_bind, List.nil_append, List.drop_zero]
    rw [hblank]
    simp only [ok_bind]
    rw [hlh _ (Nat.lt_succ_self _)]
    simp only [ok_bind]
    rw [hlc _ (Nat.lt_succ_self _)]
    simp only [ok_bind]
    have hlast : readLine ['$'] = Except.ok (['$'], []) := by decide
    rw [hlast]
    simp only [ok_bind, ne_eq, not_true_eq_false, if_false, hfh, hfc]

/-- The call std::stoi throws std::out_of_range on the text of a number above
INT_MAX. -/
theorem stoi_printInt_big (n : Int) (h : INT_MAX < n) :
    stoi (printInt n) = Except.error Fault.outOfRange := by
  obtain ⟨hne, hdig, hval, _⟩ := toDigits_spec n.natAbs
  have htw : (Nat.toDigits 10 n.natAbs).takeWhile isdigit = Nat.toDigits 10 n.natAbs := by
    rw [List.takeWhile_eq_self_iff]
    exact hdig
  obtain ⟨d, ds, hD⟩ := List.exists_cons_of_ne_nil hne
  have hdd : isdigit d = true := hdig d (by rw [hD]; exact List.mem_cons_self _ _)
  have hr := isdigit_range d hdd
  have hp := plainChar d (by omega) (by omega)
  have hm : d ≠ '-' := by intro e; rw [e] at hdd; revert hdd; decide
  have hpl : d ≠ '+' := by intro e; rw [e] at hdd; revert hdd; decide
  have hI1 : INT_MAX = 2147483647 := by decide
  have hn : ¬ n < 0 := by omega
  unfold stoi printInt
  rw [if_neg hn]
  have e1 : (Nat.toDigits 10 n.natAbs).dropWhile isspace = Nat.toDigits 10 n.natAbs := by
    rw [hD, List.dropWhile_cons_of_neg (by rw [hp.2.2.2]; decide)]
  have e2 : readSign (Nat.toDigits 10 n.natAbs) = (false, Nat.toDigits 10 n.natAbs) := by
    rw [hD]
    unfold readSign
    split
    · rename_i h; injection h with h _; exact absurd h hm
    · rename_i h; injection h with h _; exact absurd h hpl
    · rfl
  simp only [e1, e2, htw]
  rw [if_neg hne, hval]
  simp only [Bool.false_eq_true, if_false]
  have ev : ((n.natAbs : Nat) : Int) = n := by omega
  rw [ev, if_pos (Or.inr h)]

/-- The text exportFile writes starts with the line of the time of the export, and
what follows does not depend on that time. -/
theorem exportText_head {F : Type} (P : Fmt F) (now : Int) (s : data F) (t : Str)
    (h : exportText P now s = Except.ok t) :
    ∃ R, t = printInt now ++ '\n' :: R ∧
      ∀ now2, exportText P now2 s = Except.ok (printInt now2 ++ '\n' :: R) := by
  unfold exportText at h ⊢
  cases h1 : exportPolar P s.polarRange 360 0 with
  | error e => rw [h1] at h; cases h
  | ok tp =>
    cases h2 : exportAlt s.altPlot 501 0 with
    | error e => rw [h1, h2] at h; cases h
    | ok ta =>
      cases h3 : exportHeat s.heatMap with
      | error e => rw [h1, h2, h3] at h; cases h
      | ok th =>
        cases h4 : exportCompany s.companyPlot with
        | error e => rw [h1, h2, h3, h4] at h; cases h
        | ok tc =>
          rw [h1, h2, h3, h4] at h
          simp only [ok_bind] at h
          have h5 := Except.ok.inj h
          refine ⟨_, h5.symm, ?_⟩
          intro now2
          rfl

/-- The state and the text of a call of exportFile that opened its file. -/
theorem exportFile_opened {F : Type} (P : Fmt F) (now : Int) (s s1 : data F) (text : Str)
    (h : exportFile P now true s = Except.ok (s1, some text, 0)) :
    exportText P now s = Except.ok text ∧ s1 = { s with timestamp := now } := by
  unfold exportFile at h
  rw [if_pos rfl] at h
  cases ht : exportText P now s with
  | error e => rw [ht] at h; cases h
  | ok t =>
    rw [ht] at h
    simp only [ok_bind] at h
    have h5 := Except.ok.inj h
    simp only [Prod.mk.injEq, Option.some.injEq] at h5
    exact ⟨by rw [h5.2.1], h5.1.symm⟩

/-- C14 (code bug): a snapshot that exportFile writes at a time above INT_MAX, from
2038-01-19 03:14:08 UTC on, is not loaded: exportFile writes the time_t as it is and
the constructor reads it back with std::stoi, which throws std::out_of_range; whatever
the state, the constructor yields no state for the file just written. -/
theorem load_fails_on_time_above_int {F : Type} (M : Libm F) (P : Fmt F) (now now1 : Int)
    (s s1 : data F) (text : Str)
    (hexp : exportFile P now true s = Except.ok (s1, some text, 0)) (hnow : INT_MAX < now) :
    dataLoad M now1 (some text) = Except.error (LoadFailure.fault Fault.outOfRange) := by
  obtain ⟨R, hR, _⟩ := exportText_head P now s text (exportFile_opened P now s s1 text hexp).1
  rw [hR]
  unfold dataLoad
  simp only
  rw [readLine_append _ _ (printInt_plain now).2.1]
  simp only [ok_bind, stoi_printInt_big now hnow, liftFault]
  rfl

/-! ### The conversions of the real numbers, evaluated -/

/-- The rounding of printf on a real number strictly within a half of n. -/
theorem roundEvenReal_of (x : ℝ) (n : Int) (h0 : (n : ℝ) - 1 / 2 < x) (h1 : x < (n : ℝ) + 1 / 2) :
    roundEvenReal x = n := by
  unfold roundEvenReal
  by_cases hx : (n : ℝ) ≤ x
  · have hf : ⌊x⌋ = n := by
      rw [Int.floor_eq_iff]
      constructor <;> linarith
    have hfr : Int.fract x < 1 / 2 := by
      unfold Int.fract
      rw [hf]
      linarith
    rw [if_pos hfr, hf]
  · have hf : ⌊x⌋ = n - 1 := by
      rw [Int.floor_eq_iff]
      push_cast
      constructor <;> linarith
    have hfr : 1 / 2 < Int.fract x := by
      unfold Int.fract
      rw [hf]
      push_cast
      linarith
    rw [if_neg (by linarith), if_pos hfr, hf]
    omega

theorem fixedReal_zero : realFmt.fixed4 (0 : ℝ) = "0.0000".toList := by
  show fixedReal 0 = _
  unfold fixedReal
  have h : roundEvenReal (|(0 : ℝ)| * 10000) = 0 :=
    roundEvenReal_of _ 0 (by norm_num) (by norm_num)
  simp only [h, lt_irrefl, if_false]
  decide

theorem generalReal_zero : realFmt.stream (0 : ℝ) = "0".toList := by
  show generalReal 0 = _
  unfold generalReal
  rw [if_pos rfl]
  rfl

theorem stod_00000 : realLibm.stod "0.0000".toList = Except.ok 0 := by
  have h : stodParts "0.0000".toList = Except.ok (false, 0, -4) := by decide
  simp only [realLibm, h, decimalValue]
  norm_num

theorem fixedReal_3012346 :
    realFmt.fixed4 ((3012346 : ℝ) / 100000) = "30.1235".toList := by
  show fixedReal ((3012346 : ℝ) / 100000) = _
  unfold fixedReal
  have ha : |(3012346 : ℝ) / 100000| = 3012346 / 100000 := abs_of_pos (by norm_num)
  have h : roundEvenReal (|(3012346 : ℝ) / 100000| * 10000) = 301235 := by
    rw [ha]
    exact roundEvenReal_of _ 301235 (by norm_num) (by norm_num)
  have hn : ¬ ((3012346 : ℝ) / 100000 < 0) := by norm_num
  simp only [h, hn, if_false]
  decide

theorem generalReal_3012346 :
    realFmt.stream ((3012346 : ℝ) / 100000) = "30.1235".toList := by
  show generalReal ((3012346 : ℝ) / 100000) = _
  unfold generalReal
  have hx : ¬ ((3012346 : ℝ) / 100000 = 0) := by norm_num
  have ha : |(3012346 : ℝ) / 100000| = 3012346 / 100000 := abs_of_pos (by norm_num)
  have hlog : Int.log 10 ((3012346 : ℝ) / 100000) = 1 := by
    rw [Int.log_of_one_le_right _ (by norm_num)]
    have hfl : ⌊(3012346 : ℝ) / 100000⌋₊ = 30 := by
      rw [Nat.floor_eq_iff (by norm_num)]
      constructor <;> norm_num
    rw [hfl]
    have : Nat.log 10 30 = 1 := by
      rw [Nat.log_eq_iff (by decide)]
      decide
    rw [this]
    rfl
  have h : roundEvenReal ((3012346 : ℝ) / 100000 * (10 : ℝ) ^ ((5 : Int) - 1)) = 301235 := by
    have e : ((10 : ℝ) ^ ((5 : Int) - 1)) = 10000 := by norm_num
    rw [e]
    exact roundEvenReal_of _ 301235 (by norm_num) (by norm_num)
  have hn : ¬ ((3012346 : ℝ) / 100000 < 0) := by norm_num
  rw [if_neg hx]
  simp only [ha, hlog, h, hn, if_false]
  decide

theorem stod_301235 : realLibm.stod "30.1235".toList = Except.ok ((301235 : ℝ) / 10000) := by
  have h : stodParts "30.1235".toList = Except.ok (false, 301235, -4) := by decide
  simp only [realLibm, h, decimalValue]
  norm_num

/-! ### Snapshots over the real numbers -/

theorem plainText_00000 : plainText "0.0000".toList := by
  unfold plainText
  decide

theorem plainText_301235 : plainText "30.1235".toList := by
  unfold plainText
  decide

theorem polarReadBack_zero : polarReadBack realLibm realFmt { lat := 0, lon := 0 } { lat := 0, lon := 0 } := by
  unfold polarReadBack
  simp only [fixedReal_zero, stod_00000]
  exact ⟨plainText_00000, plainText_00000, by decide, trivial, trivial⟩

theorem refReadBack_zero : refReadBack realLibm realFmt { lat := 0, lon := 0 } { lat := 0, lon := 0 } := by
  unfold refReadBack
  simp only [generalReal_zero, stod_0]
  exact ⟨by decide, by decide, trivial, trivial⟩

theorem polarReadBack_3012346 :
    polarReadBack realLibm realFmt { lat := 3012346 / 100000, lon := 0 }
      { lat := 301235 / 10000, lon := 0 } := by
  unfold polarReadBack
  simp only [fixedReal_zero, stod_00000, fixedReal_3012346, stod_301235]
  exact ⟨plainText_301235, plainText_00000, by decide, trivial, trivial⟩

theorem refReadBack_3012346 :
    refReadBack realLibm realFmt { lat := 3012346 / 100000, lon := 0 }
      { lat := 301235 / 10000, lon := 0 } := by
  unfold refReadBack
  simp only [generalReal_zero, stod_0, generalReal_3012346, stod_301235]
  exact ⟨by decide, by decide, trivial, trivial⟩

theorem forall2_replicate {α β : Type} (R : α → β → Prop) (a : α) (b : β) (h : R a b) :
    ∀ n : Nat, List.Forall₂ R (List.replicate n a) (List.replicate n b) := by
  intro n
  induction n with
  | zero => exact List.Forall₂.nil
  | succ n ih => exact List.Forall₂.cons h ih

/-- The fresh state data(0, 0) over the real numbers is exported at any time. -/
theorem exportFile_fresh_zero (now : Int) :
    ∃ text, exportFile realFmt now true (dataScratch 0 0 (0 : ℝ) 0) =
      Except.ok ({ dataScratch 0 0 (0 : ℝ) 0 with timestamp := now }, some text, 0) := by
  obtain ⟨text0, h0, _⟩ := load_export realLibm realFmt 0 0 (dataScratch 0 0 (0 : ℝ) 0)
    { lat := 0, lon := 0 } (List.replicate 360 { lat := 0, lon := 0 })
    (dataScratch_valid 0 0 0 0) (by decide) (by decide) refReadBack_zero
    (forall2_replicate _ _ _ polarReadBack_zero 360)
  obtain ⟨R, _, hR⟩ := exportText_head realFmt 0 _ text0 (exportFile_opened realFmt 0 _ _ text0 h0).1
  refine ⟨printInt now ++ '\n' :: R, ?_⟩
  unfold exportFile
  rw [if_pos rfl, hR now, ok_bind]
  rfl

/-- C14 at the fresh state data(0, 0) over the real numbers, exported at the time
2147483648: the file is written and the constructor does not load it. -/
theorem load_fails_on_time_above_int_witness :
    ∃ text, exportFile realFmt 2147483648 true (dataScratch 0 0 (0 : ℝ) 0) =
        Except.ok ({ dataScratch 0 0 (0 : ℝ) 0 with timestamp := 2147483648 }, some text, 0) ∧
      dataLoad realLibm 2147483649 (some text) =
        Except.error (LoadFailure.fault Fault.outOfRange) := by
  obtain ⟨text, h⟩ := exportFile_fresh_zero 2147483648
  exact ⟨text, h, load_fails_on_time_above_int realLibm realFmt 2147483648 2147483649
    (dataScratch 0 0 (0 : ℝ) 0) _ text h (by decide)⟩

/-- C15, the counterexample: over the real numbers the fresh state data(30.12346, 0)
is exported and loaded, and neither the reference position nor the polar range plot
of the state loaded is that of the state exported: the text of 30.12346 is 30.1235
under the default formatting of a stream as under %.4f, so every latitude is read
back as 30.1235. -/
theorem coordinates_lose_digits :
    ∃ text L, exportFile realFmt 0 true (dataScratch 0 0 ((3012346 : ℝ) / 100000) 0) =
        Except.ok ({ dataScratch 0 0 ((3012346 : ℝ) / 100000) 0 with timestamp := 0 },
          some text, 0) ∧
      dataLoad realLibm 1 (some text) = Except.ok L ∧
      L.ref = { lat := 301235 / 10000, lon := 0 } ∧
      L.polarRange = List.replicate 360 { lat := 301235 / 10000, lon := 0 } ∧
      L.ref ≠ (dataScratch 0 0 ((3012346 : ℝ) / 100000) 0).ref ∧
      L.polarRange ≠ (dataScratch 0 0 ((3012346 : ℝ) / 100000) 0).polarRange := by
  obtain ⟨text, h0, h1⟩ := load_export realLibm realFmt 0 1
    (dataScratch 0 0 ((3012346 : ℝ) / 100000) 0)
    { lat := 301235 / 10000, lon := 0 } (List.replicate 360 { lat := 301235 / 10000, lon := 0 })
    (dataScratch_valid 0 0 _ 0) (by decide) (by decide) refReadBack_3012346
    (forall2_replicate _ _ _ polarReadBack_3012346 360)
  have hne : ({ lat := 301235 / 10000, lon := 0 } : tCoords ℝ) ≠
      { lat := 3012346 / 100000, lon := 0 } := by
    intro h
    have h2 := congrArg tCoords.lat h
    norm_num at h2
  refine ⟨text, _, h0, h1, rfl, rfl, hne, ?_⟩
  show List.replicate 360 ({ lat := 301235 / 10000, lon := 0 } : tCoords ℝ) ≠
    List.replicate 360 { lat := 3012346 / 100000, lon := 0 }
  intro h
  exact hne ((List.replicate_right_inj (by decide)).mp h)

/-- C15 as amended (round trip of the coordinates): a well-formed state is exported
at a time an int holds; when the texts written for its coordinates pass through the
file (no end of line in the texts of the reference position; texts of each polar
entry plain and within the buffer) and std::stod reads the reference position r and
the polar entries qs from them, the state loaded has the reference position r and
the polar range plot qs.  The coordinates loaded are those of the state exported
exactly when each of them is read back from its own text, as a value of at most
four decimals and six significant digits is. -/
theorem coordinates_read_back {F : Type} (M : Libm F) (P : Fmt F) (now now1 : Int)
    (s : data F) (r : tCoords F) (qs : List (tCoords F)) (hv : validState s)
    (hnow0 : INT_MIN ≤ now) (hnow1 : now ≤ INT_MAX) (href : refReadBack M P s.ref r)
    (hpolar : List.Forall₂ (polarReadBack M P) s.polarRange qs) :
    ∃ text L, exportFile P now true s =
        Except.ok ({ s with timestamp := now }, some text, 0) ∧
      dataLoad M now1 (some text) = Except.ok L ∧ L.ref = r ∧ L.polarRange = qs ∧
      (L.ref = s.ref ∧ L.polarRange = s.polarRange ↔ r = s.ref ∧ qs = s.polarRange) := by
  obtain ⟨text, h0, h1⟩ := load_export M P now now1 s r qs hv hnow0 hnow1 href hpolar
  exact ⟨text, _, h0, h1, rfl, rfl, Iff.rfl⟩

/-- The amended C15 at the fresh state data(0, 0) over the real numbers, whose
coordinates are read back as they are. -/
theorem coordinates_read_back_witness :
    ∃ text L, exportFile realFmt 0 true (dataScratch 0 0 (0 : ℝ) 0) =
        Except.ok ({ dataScratch 0 0 (0 : ℝ) 0 with timestamp := 0 }, some text, 0) ∧
      dataLoad realLibm 1 (some text) = Except.ok L ∧ L.ref = { lat := 0, lon := 0 } ∧
      L.polarRange = List.replicate 360 { lat := 0, lon := 0 } ∧
      (L.ref = (dataScratch 0 0 (0 : ℝ) 0).ref ∧
          L.polarRange = (dataScratch 0 0 (0 : ℝ) 0).polarRange ↔
        ({ lat := 0, lon := 0 } : tCoords ℝ) = (dataScratch 0 0 (0 : ℝ) 0).ref ∧
          List.replicate 360 ({ lat := 0, lon := 0 } : tCoords ℝ) =
            (dataScratch 0 0 (0 : ℝ) 0).polarRange) :=
  coordinates_read_back realLibm realFmt 0 1 (dataScratch 0 0 (0 : ℝ) 0)
    { lat := 0, lon := 0 } (List.replicate 360 { lat := 0, lon := 0 })
    (dataScratch_valid 0 0 0 0) (by decide) (by decide) refReadBack_zero
    (forall2_replicate _ _ _ polarReadBack_zero 360)

/-- C16 (code bug): a polar line without the separator is not the fatal error of a
missing line.  On the file 0, 0, 0, 0 the constructor reads the time and the
reference position, splits the fourth line into the single field 0 and evaluates
vec[1] outside the vector, which is undefined behaviour and not a call of
formatError; on the file that ends after a polar line 0|0 it calls formatError. -/
theorem load_without_separator_is_undefined :
    dataLoad realLibm 0 (some fileNoSeparator) =
        Except.error (LoadFailure.fault Fault.outOfBounds) ∧
      dataLoad realLibm 0 (some fileTruncated) = Except.error LoadFailure.formatError := by
  have hl1 : readLine fileNoSeparator = Except.ok ("0".toList, "0\n0\n0\n".toList) := by decide
  have hl2 : readLine "0\n0\n0\n".toList = Except.ok ("0".toList, "0\n0\n".toList) := by decide
  have hl3 : readLine "0\n0\n".toList = Except.ok ("0".toList, "0\n".toList) := by decide
  have hl4 : readLine "0\n".toList = Except.ok ("0".toList, []) := by decide
  have hm1 : readLine fileTruncated = Except.ok ("0".toList, "0\n0\n0|0\n".toList) := by decide
  have hm2 : readLine "0\n0\n0|0\n".toList = Except.ok ("0".toList, "0\n0|0\n".toList) := by decide
  have hm3 : readLine "0\n0|0\n".toList = Except.ok ("0".toList, "0|0\n".toList) := by decide
  have hm4 : readLine "0|0\n".toList = Except.ok ("0|0".toList, []) := by decide
  have hm5 : readLine [] = Except.error LoadFailure.formatError := by decide
  have hs : stoi "0".toList = Except.ok 0 := by decide
  have hsp : split "0".toList '|' = ["0".toList] := by decide
  have hsq : split "0|0".toList '|' = ["0".toList, "0".toList] := by decide
  have e0 : vecGet ["0".toList] 0 = Except.ok "0".toList := by decide
  have e1 : vecGet ["0".toList] 1 = Except.error Fault.outOfBounds := by decide
  have g0 : vecGet ["0".toList, "0".toList] 0 = Except.ok "0".toList := by decide
  have g1 : vecGet ["0".toList, "0".toList] 1 = Except.ok "0".toList := by decide
  constructor
  · have hp : loadPolar realLibm 360 "0\n".toList [] =
        Except.error (LoadFailure.fault Fault.outOfBounds) := by
      unfold loadPolar
      rw [hl4]
      simp only [ok_bind, hsp, e0, e1, liftFault, stod_0]
      rfl
    unfold dataLoad
    simp only
    rw [hl1]
    simp only [ok_bind, hs, liftFault]
    rw [hl2]
    simp only [ok_bind, stod_0, liftFault]
    rw [hl3]
    simp only [ok_bind, stod_0, liftFault]
    rw [hp]
    rfl
  · have hp : loadPolar realLibm 360 "0|0\n".toList [] =
        Except.error LoadFailure.formatError := by
      unfold loadPolar
      rw [hm4]
      simp only [ok_bind, hsq, g0, g1, liftFault, stod_0]
      unfold loadPolar
      rw [hm5]
      rfl
    unfold dataLoad
    simp only
    rw [hm1]
    simp only [ok_bind, hs, liftFault]
    rw [hm2]
    simp only [ok_bind, stod_0, liftFault]
    rw [hm3]
    simp only [ok_bind, stod_0, liftFault]
    rw [hp]
    rfl

/-! ### The distance, over the real numbers -/

/-- For latitudes in [-90, 90] the haversine term of getDistance lies in [0, 1], so
that over the real numbers both square roots are those of numbers that are not
negative. -/
theorem haversine_term_range (R P : tCoords ℝ) (hR1 : -90 ≤ R.lat) (hR2 : R.lat ≤ 90)
    (hP1 : -90 ≤ P.lat) (hP2 : P.lat ≤ 90) :
    0 ≤ Real.sin ((R.lat * (Real.pi / 180) - P.lat * (Real.pi / 180)) / 2) ^ 2 +
        Real.cos (R.lat * (Real.pi / 180)) * Real.cos (P.lat * (Real.pi / 180)) *
          Real.sin ((R.lon * (Real.pi / 180) - P.lon * (Real.pi / 180)) / 2) ^ 2 ∧
    Real.sin ((R.lat * (Real.pi / 180) - P.lat * (Real.pi / 180)) / 2) ^ 2 +
        Real.cos (R.lat * (Real.pi / 180)) * Real.cos (P.lat * (Real.pi / 180)) *
          Real.sin ((R.lon * (Real.pi / 180) - P.lon * (Real.pi / 180)) / 2) ^ 2 ≤ 1 := by
  have hpos : (0 : ℝ) < Real.pi := Real.pi_pos
  have hc1 : 0 ≤ Real.cos (R.lat * (Real.pi / 180)) := by
    apply Real.cos_nonneg_of_neg_pi_div_two_le_of_le <;> nlinarith
  have hc2 : 0 ≤ Real.cos (P.lat * (Real.pi / 180)) := by
    apply Real.cos_nonneg_of_neg_pi_div_two_le_of_le <;> nlinarith
  have hcc := mul_nonneg hc1 hc2
  have hs1 : Real.sin ((R.lon * (Real.pi / 180) - P.lon * (Real.pi / 180)) / 2) ^ 2 ≤ 1 :=
    Real.sin_sq_le_one _
  have hs0 := sq_nonneg (Real.sin ((R.lon * (Real.pi / 180) - P.lon * (Real.pi / 180)) / 2))
  have hx0 := sq_nonneg (Real.sin ((R.lat * (Real.pi / 180) - P.lat * (Real.pi / 180)) / 2))
  constructor
  · have := mul_nonneg hcc hs0
    linarith
  · have hx : Real.sin ((R.lat * (Real.pi / 180) - P.lat * (Real.pi / 180)) / 2) ^ 2 =
        1 / 2 - (Real.cos (R.lat * (Real.pi / 180)) * Real.cos (P.lat * (Real.pi / 180)) +
          Real.sin (R.lat * (Real.pi / 180)) * Real.sin (P.lat * (Real.pi / 180))) / 2 := by
      rw [Real.sin_sq, Real.cos_sq]
      have e : 2 * ((R.lat * (Real.pi / 180) - P.lat * (Real.pi / 180)) / 2) =
          R.lat * (Real.pi / 180) - P.lat * (Real.pi / 180) := by ring
      rw [e, Real.cos_sub]
      ring
    have hadd := Real.cos_le_one (R.lat * (Real.pi / 180) + P.lat * (Real.pi / 180))
    rw [Real.cos_add] at hadd
    have hle : Real.cos (R.lat * (Real.pi / 180)) * Real.cos (P.lat * (Real.pi / 180)) *
        Real.sin ((R.lon * (Real.pi / 180) - P.lon * (Real.pi / 180)) / 2) ^ 2 ≤
        Real.cos (R.lat * (Real.pi / 180)) * Real.cos (P.lat * (Real.pi / 180)) := by
      nlinarith
    rw [hx]
    linarith

theorem flushLoop_beyond (now : Int) (fuel i : Nat) (buf : List tFStamp) (counter : Int)
    (h : buf.length ≤ i) : flushLoop now fuel i buf counter = (buf, counter) := by
  cases fuel with
  | zero => rfl
  | succ n =>
    unfold flushLoop
    have hn : buf[i]? = none := by
      rw [List.getElem?_eq_none_iff]; omega
    rw [hn]

/-- The loop of flushFBuffer, started at the end of the part pre of the buffer:
pre is kept, and of the rest suf a subsequence is kept that holds every entry no
older than the timeout; the counter grows by the number of entries erased. -/
theorem flushLoop_spec (now : Int) :
    ∀ (fuel : Nat) (pre suf : List tFStamp) (counter : Int),
      ∃ tail : List tFStamp,
        (flushLoop now fuel pre.length (pre ++ suf) counter).1 = pre ++ tail ∧
        tail.Sublist suf ∧
        (suf.filter (fun st => decide (now - st.timestamp ≤ FBUFFER_TIMEOUT))).Sublist tail ∧
        (flushLoop now fuel pre.length (pre ++ suf) counter).2 =
          counter + ((suf.length : Int) - (tail.length : Int)) := by
  intro fuel
  induction fuel with
  | zero =>
    intro pre suf counter
    exact ⟨suf, rfl, List.Sublist.refl _, List.filter_sublist _, by simp [flushLoop]⟩
  | succ n ih =>
    intro pre suf counter
    cases suf with
    | nil =>
      refine ⟨[], ?_, List.Sublist.refl _, List.Sublist.refl _, ?_⟩
      · rw [flushLoop_beyond now _ _ _ _ (by simp)]
      · rw [flushLoop_beyond now _ _ _ _ (by simp)]
        simp
    | cons st rest =>
      have hget : (pre ++ st :: rest)[pre.length]? = some st := by
        rw [List.getElem?_append_right (le_refl _)]
        simp
      unfold flushLoop
      rw [hget]
      simp only
      by_cases hold : now - st.timestamp > FBUFFER_TIMEOUT
      · rw [if_pos hold]
        have herase : (pre ++ st :: rest).eraseIdx pre.length = pre ++ rest := by
          rw [List.eraseIdx_append_of_length_le (le_refl _)]
          simp
        have hfilter : (st :: rest).filter
            (fun st => decide (now - st.timestamp ≤ FBUFFER_TIMEOUT)) =
            rest.filter (fun st => decide (now - st.timestamp ≤ FBUFFER_TIMEOUT)) := by
          rw [List.filter_cons_of_neg]
          simp only [decide_eq_true_eq, not_le]
          exact hold
        rw [herase, hfilter]
        cases rest with
        | nil =>
          refine ⟨[], ?_, List.nil_sublist _, List.Sublist.refl _, ?_⟩
          · rw [flushLoop_beyond now _ _ _ _ (by simp)]
          · rw [flushLoop_beyond now _ _ _ _ (by simp)]
            simp
        | cons x rest1 =>
          obtain ⟨tail1, h1, h2, h3, h4⟩ := ih (pre ++ [x]) rest1 (counter + 1)
          have e : pre ++ x :: rest1 = (pre ++ [x]) ++ rest1 := by simp
          have el : pre.length + 1 = (pre ++ [x]).length := by simp
          rw [e, el]
          refine ⟨x :: tail1, ?_, ?_, ?_, ?_⟩
          · rw [h1]; simp
          · exact List.Sublist.cons _ (List.Sublist.cons₂ _ h2)
          · by_cases hx : now - x.timestamp ≤ FBUFFER_TIMEOUT
            · rw [List.filter_cons_of_pos (by simpa using hx)]
              exact List.Sublist.cons₂ _ h3
            · rw [List.filter_cons_of_neg (by simpa using hx)]
              exact List.Sublist.cons _ h3
          · rw [h4]
            simp only [List.length_cons]
            push_cast
            ring
      · rw [if_neg hold]
        obtain ⟨tail1, h1, h2, h3, h4⟩ := ih (pre ++ [st]) rest counter
        have e : pre ++ st :: rest = (pre ++ [st]) ++ rest := by simp
        have el : pre.length + 1 = (pre ++ [st]).length := by simp
        rw [e, el]
        refine ⟨st :: tail1, ?_, List.Sublist.cons₂ _ h2, ?_, ?_⟩
        · rw [h1]; simp
        · rw [List.filter_cons_of_pos (by simpa using hold)]
          exact List.Sublist.cons₂ _ h3
        · rw [h4]
          simp only [List.length_cons]
          push_cast
          ring

/-- C22 (flushFBuffer never removes too much and counts what it removes): for every
state and time now, the value returned is not negative and is the length of the
flight buffer before the call minus its length after; every entry with
now - timestamp ≤ 1800 is still in the buffer, as often as before; what is left is a
subsequence of the buffer before the call, so the entries left keep their order;
and nothing else of the state changes. -/
theorem flushFBuffer_keeps_recent_entries {F : Type} (now : Int) (s : data F) :
    0 ≤ (flushFBuffer now s).2 ∧
    (flushFBuffer now s).2 =
      (s.flightBuffer.length : Int) - ((flushFBuffer now s).1.flightBuffer.length : Int) ∧
    (∀ st ∈ s.flightBuffer, now - st.timestamp ≤ 1800 →
      st ∈ (flushFBuffer now s).1.flightBuffer) ∧
    (s.flightBuffer.filter (fun st => decide (now - st.timestamp ≤ 1800))).Sublist
      (flushFBuffer now s).1.flightBuffer ∧
    (flushFBuffer now s).1.flightBuffer.Sublist s.flightBuffer ∧
    (flushFBuffer now s).1 = { s with flightBuffer := (flushFBuffer now s).1.flightBuffer } := by
  obtain ⟨tail, h1, h2, h3, h4⟩ := flushLoop_spec now s.flightBuffer.length [] s.flightBuffer 0
  simp only [List.length_nil, List.nil_append] at h1 h4
  have hb : (flushFBuffer now s).1.flightBuffer = tail := h1
  have hc : (flushFBuffer now s).2 =
      0 + ((s.flightBuffer.length : Int) - (tail.length : Int)) := h4
  have hT : FBUFFER_TIMEOUT = 1800 := rfl
  rw [hT] at h3
  have hlen : tail.length ≤ s.flightBuffer.length := h2.length_le
  refine ⟨by rw [hc]; omega, by rw [hc, hb]; omega, ?_, by rw [hb]; exact h3,
    by rw [hb]; exact h2, rfl⟩
  intro st hst hfresh
  rw [hb]
  apply h3.subset
  rw [List.mem_filter]
  exact ⟨hst, by simpa using hfresh⟩

/-! ### The key of the heat map for a negative longitude -/

/-- The call std::stoi on the text of an int followed by a character that is no
digit reads the int, and throws std::out_of_range when an int cannot hold it. -/
theorem stoi_printInt_append (n : Int) (c : Char) (rest : Str) (hc : isdigit c = false) :
    stoi (printInt n ++ c :: rest) =
      if n < INT_MIN ∨ INT_MAX < n then Except.error Fault.outOfRange else Except.ok n := by
  obtain ⟨hne, hdig, hval, _⟩ := toDigits_spec n.natAbs
  have htw : (Nat.toDigits 10 n.natAbs ++ c :: rest).takeWhile isdigit =
      Nat.toDigits 10 n.natAbs := by
    rw [List.takeWhile_append_of_pos hdig, List.takeWhile_cons_of_neg (by rw [hc]; decide),
      List.append_nil]
  obtain ⟨d, ds, hD⟩ := List.exists_cons_of_ne_nil hne
  have hdd : isdigit d = true := hdig d (by rw [hD]; exact List.mem_cons_self _ _)
  have hr := isdigit_range d hdd
  have hp := plainChar d (by omega) (by omega)
  have hm : d ≠ '-' := by intro e; rw [e] at hdd; revert hdd; decide
  have hpl : d ≠ '+' := by intro e; rw [e] at hdd; revert hdd; decide
  unfold stoi printInt
  by_cases hn : n < 0
  · rw [if_pos hn]
    have e1 : ('-' :: Nat.toDigits 10 n.natAbs ++ c :: rest).dropWhile isspace =
        '-' :: (Nat.toDigits 10 n.natAbs ++ c :: rest) := by
      rw [List.cons_append, List.dropWhile_cons_of_neg (by decide)]
    simp only [e1, readSign, htw]
    rw [if_neg hne, hval]
    simp only [if_true]
    have ev : -((n.natAbs : Nat) : Int) = n := by omega
    rw [ev]
  · rw [if_neg hn]
    have e1 : (Nat.toDigits 10 n.natAbs ++ c :: rest).dropWhile isspace =
        Nat.toDigits 10 n.natAbs ++ c :: rest := by
      rw [hD, List.cons_append, List.dropWhile_cons_of_neg (by rw [hp.2.2.2]; decide)]
    have e2 : readSign (Nat.toDigits 10 n.natAbs ++ c :: rest) =
        (false, Nat.toDigits 10 n.natAbs ++ c :: rest) := by
      rw [hD, List.cons_append]
      unfold readSign
      split
      · rename_i h; injection h with h _; exact absurd h hm
      · rename_i h; injection h with h _; exact absurd h hpl
      · rfl
    simp only [e1, e2, htw]
    rw [if_neg hne, hval]
    simp only [Bool.false_eq_true, if_false]
    have ev : ((n.natAbs : Nat) : Int) = n := by omega
    rw [ev]

/-- The key of the heat map for a position whose rounded longitude * 100 is
negative: std::stoi stops at the minus sign of the longitude. -/
theorem heatKey_negative_lon {F : Type} (M : Libm F) (mPos : tCoords F) (latInt lonInt : Int)
    (hlat : castInt M (M.round (M.mul mPos.lat (M.lit 100))) = Except.ok latInt)
    (hlon : castInt M (M.round (M.mul mPos.lon (M.lit 100))) = Except.ok lonInt)
    (hneg : lonInt < 0) :
    heatKey M mPos =
      if latInt < INT_MIN ∨ INT_MAX < latInt then Except.error Fault.outOfRange
      else Except.ok latInt := by
  unfold heatKey
  rw [hlat, ok_bind, hlon, ok_bind]
  have e : printInt lonInt = '-' :: Nat.toDigits 10 lonInt.natAbs := by
    unfold printInt
    rw [if_pos hneg]
  rw [e]
  exact stoi_printInt_append latInt '-' _ (by decide)

/-- A call of processMessage that returns, on a message that reports the position
p: the key of p is computed and counted in the heat map. -/
theorem processMessage_heat {F : Type} (M : Libm F) (now : Int) (s s1 : data F)
    (message : Str) (r : Int) (p : tCoords F)
    (h : processMessage M now s message = Except.ok (r, s1))
    (hobs : observedPosition M message = some p) :
    ∃ key, heatKey M p = Except.ok key ∧
      mapCount intLt s.heatMap key = Except.ok s1.heatMap := by
  obtain ⟨f1, kind, h1, hk, hc⟩ := processMessage_cases M now s s1 message r h
  have hnot3 : kind ≠ 3 → observedPosition M message = none := by
    intro k3
    unfold observedPosition
    simp only [h1, hk]
    rw [if_neg]
    intro hcon
    simp only [Except.ok.injEq] at hcon
    exact k3 hcon
  rcases hc with ⟨k1, hc⟩ | ⟨k3, _, sp, hp, ha⟩ | ⟨_, k3, _, e⟩
  · rw [hnot3 (by rw [k1]; decide)] at hobs
    cases hobs
  · have hframe : s1.heatMap = sp.heatMap := by
      rcases updateAltitude_cases sp s1 _ ha with e | ⟨_, _, _, _, _, _, _, _, _, _, e⟩
      · rw [e]
      · rw [e]
    subst k3
    rcases updatePosition_cases M s sp _ hp with
      ⟨e, h14 | ⟨_, h15⟩⟩ | ⟨f14, f15, lat, lon, h14, n14, h15, n15, hlat, hlon, hps⟩
    · exfalso
      unfold observedPosition at hobs
      simp only [h1, hk, h14, if_true] at hobs
      cases h15 : vecGet (split message ',') 15 <;> simp [h15] at hobs
    · exfalso
      unfold observedPosition at hobs
      simp only [h1, hk, h15, if_true] at hobs
      cases h14 : vecGet (split message ',') 14 <;> simp [h14] at hobs
    · have hp2 : p = { lat := lat, lon := lon } := by
        unfold observedPosition at hobs
        simp only [h1, hk, h14, h15, if_true, hlat, hlon] at hobs
        rw [if_pos ⟨n14, n15⟩] at hobs
        exact (Option.some.inj hobs).symm
      subst hp2
      obtain ⟨polar, key, heat, _, hkey, hcount, e⟩ := positionStep_cases M s sp _ hps
      refine ⟨key, hkey, ?_⟩
      rw [hframe, e]
      exact hcount
  · rw [hnot3 k3] at hobs
    cases hobs

/-- The counting statement adds one to the count of its key and leaves the other
keys as they are. -/
theorem mapCount_find {K : Type} [DecidableEq K] (lt : K → K → Bool) (m m1 : List (K × Int))
    (k : K) (h : mapCount lt m k = Except.ok m1) :
    mapFind m1 k = some ((mapFind m k).getD 0 + 1) ∧
      ∀ k2, k2 ≠ k → mapFind m1 k2 = mapFind m k2 := by
  rcases mapCount_cases lt m m1 k h with ⟨hf, e⟩ | ⟨v, hf, _, e⟩
  · rw [e, hf]
    exact ⟨by rw [mapFind_mapSet_self]; rfl, fun k2 hne => mapFind_mapSet_ne lt k k2 1 m hne⟩
  · rw [e, hf]
    exact ⟨by rw [mapFind_mapSet_self]; rfl, fun k2 hne => mapFind_mapSet_ne lt k k2 _ m hne⟩

/-- C23 (the key of the heat map drops a negative longitude): for every
arithmetic, whenever processMessage returns on a message that reports a position
whose rounded longitude * 100 is negative, the key it computes (the text %d%d read
back by std::stoi, which stops at the minus sign of the longitude) is the rounded
latitude * 100 alone.  So two messages processed in turn, reporting positions with
the same rounded latitude * 100 and negative rounded longitudes * 100, whatever
these are, add one each to the same entry of the heat map, that of the rounded
latitude * 100, and leave every other entry as it was. -/
theorem heat_key_drops_negative_longitude {F : Type} (M : Libm F) (now1 now2 : Int)
    (s s1 s2 : data F) (m1 m2 : Str) (r1 r2 : Int) (p1 p2 : tCoords F)
    (latInt lonInt1 lonInt2 : Int)
    (hrun1 : processMessage M now1 s m1 = Except.ok (r1, s1))
    (hrun2 : processMessage M now2 s1 m2 = Except.ok (r2, s2))
    (hobs1 : observedPosition M m1 = some p1) (hobs2 : observedPosition M m2 = some p2)
    (hlat1 : castInt M (M.round (M.mul p1.lat (M.lit 100))) = Except.ok latInt)
    (hlat2 : castInt M (M.round (M.mul p2.lat (M.lit 100))) = Except.ok latInt)
    (hlon1 : castInt M (M.round (M.mul p1.lon (M.lit 100))) = Except.ok lonInt1)
    (hlon2 : castInt M (M.round (M.mul p2.lon (M.lit 100))) = Except.ok lonInt2)
    (hneg1 : lonInt1 < 0) (hneg2 : lonInt2 < 0) :
    heatKey M p1 = Except.ok latInt ∧ heatKey M p2 = Except.ok latInt ∧
    mapFind s1.heatMap latInt = some ((mapFind s.heatMap latInt).getD 0 + 1) ∧
    mapFind s2.heatMap latInt = some ((mapFind s.heatMap latInt).getD 0 + 2) ∧
    ∀ k, k ≠ latInt → mapFind s2.heatMap k = mapFind s.heatMap k := by
  obtain ⟨key1, hk1, hc1⟩ := processMessage_heat M now1 s s1 m1 r1 p1 hrun1 hobs1
  obtain ⟨key2, hk2, hc2⟩ := processMessage_heat M now2 s1 s2 m2 r2 p2 hrun2 hobs2
  have e1 := heatKey_negative_lon M p1 latInt lonInt1 hlat1 hlon1 hneg1
  have e2 := heatKey_negative_lon M p2 latInt lonInt2 hlat2 hlon2 hneg2
  have hrange : ¬ (latInt < INT_MIN ∨ INT_MAX < latInt) := by
    intro hbad
    rw [e1, if_pos hbad] at hk1
    cases hk1
  rw [if_neg hrange] at e1 e2
  have hkey1 : key1 = latInt := by
    rw [e1] at hk1
    exact (Except.ok.inj hk1).symm
  have hkey2 : key2 = latInt := by
    rw [e2] at hk2
    exact (Except.ok.inj hk2).symm
  rw [hkey1] at hc1
  rw [hkey2] at hc2
  obtain ⟨f1, g1⟩ := mapCount_find intLt s.heatMap s1.heatMap latInt hc1
  obtain ⟨f2, g2⟩ := mapCount_find intLt s1.heatMap s2.heatMap latInt hc2
  refine ⟨e1, e2, f1, ?_, ?_⟩
  · rw [f2, f1]
    simp only [Option.getD_some]
    congr 1
    ring
  · intro k hk
    rw [g2 k hk, g1 k hk]

/-! ### Two positions due west of the reference position, over the real numbers -/

theorem stod_m02 : realLibm.stod "-0.2".toList = Except.ok (-(1 / 5)) := by
  have h : stodParts "-0.2".toList = Except.ok (true, 2, -1) := by decide
  simp only [realLibm, h, decimalValue]
  norm_num

/-- Over the real numbers the bearing from (0, 0) to a position on the equator to
the west is 270 degrees. -/
theorem getBearing_due_west (lon : ℝ) (h0 : -180 ≤ lon) (h1 : lon < 0) :
    getBearing realLibm { lat := 0, lon := 0 } { lat := 0, lon := lon } = 270 := by
  have hpos : (0 : ℝ) < Real.pi := Real.pi_pos
  have ht0 : Real.tan (0 * (Real.pi / 180) / 2 + Real.pi / 4) = 1 := by
    rw [← Real.tan_pi_div_four]
    congr 1; ring
  have hd : lon * (Real.pi / 180) - 0 * (Real.pi / 180) = lon * (Real.pi / 180) := by ring
  have hdneg : lon * (Real.pi / 180) < 0 := by
    apply mul_neg_of_neg_of_pos h1
    positivity
  have hn : normDeltaLon realLibm (lon * (Real.pi / 180) - 0 * (Real.pi / 180)) =
      lon * (Real.pi / 180) := by
    rw [hd]
    apply normDeltaLon_small
    rw [abs_of_neg hdneg]
    nlinarith
  have harg : Complex.arg ⟨0, lon * (Real.pi / 180)⟩ = -(Real.pi / 2) := by
    rw [Complex.arg_eq_neg_pi_div_two_iff]
    exact ⟨rfl, hdneg⟩
  have hval : -(Real.pi / 2) * (180 / Real.pi) + 360 = 270 := by
    field_simp
    ring
  have htr : truncReal ((270 : ℝ) / 360) = 0 := by
    apply truncReal_of_nonneg _ 0 (by decide) <;> norm_num
  unfold getBearing toDegrees toRadians
  simp only [realLibm] at hn ⊢
  simp only [Rat.cast_ofNat]
  rw [ht0, hn, div_one, Real.log_one, harg, hval, htr]
  norm_num

/-- An airborne position message without altitude that reports a position due west
of the reference position (0, 0) on the equator is processed over the real numbers
on every state with the 360 slots of the polar range plot: the key 0 of the heat map
is counted. -/
theorem processMessage_due_west (now : Int) (s : data ℝ) (message f15 : Str) (lon : ℝ)
    (lonInt : Int) (href : s.ref = { lat := 0, lon := 0 }) (hlen : s.polarRange.length = 360)
    (e1 : vecGet (split message ',') 1 = Except.ok "3".toList)
    (e14 : vecGet (split message ',') 14 = Except.ok "0".toList)
    (e15 : vecGet (split message ',') 15 = Except.ok f15) (n15 : f15 ≠ [])
    (e11 : vecGet (split message ',') 11 = Except.ok [])
    (hlon : realLibm.stod f15 = Except.ok lon) (h0 : -180 ≤ lon) (h1 : lon < 0)
    (hint : lon * 100 = (lonInt : ℝ)) (hov : ∀ v, mapFind s.heatMap 0 = some v → v < INT_MAX) :
    ∃ s1, processMessage realLibm now s message = Except.ok (3, s1) ∧
      observedPosition realLibm message = some { lat := 0, lon := lon } ∧
      castInt realLibm (realLibm.round (realLibm.mul 0 (realLibm.lit 100))) = Except.ok 0 ∧
      castInt realLibm (realLibm.round (realLibm.mul lon (realLibm.lit 100))) =
        Except.ok lonInt ∧
      lonInt < 0 ∧ s1.ref = s.ref ∧ s1.polarRange.length = 360 ∧
      s1.heatMap = mapSet intLt 0 ((mapFind s.heatMap 0).getD 0 + 1) s.heatMap := by
  have ek : stoi "3".toList = Except.ok 3 := by decide
  have hI0 : INT_MIN = -2147483648 := by decide
  have hI1 : INT_MAX = 2147483647 := by decide
  have hlneg : lonInt < 0 := by
    have : (lonInt : ℝ) < 0 := by rw [← hint]; linarith
    exact_mod_cast this
  have hlge : -18000 ≤ lonInt := by
    have : (-18000 : ℝ) ≤ (lonInt : ℝ) := by rw [← hint]; linarith
    exact_mod_cast this
  have hclat : castInt realLibm (realLibm.round (realLibm.mul 0 (realLibm.lit 100))) =
      Except.ok 0 :=
    castInt_round_mul100_int 0 0 (by norm_num) (by decide) (by decide)
  have hclon : castInt realLibm (realLibm.round (realLibm.mul lon (realLibm.lit 100))) =
      Except.ok lonInt :=
    castInt_round_mul100_int lon lonInt hint (by omega) (by omega)
  have hkey : heatKey realLibm { lat := 0, lon := lon } = Except.ok 0 := by
    rw [heatKey_negative_lon realLibm { lat := 0, lon := lon } 0 lonInt hclat hclon hlneg]
    rfl
  have hb : getBearing realLibm s.ref { lat := 0, lon := lon } = 270 := by
    rw [href]
    exact getBearing_due_west lon h0 h1
  obtain ⟨polar, hpolar⟩ := polarStep_real_ok s { lat := 0, lon := lon } hlen
    (by rw [hb]; norm_num) (by rw [hb]; norm_num)
  have hplen : polar.length = 360 := by
    obtain ⟨bearing, maxPos, _, _, hcase⟩ := polarStep_cases realLibm s _ _ hpolar
    rcases hcase with ⟨_, e⟩ | ⟨_, e⟩
    · rw [e, List.length_set, hlen]
    · rw [e, hlen]
  have hposn : updatePosition realLibm s (split message ',') =
      Except.ok { s with polarRange := polar,
                         heatMap := mapSet intLt 0 ((mapFind s.heatMap 0).getD 0 + 1) s.heatMap } := by
    rw [updatePosition_eq realLibm _ _ _ _ _ _ e14 (by decide) e15 n15 stod_0 hlon]
    unfold positionStep
    rw [hpolar, ok_bind, hkey, ok_bind, mapCount_ok intLt s.heatMap 0 hov, ok_bind]
    rfl
  refine ⟨{ s with polarRange := polar,
                   heatMap := mapSet intLt 0 ((mapFind s.heatMap 0).getD 0 + 1) s.heatMap },
    ?_, ?_, hclat, hclon, hlneg, rfl, hplen, rfl⟩
  · rw [processMessage_kind realLibm now _ _ _ 3 e1 ek, if_neg (by decide), if_pos rfl, hposn,
      ok_bind]
    unfold updateAltitude
    rw [e11, ok_bind]
    rfl
  · unfold observedPosition
    simp only [e1, ek, e14, e15, if_true]
    rw [if_pos ⟨by decide, n15⟩, stod_0, hlon]

/-- C23 at the messages reporting (0, -0.1) and then (0, -0.2), over the real
numbers from the fresh state data(0, 0): the rounded longitudes * 100 are -10 and
-20, both keys are 0 and the entry 0 of the heat map counts both messages. -/
theorem heat_key_drops_negative_longitude_witness :
    ∃ s1 s2 : data ℝ,
      processMessage realLibm 1 (dataScratch 0 0 (0 : ℝ) 0) msgWest1 = Except.ok (3, s1) ∧
      processMessage realLibm 2 s1 msgWest2 = Except.ok (3, s2) ∧
      castInt realLibm (realLibm.round (realLibm.mul (-(1 / 10)) (realLibm.lit 100))) =
        Except.ok (-10) ∧
      castInt realLibm (realLibm.round (realLibm.mul (-(1 / 5)) (realLibm.lit 100))) =
        Except.ok (-20) ∧
      (heatKey realLibm { lat := 0, lon := -(1 / 10) } = Except.ok 0 ∧
        heatKey realLibm { lat := 0, lon := -(1 / 5) } = Except.ok 0 ∧
        mapFind s1.heatMap 0 =
          some ((mapFind (dataScratch 0 0 (0 : ℝ) 0).heatMap 0).getD 0 + 1) ∧
        mapFind s2.heatMap 0 =
          some ((mapFind (dataScratch 0 0 (0 : ℝ) 0).heatMap 0).getD 0 + 2) ∧
        ∀ k, k ≠ 0 → mapFind s2.heatMap k = mapFind (dataScratch 0 0 (0 : ℝ) 0).heatMap k) := by
  obtain ⟨s1, hrun1, hobs1, hlat1, hlon1, hneg1, href1, hlen1, hheat1⟩ :=
    processMessage_due_west 1 (dataScratch 0 0 (0 : ℝ) 0) msgWest1 "-0.1".toList (-(1 / 10))
      (-10) rfl (dataScratch_polarRange_length 0 0 0 0) (by decide) (by decide) (by decide)
      (by decide) (by decide) stod_m01 (by norm_num) (by norm_num) (by norm_num)
      (by intro v hv; cases hv)
  obtain ⟨s2, hrun2, hobs2, hlat2, hlon2, hneg2, _, _, _⟩ :=
    processMessage_due_west 2 s1 msgWest2 "-0.2".toList (-(1 / 5))
      (-20) href1 hlen1 (by decide) (by decide) (by decide)
      (by decide) (by decide) stod_m02 (by norm_num) (by norm_num) (by norm_num)
      (by
        intro v hv
        rw [hheat1] at hv
        have : mapFind (mapSet intLt 0 ((mapFind (dataScratch 0 0 (0 : ℝ) 0).heatMap 0).getD 0 + 1)
            (dataScratch 0 0 (0 : ℝ) 0).heatMap) 0 = some 1 := rfl
        rw [this] at hv
        rw [← Option.some.inj hv]
        decide)
  exact ⟨s1, s2, hrun1, hrun2, hlon1, hlon2,
    heat_key_drops_negative_longitude realLibm 1 2 (dataScratch 0 0 (0 : ℝ) 0) s1 s2
      msgWest1 msgWest2 3 3 { lat := 0, lon := -(1 / 10) } { lat := 0, lon := -(1 / 5) }
      0 (-10) (-20) hrun1 hrun2 hobs1 hobs2 hlat1 hlat2 hlon1 hlon2 hneg1 hneg2⟩

/-! ### The polar range plot under the comparison of double -/

/-- One call of processMessage keeps the reference position and the length of the
polar range plot. -/
theorem processMessage_ref_length {F : Type} (M : Libm F) (now : Int) (s s1 : data F)
    (message : Str) (r : Int) (h : processMessage M now s message = Except.ok (r, s1)) :
    s1.ref = s.ref ∧ s1.polarRange.length = s.polarRange.length := by
  obtain ⟨f1, kind, _, _, hc⟩ := processMessage_cases M now s s1 message r h
  rcases hc with ⟨_, hc⟩ | ⟨_, _, sp, hp, ha⟩ | ⟨_, _, _, e⟩
  · rcases (caseId_cases now s _ r s1 hc).2 with e | ⟨_, _, _, _, _, _, _, e⟩
    · subst e; exact ⟨rfl, rfl⟩
    · subst e; exact ⟨rfl, rfl⟩
  · have hframe : s1.ref = sp.ref ∧ s1.polarRange = sp.polarRange := by
      rcases updateAltitude_cases sp s1 _ ha with e | ⟨_, _, _, _, _, _, _, _, _, _, e⟩
      · subst e; exact ⟨rfl, rfl⟩
      · subst e; exact ⟨rfl, rfl⟩
    rw [hframe.1, hframe.2]
    rcases updatePosition_cases M s sp _ hp with ⟨e, _⟩ | ⟨_, _, lat, lon, _, _, _, _, _, _, hps⟩
    · subst e; exact ⟨rfl, rfl⟩
    · obtain ⟨polar, key, heat, hpol, _, _, e⟩ := positionStep_cases M s sp _ hps
      subst e
      obtain ⟨bearing, maxPos, _, _, hcase⟩ := polarStep_cases M s _ polar hpol
      rcases hcase with ⟨_, e⟩ | ⟨_, e⟩
      · subst e; exact ⟨rfl, by simp⟩
      · subst e; exact ⟨rfl, rfl⟩
  · subst e; exact ⟨rfl, rfl⟩

/-- One call of processMessage, seen from one slot of the polar range plot: either
the message reports a position of that slot that compares greater in distance than
the position the slot holds, and the slot takes it; or the slot keeps its position,
and a position of that slot the message reports does not compare greater. -/
theorem processMessage_polar_slot {F : Type} (M : Libm F) (now : Int) (s s1 : data F)
    (message : Str) (r : Int) (h : processMessage M now s message = Except.ok (r, s1))
    (i : Int) (q0 : tCoords F) (hq0 : vecGet s.polarRange i = Except.ok q0) :
    (∃ p, observedPosition M message = some p ∧
      castInt M (M.round (getBearing M s.ref p)) = Except.ok i ∧
      M.gt (getDistance M s.ref p) (getDistance M s.ref q0) = true ∧
      vecGet s1.polarRange i = Except.ok p) ∨
    (vecGet s1.polarRange i = Except.ok q0 ∧
      ∀ p, observedPosition M message = some p →
        castInt M (M.round (getBearing M s.ref p)) = Except.ok i →
        M.gt (getDistance M s.ref p) (getDistance M s.ref q0) = false) := by
  rcases processMessage_observed M now s s1 message r h with ⟨hnone, e⟩ | ⟨p, hobs, hpol⟩
  · refine Or.inr ⟨by rw [e]; exact hq0, ?_⟩
    intro p hp
    rw [hnone] at hp
    cases hp
  · obtain ⟨bearing, maxPos, hb, hmax, hcase⟩ := polarStep_cases M s p _ hpol
    by_cases hi : bearing = i
    · subst hi
      have hqm : maxPos = q0 := by
        rw [hq0] at hmax
        simp only [Except.ok.injEq] at hmax
        exact hmax.symm
      subst hqm
      rcases hcase with ⟨hg, e⟩ | ⟨hg, e⟩
      · refine Or.inl ⟨p, hobs, hb, hg, ?_⟩
        rw [e, vecGet_ok_iff]
        rw [vecGet_ok_iff] at hq0
        have hlen : bearing.toNat < s.polarRange.length :=
          (List.getElem?_eq_some_iff.mp hq0.2).1
        exact ⟨hq0.1, by simp [hlen]⟩
      · refine Or.inr ⟨by rw [e]; exact hq0, ?_⟩
        intro p2 hp2 _
        rw [hobs] at hp2
        simp only [Option.some.injEq] at hp2
        subst hp2
        exact hg
    · have hkeep : vecGet s1.polarRange i = Except.ok q0 := by
        rcases hcase with ⟨_, e⟩ | ⟨_, e⟩
        · rw [e, vecGet_ok_iff]
          rw [vecGet_ok_iff] at hq0 hmax
          refine ⟨hq0.1, ?_⟩
          have hne : bearing.toNat ≠ i.toNat := by
            intro hcon
            apply hi
            have h1 := hq0.1
            have h2 := hmax.1
            omega
          rw [List.getElem?_set_ne hne]
          exact hq0.2
        · rw [e]; exact hq0
      refine Or.inr ⟨hkeep, ?_⟩
      intro p2 hp2 hb2
      rw [hobs] at hp2
      simp only [Option.some.injEq] at hp2
      subst hp2
      rw [hb] at hb2
      simp only [Except.ok.injEq] at hb2
      exact absurd hb2 hi

/-- A run of processMessage, seen from one slot of the polar range plot that held
q0, at a distance that is a number, at the start.  The slot ends with a position
whose distance is a number: either q0, and then no position of that slot reported
during the run compares greater in distance than q0; or the position q reported by
a message of the run, which compares greater than q0 and than every position of
the slot reported before it whose distance is a number, and no position of the
slot reported after it compares greater than q. -/
theorem processAll_polar_slot {F : Type} (M : Libm F) {L : Type} [LinearOrder L]
    (val : F → Option L) (hval : gtByValue M val) :
    ∀ (msgs : List (Int × Str)) (s0 s : data F), processAll M s0 msgs = Except.ok s →
      ∀ (i : Int) (q0 : tCoords F), vecGet s0.polarRange i = Except.ok q0 →
        val (getDistance M s0.ref q0) ≠ none →
        ∃ q, vecGet s.polarRange i = Except.ok q ∧ val (getDistance M s0.ref q) ≠ none ∧
          ((q = q0 ∧ ∀ m ∈ msgs, ∀ p, observedPosition M m.2 = some p →
              castInt M (M.round (getBearing M s0.ref p)) = Except.ok i →
              M.gt (getDistance M s0.ref p) (getDistance M s0.ref q0) = false) ∨
           (∃ pre m post, msgs = pre ++ m :: post ∧ observedPosition M m.2 = some q ∧
              castInt M (M.round (getBearing M s0.ref q)) = Except.ok i ∧
              M.gt (getDistance M s0.ref q) (getDistance M s0.ref q0) = true ∧
              (∀ m1 ∈ pre, ∀ p, observedPosition M m1.2 = some p →
                castInt M (M.round (getBearing M s0.ref p)) = Except.ok i →
                M.gt (getDistance M s0.ref q) (getDistance M s0.ref p) = true ∨
                  val (getDistance M s0.ref p) = none) ∧
              (∀ m1 ∈ post, ∀ p, observedPosition M m1.2 = some p →
                castInt M (M.round (getBearing M s0.ref p)) = Except.ok i →
                M.gt (getDistance M s0.ref p) (getDistance M s0.ref q) = false))) := by
  intro msgs
  induction msgs with
  | nil =>
    intro s0 s h i q0 hq0 hn0
    simp only [processAll, Except.ok.injEq] at h
    subst h
    refine ⟨q0, hq0, hn0, Or.inl ⟨rfl, ?_⟩⟩
    intro m hm
    exact absurd hm (List.not_mem_nil m)
  | cons m0 rest ih =>
    intro s0 s h i q0 hq0 hn0
    obtain ⟨now, message⟩ := m0
    unfold processAll at h
    cases hp : processMessage M now s0 message with
    | error e => rw [hp] at h; cases h
    | ok r =>
      rw [hp] at h
      obtain ⟨r1, s1⟩ := r
      have href1 : s1.ref = s0.ref := (processMessage_ref_length M now s0 s1 message r1 hp).1
      rcases processMessage_polar_slot M now s0 s1 message r1 hp i q0 hq0 with
        ⟨p0, hobs0, hb0, hd0, hq1⟩ | ⟨hq1, hle0⟩
      · obtain ⟨a0, c0, ha0, hc0, hlt0⟩ := (hval _ _).mp hd0
        have hnp0 : val (getDistance M s1.ref p0) ≠ none := by
          rw [href1, ha0]; exact Option.some_ne_none a0
        obtain ⟨q, hq, hnq, hcase⟩ := ih s1 s h i p0 hq1 hnp0
        rw [href1] at hcase hnq
        refine ⟨q, hq, hnq, Or.inr ?_⟩
        rcases hcase with ⟨e, hall⟩ | ⟨pre, m, post, hsplit, hobs, hb, hd, hpre, hpost⟩
        · subst e
          exact ⟨[], (now, message), rest, rfl, hobs0, hb0, hd0,
            fun m1 hm1 => absurd hm1 (List.not_mem_nil m1), hall⟩
        · have htrans : M.gt (getDistance M s0.ref q) (getDistance M s0.ref q0) = true := by
            obtain ⟨b, a1, hb1, ha1, hlt1⟩ := (hval _ _).mp hd
            rw [ha0] at ha1
            have e := Option.some.inj ha1
            subst e
            exact (hval _ _).mpr ⟨b, c0, hb1, hc0, lt_trans hlt0 hlt1⟩
          refine ⟨(now, message) :: pre, m, post, by rw [hsplit]; rfl, hobs, hb, htrans, ?_,
            hpost⟩
          intro m1 hm1 p hp1 hb1
          rcases List.mem_cons.mp hm1 with e | hm1
          · subst e
            rw [hobs0] at hp1
            simp only [Option.some.injEq] at hp1
            subst hp1
            exact Or.inl hd
          · exact hpre m1 hm1 p hp1 hb1
      · have hn1 : val (getDistance M s1.ref q0) ≠ none := by rw [href1]; exact hn0
        obtain ⟨q, hq, hnq, hcase⟩ := ih s1 s h i q0 hq1 hn1
        rw [href1] at hcase hnq
        refine ⟨q, hq, hnq, ?_⟩
        rcases hcase with ⟨e, hall⟩ | ⟨pre, m, post, hsplit, hobs, hb, hd, hpre, hpost⟩
        · refine Or.inl ⟨e, ?_⟩
          intro m1 hm1 p hp1 hb1
          rcases List.mem_cons.mp hm1 with e1 | hm1
          · subst e1
            exact hle0 p hp1 hb1
          · exact hall m1 hm1 p hp1 hb1
        · refine Or.inr ⟨(now, message) :: pre, m, post, by rw [hsplit]; rfl, hobs, hb, hd,
            ?_, hpost⟩
          intro m1 hm1 p hp1 hb1
          rcases List.mem_cons.mp hm1 with e1 | hm1
          · subst e1
            have hf := hle0 p hp1 hb1
            cases hvp : val (getDistance M s0.ref p) with
            | none => exact Or.inr rfl
            | some a =>
              obtain ⟨b, c, hb2, hc2, hlt⟩ := (hval _ _).mp hd
              refine Or.inl ((hval _ _).mpr ⟨b, a, hb2, hvp, ?_⟩)
              have hnot : ¬ (c < a) := by
                intro hcon
                have := (hval _ _).mpr ⟨a, c, hvp, hc2, hcon⟩
                rw [this] at hf
                cases hf
              exact lt_of_le_of_lt (not_lt.mp hnot) hlt
          · exact hpre m1 hm1 p hp1 hb1

/-- A run of processMessage keeps the reference position and the length of the polar
range plot, and every position reported during the run has a rounded bearing that
is a slot of the plot. -/
theorem processAll_slot_exists {F : Type} (M : Libm F) :
    ∀ (msgs : List (Int × Str)) (s0 s : data F), processAll M s0 msgs = Except.ok s →
      s.ref = s0.ref ∧ s.polarRange.length = s0.polarRange.length ∧
      ∀ m ∈ msgs, ∀ p, observedPosition M m.2 = some p →
        ∃ i, castInt M (M.round (getBearing M s0.ref p)) = Except.ok i ∧
          0 ≤ i ∧ i < (s0.polarRange.length : Int) := by
  intro msgs
  induction msgs with
  | nil =>
    intro s0 s h
    simp only [processAll, Except.ok.injEq] at h
    subst h
    exact ⟨rfl, rfl, fun m hm => absurd hm (List.not_mem_nil m)⟩
  | cons m0 rest ih =>
    intro s0 s h
    obtain ⟨now, message⟩ := m0
    unfold processAll at h
    cases hp : processMessage M now s0 message with
    | error e => rw [hp] at h; cases h
    | ok r =>
      rw [hp] at h
      obtain ⟨r1, s1⟩ := r
      obtain ⟨href1, hlen1⟩ := processMessage_ref_length M now s0 s1 message r1 hp
      obtain ⟨href, hlen, hall⟩ := ih s1 s h
      rw [href1, hlen1] at hall
      refine ⟨by rw [href, href1], by rw [hlen, hlen1], ?_⟩
      intro m hm p hobs
      rcases List.mem_cons.mp hm with e | hm
      · subst e
        rcases processMessage_observed M now s0 s1 message r1 hp with ⟨hnone, _⟩ | ⟨p1, hobs1, hpol⟩
        · rw [hnone] at hobs
          cases hobs
        · rw [hobs] at hobs1
          simp only [Option.some.injEq] at hobs1
          subst hobs1
          obtain ⟨bearing, maxPos, hb, hmax, _⟩ := polarStep_cases M s0 p _ hpol
          exact ⟨bearing, hb, vecGet_lt_length _ _ _ hmax⟩
      · exact hall m hm p hobs

/-- C11 as amended (polar range, first maximum), under the comparison of double
(val gives the value of a double and none for a NaN).  After any sequence of
messages that processMessage runs through from the fresh state data(lat, lon),
whose reference position is at a distance from itself that is a number, every slot
i of the polar range plot holds a position q at a distance that is a number, and
either q is the reference position and no position of slot i reported by the
sequence compares farther than it; or q is reported by a message of the sequence
with rounded bearing i, compares farther than the reference position and than
every position of slot i reported before it whose distance is a number, and no
position of slot i reported after it compares farther than q: of the positions at
the greatest distance the one seen first is the one stored, and a position whose
distance is a NaN is never stored. -/
theorem polar_range_first_maximum {F : Type} (M : Libm F) {L : Type} [LinearOrder L]
    (val : F → Option L) (hval : gtByValue M val) (now0 uninit : Int) (lat lon : F)
    (msgs : List (Int × Str)) (s : data F)
    (hrun : processAll M (dataScratch now0 uninit lat lon) msgs = Except.ok s)
    (hnum : val (getDistance M { lat := lat, lon := lon } { lat := lat, lon := lon }) ≠ none)
    (i : Int) (h0 : 0 ≤ i) (h360 : i < 360) :
    ∃ q, vecGet s.polarRange i = Except.ok q ∧
      val (getDistance M { lat := lat, lon := lon } q) ≠ none ∧
      ((q = { lat := lat, lon := lon } ∧
          ∀ m ∈ msgs, ∀ p, observedPosition M m.2 = some p →
            castInt M (M.round (getBearing M { lat := lat, lon := lon } p)) = Except.ok i →
            M.gt (getDistance M { lat := lat, lon := lon } p)
              (getDistance M { lat := lat, lon := lon } { lat := lat, lon := lon }) = false) ∨
       (∃ pre m post, msgs = pre ++ m :: post ∧ observedPosition M m.2 = some q ∧
          castInt M (M.round (getBearing M { lat := lat, lon := lon } q)) = Except.ok i ∧
          M.gt (getDistance M { lat := lat, lon := lon } q)
            (getDistance M { lat := lat, lon := lon } { lat := lat, lon := lon }) = true ∧
          (∀ m1 ∈ pre, ∀ p, observedPosition M m1.2 = some p →
            castInt M (M.round (getBearing M { lat := lat, lon := lon } p)) = Except.ok i →
            M.gt (getDistance M { lat := lat, lon := lon } q)
                (getDistance M { lat := lat, lon := lon } p) = true ∨
              val (getDistance M { lat := lat, lon := lon } p) = none) ∧
          (∀ m1 ∈ post, ∀ p, observedPosition M m1.2 = some p →
            castInt M (M.round (getBearing M { lat := lat, lon := lon } p)) = Except.ok i →
            M.gt (getDistance M { lat := lat, lon := lon } p)
              (getDistance M { lat := lat, lon := lon } q) = false))) := by
  have hq0 : vecGet (dataScratch now0 uninit lat lon).polarRange i =
      Except.ok { lat := lat, lon := lon } := by
    rw [vecGet_ok_iff]
    refine ⟨h0, ?_⟩
    show (List.replicate 360 ({ lat := lat, lon := lon } : tCoords F))[i.toNat]? = _
    rw [List.getElem?_replicate, if_pos (by omega)]
  exact processAll_polar_slot M val hval msgs _ s hrun i _ hq0 hnum

/-- The comparison of the real numbers is that of double on numbers: every real
number is its own value. -/
theorem realLibm_gtByValue : gtByValue realLibm (fun x : ℝ => some x) := by
  intro x y
  rw [realLibm_gt]
  constructor
  · intro h
    exact ⟨x, y, rfl, rfl, h⟩
  · rintro ⟨a, b, ha, hb, h⟩
    have ea : x = a := Option.some.inj ha
    have eb : y = b := Option.some.inj hb
    rw [ea, eb]
    exact h

/-- Under the comparison of double, a number that does not compare greater than
another number is at most that number. -/
theorem le_of_gt_false {F : Type} (M : Libm F) {L : Type} [LinearOrder L]
    (val : F → Option L) (hval : gtByValue M val) (x y : F) (a b : L)
    (hx : val x = some a) (hy : val y = some b) (h : M.gt x y = false) : a ≤ b := by
  apply not_lt.mp
  intro hcon
  rw [(hval x y).mpr ⟨a, b, hx, hy, hcon⟩] at h
  cases h

/-- C10 (code bug), under the comparison of double (val gives the value of a double
and none for a NaN).  After any sequence of messages that processMessage runs
through from the fresh state data(lat, lon), whose reference position is at a
distance from itself that is a number, the plot has 360 slots around the same
reference position; every position p reported by a message of the sequence has a
rounded bearing i in 0..359, and the position q that slot i holds satisfies
distance(ref, q) >= distance(ref, p) exactly when the distance of p is a number: a
position whose distance is a NaN is never stored and compares false with what the
slot holds; and every slot holds, at a distance that is a number, the reference
position or a position that compares farther than it. -/
theorem polar_range_maximal_unless_nan {F : Type} (M : Libm F) {L : Type} [LinearOrder L]
    (val : F → Option L) (hval : gtByValue M val) (now0 uninit : Int) (lat lon : F)
    (msgs : List (Int × Str)) (s : data F)
    (hrun : processAll M (dataScratch now0 uninit lat lon) msgs = Except.ok s)
    (hnum : val (getDistance M { lat := lat, lon := lon } { lat := lat, lon := lon }) ≠ none) :
    s.ref = { lat := lat, lon := lon } ∧ s.polarRange.length = 360 ∧
    (∀ m ∈ msgs, ∀ p, observedPosition M m.2 = some p →
      ∃ i q, castInt M (M.round (getBearing M { lat := lat, lon := lon } p)) = Except.ok i ∧
        0 ≤ i ∧ i < 360 ∧ vecGet s.polarRange i = Except.ok q ∧
        (geByValue val (getDistance M { lat := lat, lon := lon } q)
            (getDistance M { lat := lat, lon := lon } p) ↔
          val (getDistance M { lat := lat, lon := lon } p) ≠ none)) ∧
    (∀ (i : Int) (q : tCoords F), vecGet s.polarRange i = Except.ok q →
      val (getDistance M { lat := lat, lon := lon } q) ≠ none ∧
      (q = { lat := lat, lon := lon } ∨
        M.gt (getDistance M { lat := lat, lon := lon } q)
          (getDistance M { lat := lat, lon := lon } { lat := lat, lon := lon }) = true)) := by
  obtain ⟨href, hlen, hex⟩ := processAll_slot_exists M msgs _ s hrun
  have hlen360 : s.polarRange.length = 360 := by
    rw [hlen]; exact dataScratch_polarRange_length now0 uninit lat lon
  have href0 : (dataScratch now0 uninit lat lon).ref = { lat := lat, lon := lon } := rfl
  have hl0 : (dataScratch now0 uninit lat lon).polarRange.length = 360 :=
    dataScratch_polarRange_length now0 uninit lat lon
  rw [href0] at href hex
  rw [hl0] at hex
  have hslot : ∀ i : Int, 0 ≤ i → i < 360 →
      vecGet (dataScratch now0 uninit lat lon).polarRange i =
        Except.ok { lat := lat, lon := lon } := by
    intro i h0 h360
    rw [vecGet_ok_iff]
    refine ⟨h0, ?_⟩
    show (List.replicate 360 ({ lat := lat, lon := lon } : tCoords F))[i.toNat]? = _
    rw [List.getElem?_replicate, if_pos (by omega)]
  refine ⟨href, hlen360, ?_, ?_⟩
  · intro m hm p hobs
    obtain ⟨i, hb, hi0, hi1⟩ := hex m hm p hobs
    have hi360 : i < 360 := by exact_mod_cast hi1
    obtain ⟨q, hq, hnq, hcase⟩ :=
      processAll_polar_slot M val hval msgs _ s hrun i _ (hslot i hi0 hi360) hnum
    rw [href0] at hnq hcase
    refine ⟨i, q, hb, hi0, hi360, hq, ?_⟩
    constructor
    · rintro ⟨a, b, _, hb2, _⟩
      rw [hb2]
      exact Option.some_ne_none b
    · intro hnp
      obtain ⟨a, ha⟩ := Option.ne_none_iff_exists'.mp hnp
      obtain ⟨b, hbq⟩ := Option.ne_none_iff_exists'.mp hnq
      refine ⟨b, a, hbq, ha, ?_⟩
      rcases hcase with ⟨e, hall⟩ | ⟨pre, m2, post, hsplit, hobs2, _, _, hpre, hpost⟩
      · have hf := hall m hm p hobs hb
        rw [e] at hbq
        exact le_of_gt_false M val hval _ _ a b ha hbq hf
      · rw [hsplit, List.mem_append, List.mem_cons] at hm
        rcases hm with hm | hm | hm
        · rcases hpre m hm p hobs hb with hg | hn
          · obtain ⟨b2, a2, hb3, ha3, hlt⟩ := (hval _ _).mp hg
            rw [hbq] at hb3
            rw [ha] at ha3
            have e1 := Option.some.inj hb3
            have e2 := Option.some.inj ha3
            rw [e1, e2]
            exact le_of_lt hlt
          · rw [ha] at hn
            cases hn
        · rw [hm, hobs2] at hobs
          have e := Option.some.inj hobs
          rw [e] at hbq
          rw [ha] at hbq
          rw [Option.some.inj hbq]
        · exact le_of_gt_false M val hval _ _ a b ha hbq (hpost m hm p hobs hb)
  · intro i q hq
    have hr := vecGet_lt_length _ _ _ hq
    rw [hlen360] at hr
    have hi360 : i < 360 := by exact_mod_cast hr.2
    obtain ⟨q1, hq1, hnq, hcase⟩ :=
      processAll_polar_slot M val hval msgs _ s hrun i _ (hslot i hr.1 hi360) hnum
    rw [href0] at hnq hcase
    rw [hq] at hq1
    have e := Except.ok.inj hq1
    subst e
    refine ⟨hnq, ?_⟩
    rcases hcase with ⟨e, _⟩ | ⟨_, _, _, _, _, _, hd, _, _⟩
    · exact Or.inl e
    · exact Or.inr hd

/-- C10 at the run of the two southern messages over the real numbers, where the
position (-30, 0.1) is stored in slot 180: every real number is its own value. -/
theorem polar_range_maximal_unless_nan_witness :
    ∃ s : data ℝ,
      processAll realLibm (dataScratch 0 0 (0 : ℝ) 0) [(1, msgSouthEast), (2, msgSouthWest)] =
        Except.ok s ∧
      vecGet s.polarRange 180 = Except.ok { lat := -30, lon := 1 / 10 } ∧
      (s.ref = { lat := 0, lon := 0 } ∧ s.polarRange.length = 360 ∧
      (∀ m ∈ [((1 : Int), msgSouthEast), (2, msgSouthWest)], ∀ p,
        observedPosition realLibm m.2 = some p →
        ∃ i q, castInt realLibm (realLibm.round (getBearing realLibm { lat := 0, lon := 0 } p)) =
            Except.ok i ∧
          0 ≤ i ∧ i < 360 ∧ vecGet s.polarRange i = Except.ok q ∧
          (geByValue (fun x : ℝ => some x) (getDistance realLibm { lat := 0, lon := 0 } q)
              (getDistance realLibm { lat := 0, lon := 0 } p) ↔
            (fun x : ℝ => some x) (getDistance realLibm { lat := 0, lon := 0 } p) ≠ none)) ∧
      (∀ (i : Int) (q : tCoords ℝ), vecGet s.polarRange i = Except.ok q →
        (fun x : ℝ => some x) (getDistance realLibm { lat := 0, lon := 0 } q) ≠ none ∧
        (q = { lat := 0, lon := 0 } ∨
          realLibm.gt (getDistance realLibm { lat := 0, lon := 0 } q)
            (getDistance realLibm { lat := 0, lon := 0 } { lat := 0, lon := 0 }) = true))) :=
  ⟨_, processAll_south, vecGet_south_180,
    polar_range_maximal_unless_nan realLibm (fun x : ℝ => some x) realLibm_gtByValue 0 0 0 0
      [(1, msgSouthEast), (2, msgSouthWest)] _ processAll_south (Option.some_ne_none _)⟩

/-- The amended C11 at the run of the two southern messages over the real numbers,
slot 180: the position (-30, 0.1), seen first, is the one the slot holds. -/
theorem polar_range_first_maximum_witness :
    ∃ s : data ℝ,
      processAll realLibm (dataScratch 0 0 (0 : ℝ) 0) [(1, msgSouthEast), (2, msgSouthWest)] =
        Except.ok s ∧
      vecGet s.polarRange 180 = Except.ok { lat := -30, lon := 1 / 10 } ∧
      ∃ q, vecGet s.polarRange 180 = Except.ok q ∧
        (fun x : ℝ => some x) (getDistance realLibm { lat := 0, lon := 0 } q) ≠ none ∧
        ((q = { lat := 0, lon := 0 } ∧
            ∀ m ∈ [((1 : Int), msgSouthEast), (2, msgSouthWest)], ∀ p,
              observedPosition realLibm m.2 = some p →
              castInt realLibm (realLibm.round (getBearing realLibm { lat := 0, lon := 0 } p)) =
                Except.ok 180 →
              realLibm.gt (getDistance realLibm { lat := 0, lon := 0 } p)
                (getDistance realLibm { lat := 0, lon := 0 } { lat := 0, lon := 0 }) = false) ∨
         (∃ pre m post, [((1 : Int), msgSouthEast), (2, msgSouthWest)] = pre ++ m :: post ∧
            observedPosition realLibm m.2 = some q ∧
            castInt realLibm (realLibm.round (getBearing realLibm { lat := 0, lon := 0 } q)) =
              Except.ok 180 ∧
            realLibm.gt (getDistance realLibm { lat := 0, lon := 0 } q)
              (getDistance realLibm { lat := 0, lon := 0 } { lat := 0, lon := 0 }) = true ∧
            (∀ m1 ∈ pre, ∀ p, observedPosition realLibm m1.2 = some p →
              castInt realLibm (realLibm.round (getBearing realLibm { lat := 0, lon := 0 } p)) =
                Except.ok 180 →
              realLibm.gt (getDistance realLibm { lat := 0, lon := 0 } q)
                  (getDistance realLibm { lat := 0, lon := 0 } p) = true ∨
                (fun x : ℝ => some x) (getDistance realLibm { lat := 0, lon := 0 } p) = none) ∧
            (∀ m1 ∈ post, ∀ p, observedPosition realLibm m1.2 = some p →
              castInt realLibm (realLibm.round (getBearing realLibm { lat := 0, lon := 0 } p)) =
                Except.ok 180 →
              realLibm.gt (getDistance realLibm { lat := 0, lon := 0 } p)
                (getDistance realLibm { lat := 0, lon := 0 } q) = false))) :=
  ⟨_, processAll_south, vecGet_south_180,
    polar_range_first_maximum realLibm (fun x : ℝ => some x) realLibm_gtByValue 0 0 0 0
      [(1, msgSouthEast), (2, msgSouthWest)] _ processAll_south (Option.some_ne_none _)
      180 (by decide) (by decide)⟩
/-! ### The distance, over the doubles -/

/-- The double nearest to a positive real number, from its binary exponent e and
the integer n nearest to its 53 digits. -/
theorem roundDouble_eq (x : ℝ) (e n : Int) (hpos : 0 < x) (h1 : (2 : ℝ) ^ e ≤ x)
    (h2 : x < (2 : ℝ) ^ (e + 1)) (h3 : (n : ℝ) - 1 / 2 < x * (2 : ℝ) ^ (52 - e))
    (h4 : x * (2 : ℝ) ^ (52 - e) < (n : ℝ) + 1 / 2) :
    roundDouble x = (n : ℝ) * (2 : ℝ) ^ (e - 52) := by
  have habs : |x| = x := abs_of_pos hpos
  have hlog : Int.log 2 |x| = e := by
    rw [habs]
    apply le_antisymm
    · have h := (Int.lt_zpow_iff_log_lt (by norm_num : 1 < 2) hpos).mp
        (by exact_mod_cast h2 : x < ((2 : ℕ) : ℝ) ^ (e + 1))
      omega
    · exact (Int.zpow_le_iff_le_log (by norm_num : 1 < 2) hpos).mp
        (by exact_mod_cast h1 : ((2 : ℕ) : ℝ) ^ e ≤ x)
  unfold roundDouble
  rw [if_neg (ne_of_gt hpos), hlog, roundEvenReal_of _ n h3 h4]

theorem roundDouble_zero : roundDouble 0 = 0 := by
  unfold roundDouble
  rw [if_pos rfl]

theorem roundDouble_one : roundDouble 1 = 1 := by
  rw [roundDouble_eq 1 0 4503599627370496 (by norm_num) (by norm_num) (by norm_num)
    (by norm_num) (by norm_num)]
  norm_num

theorem roundDouble_two : roundDouble 2 = 2 := by
  rw [roundDouble_eq 2 1 4503599627370496 (by norm_num) (by norm_num) (by norm_num)
    (by norm_num) (by norm_num)]
  norm_num

theorem roundDouble_180 : roundDouble 180 = 180 := by
  rw [roundDouble_eq 180 7 6333186975989760 (by norm_num) (by norm_num) (by norm_num)
    (by norm_num) (by norm_num)]
  norm_num

/-- The factor of toRadians in double arithmetic: M_PI / 180.0 is the double
5030569068109113 / 2^58. -/
theorem roundDouble_pi_div_180 :
    roundDouble ((884279719003555 / 281474976710656 : ℝ) / 180) =
      5030569068109113 / 288230376151711744 := by
  rw [roundDouble_eq _ (-6) 5030569068109113 (by norm_num) (by norm_num) (by norm_num)
    (by norm_num) (by norm_num)]
  norm_num

theorem toRadians_double (x : ℝ) :
    toRadians doubleLibm x = roundDouble (x * (5030569068109113 / 288230376151711744)) := by
  have h180 : ((180 : ℚ) : ℝ) = 180 := by norm_num
  unfold toRadians
  simp only [doubleLibm]
  rw [h180, roundDouble_180, roundDouble_pi_div_180]

/-- In double arithmetic the latitudes 58 and 58 + 2^-47, two neighbouring doubles,
have the same radians: both products round to the double 1139738304493471 / 2^50. -/
theorem toRadians_double_58 :
    toRadians doubleLibm 58 = 1139738304493471 / 1125899906842624 ∧
    toRadians doubleLibm (58 + 1 / 140737488355328) = 1139738304493471 / 1125899906842624 := by
  rw [toRadians_double, toRadians_double]
  constructor
  · rw [roundDouble_eq _ 0 4558953217973884 (by norm_num) (by norm_num) (by norm_num)
      (by norm_num) (by norm_num)]
    norm_num
  · rw [roundDouble_eq _ 0 4558953217973884 (by norm_num) (by norm_num) (by norm_num)
      (by norm_num) (by norm_num)]
    norm_num

/-- In double arithmetic two positions whose coordinates have the same radians are at
distance zero. -/
theorem getDistance_double_of_eq (a b : tCoords ℝ)
    (hlat : toRadians doubleLibm a.lat = toRadians doubleLibm b.lat)
    (hlon : toRadians doubleLibm a.lon = toRadians doubleLibm b.lon) :
    getDistance doubleLibm a b = 0 := by
  have h1 : ((1 : ℚ) : ℝ) = 1 := by norm_num
  have h2 : ((2 : ℚ) : ℝ) = 2 := by norm_num
  have hpow : ((0 : ℝ) ^ (2 : ℝ)) = 0 := Real.zero_rpow (by norm_num)
  have harg : Complex.arg ⟨1, 0⟩ = 0 := by
    have e : (⟨1, 0⟩ : ℂ) = 1 := rfl
    rw [e, Complex.arg_one]
  unfold getDistance
  rw [hlat, hlon]
  simp only [doubleLibm, h1, h2, sub_self, roundDouble_zero, zero_div, Real.sin_zero, hpow,
    mul_zero, add_zero, Real.sqrt_zero, roundDouble_one, sub_zero, Real.sqrt_one, harg,
    roundDouble_two]

theorem roundDouble_58 : roundDouble 58 = 58 := by
  rw [roundDouble_eq 58 5 8162774324609024 (by norm_num) (by norm_num) (by norm_num)
    (by norm_num) (by norm_num)]
  norm_num

/-- The text 58.00000000000001 denotes, in double arithmetic, the double next above
58, which is 58 + 2^-47. -/
theorem stod_double_58 :
    doubleLibm.stod "58".toList = Except.ok 58 ∧
    doubleLibm.stod "58.00000000000001".toList = Except.ok (58 + 1 / 140737488355328) := by
  have h : stodParts "58".toList = Except.ok (false, 58, 0) := by decide
  have k : stodParts "58.00000000000001".toList = Except.ok (false, 5800000000000001, -14) := by
    decide
  constructor
  · simp only [doubleLibm, h, decimalValue]
    norm_num
    exact roundDouble_58
  · simp only [doubleLibm, k, decimalValue]
    rw [roundDouble_eq _ 5 8162774324609025 (by norm_num) (by norm_num) (by norm_num)
      (by norm_num) (by norm_num)]
    norm_num

/-- C20, counterexample: in double arithmetic the positions (58, 10) and
(58.00000000000001, 10), whose latitudes are the neighbouring doubles 58 and
58 + 2^-47 and which lie within the ranges of the claim, are different pairs at
distance exactly zero from each other: the two latitudes have the same radians. -/
theorem distance_zero_at_distinct_points :
    doubleLibm.stod "58".toList = Except.ok 58 ∧
    doubleLibm.stod "58.00000000000001".toList = Except.ok (58 + 1 / 140737488355328) ∧
    getDistance doubleLibm { lat := 58, lon := 10 }
      { lat := 58 + 1 / 140737488355328, lon := 10 } = 0 ∧
    ({ lat := 58 + 1 / 140737488355328, lon := 10 } : tCoords ℝ) ≠ { lat := 58, lon := 10 } ∧
    (-90 : ℝ) ≤ 58 ∧ (58 : ℝ) + 1 / 140737488355328 ≤ 90 ∧ (-180 : ℝ) < 10 ∧
    (10 : ℝ) ≤ 180 := by
  refine ⟨stod_double_58.1, stod_double_58.2, ?_, ?_, by norm_num, by norm_num, by norm_num,
    by norm_num⟩
  · apply getDistance_double_of_eq
    · show toRadians doubleLibm 58 = toRadians doubleLibm (58 + 1 / 140737488355328)
      rw [toRadians_double_58.1, toRadians_double_58.2]
    · rfl
  · intro h
    have := congrArg tCoords.lat h
    norm_num at this

/-- C20 as amended: the distance from a position to itself is zero, in double
arithmetic and over the real numbers alike. -/
theorem distance_zero_at_same_point (R : tCoords ℝ) :
    getDistance doubleLibm R R = 0 ∧ getDistance realLibm R R = 0 := by
  refine ⟨getDistance_double_of_eq R R rfl rfl, ?_⟩
  rw [getDistance_real_eq_zero]
  simp

end DumpStats
